import Mathlib

/-!
# imx-smart-fitness: pose classification, repetition counting, temporal filters

A shallow embedding of the classifier core of the repository
(`src/utils/keypoint.cc`, `src/utils/pose_landmark.cc`, `src/utils/bounding_box.cc`,
`src/utils/ema_filter.cc`, `src/utils/pose_detection.cc`, `src/classifier/*.cc`,
`src/mediapipe/pose_detection_interpreter.cc`) and theorems about it.

Conventions of the embedding.

* A C++ `float` is an element of a linearly ordered field `K` (exact arithmetic);
  every definition is computable and can be run at `K = ℚ`.
* `std::sqrt` is the parameter `sqrt` of `Runtime`.
* `Landmark::operator[](const std::string&)` has no `return` for a key outside
  the 33 names; what the caller reads then is the parameter `undef` of `Runtime`,
  a function of the landmark and the key.
* `Hysteresis.step` and `Filter.weightedMean` follow the words of the specification;
  the code is compared with them.
* `std::sort` is the parameter `StdSortDesc`: a function together with the contract
  the C++ standard gives it (a permutation of the input, ordered by the comparator).
* `std::vector::at` throws `std::out_of_range`; functions that can throw return `Option`.
* `std::exp` is the parameter `exp` of the functions that use it.
* A raw array is a list; an unchecked read past its end and `exit(-1)` are the two
  `Fault`s of `Except Fault`. A null pointer argument is `none`.
-/

namespace SmartFitness

/-! ## `src/utils/keypoint.cc` -/

/-- A 3D point, `class Keypoint`. -/
structure Keypoint (K : Type) where
  x : K
  y : K
  z : K
deriving DecidableEq, Repr

namespace Keypoint

variable {K : Type} [LinearOrderedField K]

/-- Default constructor `Keypoint()`. -/
def zero : Keypoint K := ⟨0, 0, 0⟩

/-- Distance operator 2D, `Keypoint::operator^`. -/
def dist2D (sqrt : K → K) (a kp : Keypoint K) : K :=
  sqrt ((a.x - kp.x) ^ 2 + (a.y - kp.y) ^ 2)

/-- `Keypoint::operator+(const float&)`. -/
def addScalar (a : Keypoint K) (value : K) : Keypoint K :=
  ⟨a.x + value, a.y + value, a.z + value⟩

/-- `Keypoint::operator*(const float&)`. -/
def mulScalar (a : Keypoint K) (value : K) : Keypoint K :=
  ⟨a.x * value, a.y * value, a.z * value⟩

/-- `Keypoint::operator/(const float&)`. -/
def divScalar (a : Keypoint K) (value : K) : Keypoint K :=
  ⟨a.x / value, a.y / value, a.z / value⟩

/-- `Keypoint::operator+(const Keypoint&)`. -/
def add (a kp : Keypoint K) : Keypoint K :=
  ⟨a.x + kp.x, a.y + kp.y, a.z + kp.z⟩

/-- `Keypoint::operator-(const Keypoint&)`. -/
def sub (a kp : Keypoint K) : Keypoint K :=
  ⟨a.x - kp.x, a.y - kp.y, a.z - kp.z⟩

/-- `Keypoint::operator*(const Keypoint&)`. -/
def mul (a kp : Keypoint K) : Keypoint K :=
  ⟨a.x * kp.x, a.y * kp.y, a.z * kp.z⟩

/-- `Keypoint::operator/(const Keypoint&)`. -/
def div (a kp : Keypoint K) : Keypoint K :=
  ⟨a.x / kp.x, a.y / kp.y, a.z / kp.z⟩

end Keypoint

/-! ## `src/utils/pose_landmark.cc` -/

/-- The 33 named keypoints of `class Landmark`, in declaration order. -/
structure Landmark (K : Type) where
  nose : Keypoint K
  left_eye_inner : Keypoint K
  left_eye : Keypoint K
  left_eye_outer : Keypoint K
  right_eye_inner : Keypoint K
  right_eye : Keypoint K
  right_eye_outer : Keypoint K
  left_ear : Keypoint K
  right_ear : Keypoint K
  left_mouth : Keypoint K
  right_mouth : Keypoint K
  left_shoulder : Keypoint K
  right_shoulder : Keypoint K
  left_elbow : Keypoint K
  right_elbow : Keypoint K
  left_wrist : Keypoint K
  right_wrist : Keypoint K
  left_pinky : Keypoint K
  right_pinky : Keypoint K
  left_index : Keypoint K
  right_index : Keypoint K
  left_thumb : Keypoint K
  right_thumb : Keypoint K
  left_hip : Keypoint K
  right_hip : Keypoint K
  left_knee : Keypoint K
  right_knee : Keypoint K
  left_ankle : Keypoint K
  right_ankle : Keypoint K
  left_heel : Keypoint K
  right_heel : Keypoint K
  left_foot : Keypoint K
  right_foot : Keypoint K
deriving DecidableEq, Repr

namespace Landmark

variable {K : Type} [LinearOrderedField K]

/-- Default constructor `Landmark()`: every keypoint is `Keypoint()`. -/
def zero : Landmark K :=
  ⟨.zero, .zero, .zero, .zero, .zero, .zero, .zero, .zero, .zero, .zero, .zero,
   .zero, .zero, .zero, .zero, .zero, .zero, .zero, .zero, .zero, .zero, .zero,
   .zero, .zero, .zero, .zero, .zero, .zero, .zero, .zero, .zero, .zero, .zero⟩

/-- Getter `Landmark::operator()(const int&)`. The switch has no case for an
index outside 0..32 (no caller passes one); the model yields `Keypoint()` there. -/
def get (lm : Landmark K) (index : Nat) : Keypoint K :=
  match index with
  | 0 => lm.nose
  | 1 => lm.left_eye_inner
  | 2 => lm.left_eye
  | 3 => lm.left_eye_outer
  | 4 => lm.right_eye_inner
  | 5 => lm.right_eye
  | 6 => lm.right_eye_outer
  | 7 => lm.left_ear
  | 8 => lm.right_ear
  | 9 => lm.left_mouth
  | 10 => lm.right_mouth
  | 11 => lm.left_shoulder
  | 12 => lm.right_shoulder
  | 13 => lm.left_elbow
  | 14 => lm.right_elbow
  | 15 => lm.left_wrist
  | 16 => lm.right_wrist
  | 17 => lm.left_pinky
  | 18 => lm.right_pinky
  | 19 => lm.left_index
  | 20 => lm.right_index
  | 21 => lm.left_thumb
  | 22 => lm.right_thumb
  | 23 => lm.left_hip
  | 24 => lm.right_hip
  | 25 => lm.left_knee
  | 26 => lm.right_knee
  | 27 => lm.left_ankle
  | 28 => lm.right_ankle
  | 29 => lm.left_heel
  | 30 => lm.right_heel
  | 31 => lm.left_foot
  | 32 => lm.right_foot
  | _ => .zero

/-- Assignment through `Landmark::operator[](const int&)`: `lm[index] = kp`.
An index outside 0..32 (never passed) leaves the landmark as it is. -/
def set (lm : Landmark K) (index : Nat) (kp : Keypoint K) : Landmark K :=
  match index with
  | 0 => { lm with nose := kp }
  | 1 => { lm with left_eye_inner := kp }
  | 2 => { lm with left_eye := kp }
  | 3 => { lm with left_eye_outer := kp }
  | 4 => { lm with right_eye_inner := kp }
  | 5 => { lm with right_eye := kp }
  | 6 => { lm with right_eye_outer := kp }
  | 7 => { lm with left_ear := kp }
  | 8 => { lm with right_ear := kp }
  | 9 => { lm with left_mouth := kp }
  | 10 => { lm with right_mouth := kp }
  | 11 => { lm with left_shoulder := kp }
  | 12 => { lm with right_shoulder := kp }
  | 13 => { lm with left_elbow := kp }
  | 14 => { lm with right_elbow := kp }
  | 15 => { lm with left_wrist := kp }
  | 16 => { lm with right_wrist := kp }
  | 17 => { lm with left_pinky := kp }
  | 18 => { lm with right_pinky := kp }
  | 19 => { lm with left_index := kp }
  | 20 => { lm with right_index := kp }
  | 21 => { lm with left_thumb := kp }
  | 22 => { lm with right_thumb := kp }
  | 23 => { lm with left_hip := kp }
  | 24 => { lm with right_hip := kp }
  | 25 => { lm with left_knee := kp }
  | 26 => { lm with right_knee := kp }
  | 27 => { lm with left_ankle := kp }
  | 28 => { lm with right_ankle := kp }
  | 29 => { lm with left_heel := kp }
  | 30 => { lm with right_heel := kp }
  | 31 => { lm with left_foot := kp }
  | 32 => { lm with right_foot := kp }
  | _ => lm

/-- Getter `Landmark::operator[](const std::string&)`: the chain of `if (key == ...)`.
A key that is none of the 33 names reaches the end of the function without a
`return`; the value read by the caller is then `undef lm key`. -/
def byName (undef : Landmark K → String → Keypoint K) (lm : Landmark K) (key : String) :
    Keypoint K :=
  if key = "nose" then lm.nose
  else if key = "left_eye_inner" then lm.left_eye_inner
  else if key = "left_eye" then lm.left_eye
  else if key = "left_eye_outer" then lm.left_eye_outer
  else if key = "right_eye_inner" then lm.right_eye_inner
  else if key = "right_eye" then lm.right_eye
  else if key = "right_eye_outer" then lm.right_eye_outer
  else if key = "left_ear" then lm.left_ear
  else if key = "right_ear" then lm.right_ear
  else if key = "left_mouth" then lm.left_mouth
  else if key = "right_mouth" then lm.right_mouth
  else if key = "left_shoulder" then lm.left_shoulder
  else if key = "right_shoulder" then lm.right_shoulder
  else if key = "left_elbow" then lm.left_elbow
  else if key = "right_elbow" then lm.right_elbow
  else if key = "left_wrist" then lm.left_wrist
  else if key = "right_wrist" then lm.right_wrist
  else if key = "left_pinky" then lm.left_pinky
  else if key = "right_pinky" then lm.right_pinky
  else if key = "left_index" then lm.left_index
  else if key = "right_index" then lm.right_index
  else if key = "left_thumb" then lm.left_thumb
  else if key = "right_thumb" then lm.right_thumb
  else if key = "left_hip" then lm.left_hip
  else if key = "right_hip" then lm.right_hip
  else if key = "left_knee" then lm.left_knee
  else if key = "right_knee" then lm.right_knee
  else if key = "left_ankle" then lm.left_ankle
  else if key = "right_ankle" then lm.right_ankle
  else if key = "left_heel" then lm.left_heel
  else if key = "right_heel" then lm.right_heel
  else if key = "left_foot" then lm.left_foot
  else if key = "right_foot" then lm.right_foot
  else undef lm key

/-- The loop `for (i = 0; i < 33; i++) lm[i] = g(i, lm(i));` shared by the
landmark operators and their callers. -/
def forEach (lm : Landmark K) (g : Nat → Keypoint K → Keypoint K) : Landmark K :=
  (List.range 33).foldl (fun acc i => acc.set i (g i (acc.get i))) lm

/-- `Landmark::operator*(const float&)`. -/
def mulScalar (lm : Landmark K) (factor : K) : Landmark K :=
  lm.forEach (fun _ kp => kp.mulScalar factor)

/-- `Landmark::operator/(const Landmark&)`. -/
def div (lm landmark : Landmark K) : Landmark K :=
  lm.forEach (fun i kp => kp.div (landmark.get i))

/-- `Landmark::operator+=(const Landmark&)` (the updated object). -/
def addAssign (lm landmark : Landmark K) : Landmark K :=
  lm.forEach (fun i kp => kp.add (landmark.get i))

/-- `Landmark::operator+=(const float&)` (the updated object). -/
def addAssignScalar (lm : Landmark K) (factor : K) : Landmark K :=
  lm.forEach (fun _ kp => kp.addScalar factor)

end Landmark

/-! ## Parameters of the embedding -/

/-- What the embedding takes from outside the source files: `std::sqrt`, and the
value read after `Landmark::operator[](const std::string&)` ran past its last `if`. -/
structure Runtime (K : Type) where
  sqrt : K → K
  undef : Landmark K → String → Keypoint K

/-- The contract of `std::sort(first, last, comp)` for the comparator
`[](auto &left, auto &right) { return left.second > right.second; }`, with `key`
reading `.second`: the result is a permutation of the input and no later element
compares before an earlier one. Nothing is promised about the order of equal keys. -/
structure StdSortDesc (α : Type) {K : Type} [LinearOrder K] (key : α → K) where
  sort : List α → List α
  perm : ∀ l, List.Perm (sort l) l
  sorted : ∀ l, List.Pairwise (fun a b => key b ≤ key a) (sort l)

/-! ## `src/classifier/pose_embedding.cc` -/

/-- The configuration of `class FullBodyPoseEmbedder` (its `landmark` member is
overwritten by every `get_embedding` call and carries nothing between calls). -/
structure FullBodyPoseEmbedder (K : Type) where
  torso_size_multiplier : K

namespace FullBodyPoseEmbedder

variable {K : Type} [LinearOrderedField K]

/-- Constructor with its default argument, `FullBodyPoseEmbedder(float torso_size_multiplier = 2.5)`. -/
def new : FullBodyPoseEmbedder K := ⟨5 / 2⟩

/-- `FullBodyPoseEmbedder::get_pose_size`, on the member `landmark`. -/
def get_pose_size (R : Runtime K) (E : FullBodyPoseEmbedder K) (landmark : Landmark K) : K :=
  let hips_center :=
    ((landmark.byName R.undef "left_hip").add (landmark.byName R.undef "right_hip")).mulScalar (1 / 2)
  let shoulders_center :=
    ((landmark.byName R.undef "left_shoulder").add
      (landmark.byName R.undef "right_shoulder")).mulScalar (1 / 2)
  let torso_size := hips_center.dist2D R.sqrt shoulders_center
  (List.range 33).foldl
    (fun max_distance i =>
      let distance := (landmark.get i).dist2D R.sqrt hips_center
      if distance > max_distance then distance else max_distance)
    (torso_size * E.torso_size_multiplier)

/-- `FullBodyPoseEmbedder::normalize_pose_landmarks`: the new value of the member `landmark`. -/
def normalize_pose_landmarks (R : Runtime K) (E : FullBodyPoseEmbedder K)
    (landmark : Landmark K) : Landmark K :=
  let pose_center :=
    ((landmark.byName R.undef "left_hip").add (landmark.byName R.undef "right_hip")).mulScalar (1 / 2)
  let pose_size := get_pose_size R E landmark
  landmark.forEach (fun _ kp => ((kp.sub pose_center).divScalar pose_size).mulScalar 100)

/-- `FullBodyPoseEmbedder::get_pose_distance_embedding`, on the (normalized) member
`landmark`: the 23 `push_back`s in source order, keys spelled as in the source. -/
def get_pose_distance_embedding (R : Runtime K) (landmark : Landmark K) : List (Keypoint K) :=
  let lm := landmark.byName R.undef
  let average_hip := ((lm "left_hip").add (lm "right_hip")).mulScalar (1 / 2)
  let average_shoulder := ((lm "left_shoulder").add (lm "right_shoulder")).mulScalar (1 / 2)
  [ average_shoulder.sub average_hip,
    ((lm "left_shoulder").add (lm "left_elbow")).mulScalar (1 / 2),
    ((lm "right_shoulder").add (lm "right_elbow")).mulScalar (1 / 2),
    ((lm "left_elbow").add (lm "left_wrist")).mulScalar (1 / 2),
    ((lm "right_elbow").add (lm "right_wrist")).mulScalar (1 / 2),
    ((lm "left_hip").add (lm "left_knee")).mulScalar (1 / 2),
    ((lm "right_hip").add (lm "right_knee")).mulScalar (1 / 2),
    ((lm "left_knee").add (lm "left_ankle")).mulScalar (1 / 2),
    ((lm "right_knee").add (lm "right_ankle")).mulScalar (1 / 2),
    ((lm "left_shoulders").add (lm "left_wrist")).mulScalar (1 / 2),
    ((lm "right_shoulders").add (lm "right_wrist")).mulScalar (1 / 2),
    ((lm "left_hip").add (lm "left_ankle")).mulScalar (1 / 2),
    ((lm "right_hip").add (lm "right_ankle")).mulScalar (1 / 2),
    ((lm "left_hip").add (lm "left_wrist")).mulScalar (1 / 2),
    ((lm "right_hip").add (lm "right_wrist")).mulScalar (1 / 2),
    ((lm "left_shoulders").add (lm "left_ankle")).mulScalar (1 / 2),
    ((lm "right_shoulders").add (lm "right_ankle")).mulScalar (1 / 2),
    ((lm "left_hip").add (lm "left_wrist")).mulScalar (1 / 2),
    ((lm "right_hip").add (lm "right_wrist")).mulScalar (1 / 2),
    ((lm "left_elbow").add (lm "right_elbow")).mulScalar (1 / 2),
    ((lm "left_knee").add (lm "right_knee")).mulScalar (1 / 2),
    ((lm "left_wrist").add (lm "right_wrist")).mulScalar (1 / 2),
    ((lm "left_ankle").add (lm "right_ankle")).mulScalar (1 / 2) ]

/-- `FullBodyPoseEmbedder::get_embedding`. -/
def get_embedding (R : Runtime K) (E : FullBodyPoseEmbedder K) (landmark : Landmark K) :
    List (Keypoint K) :=
  get_pose_distance_embedding R (normalize_pose_landmarks R E landmark)

end FullBodyPoseEmbedder

/-! ## `src/classifier/classification_result.cc` -/

/-- The `std::map<std::string, float> class_confidences` of `class ClassificationResult`:
its entries in iteration order (ascending keys). -/
structure ClassificationResult (K : Type) where
  class_confidences : List (String × K)
deriving DecidableEq, Repr

namespace ClassificationResult

variable {K : Type} [LinearOrderedField K]

/-- Constructor `ClassificationResult()`: the empty map. -/
def empty : ClassificationResult K := ⟨[]⟩

/-- `class_confidences.find(class_name)`: the mapped value, `none` for `end()`. -/
def find : List (String × K) → String → Option K
  | [], _ => none
  | (k, v) :: rest, class_name => if k = class_name then some v else find rest class_name

/-- `class_confidences[class_name] = confidence` on the ordered map: overwrite the
entry of an existing key, insert a new key at its place in ascending key order. -/
def assign : List (String × K) → String → K → List (String × K)
  | [], class_name, confidence => [(class_name, confidence)]
  | (k, v) :: rest, class_name, confidence =>
    if class_name < k then (class_name, confidence) :: (k, v) :: rest
    else if class_name = k then (class_name, confidence) :: rest
    else (k, v) :: assign rest class_name confidence

/-- `ClassificationResult::get_class_confidence`. -/
def get_class_confidence (r : ClassificationResult K) (class_name : String) : K :=
  match find r.class_confidences class_name with
  | none => 0
  | some v => v

/-- `ClassificationResult::has_key`. -/
def has_key (r : ClassificationResult K) (key : String) : Bool :=
  match find r.class_confidences key with
  | none => false
  | some _ => true

/-- `ClassificationResult::increment_class_confidence`. -/
def increment_class_confidence (r : ClassificationResult K) (class_name : String) :
    ClassificationResult K :=
  ⟨assign r.class_confidences class_name
    (match find r.class_confidences class_name with
     | none => 1
     | some v => v + 1)⟩

/-- `ClassificationResult::put_class_confidence`. -/
def put_class_confidence (r : ClassificationResult K) (class_name : String) (confidence : K) :
    ClassificationResult K :=
  ⟨assign r.class_confidences class_name confidence⟩

/-- `ClassificationResult::getKeys`. -/
def getKeys (r : ClassificationResult K) : List String :=
  r.class_confidences.map Prod.fst

/-- The conversion `int value = iterator_map->second;`: a `float` converted to
`int` is truncated toward zero (a value beyond the range of `int` is outside the model). -/
def toInt [FloorRing K] (v : K) : ℤ :=
  if 0 ≤ v then ⌊v⌋ else ⌈v⌉

/-- `ClassificationResult::get_max_confidence_class`: one pass over the map in
iteration order, carrying `(max_confidence, key_class)`. -/
def get_max_confidence_class [FloorRing K] (r : ClassificationResult K) : String :=
  (r.class_confidences.foldl
    (fun (st : K × String) (entry : String × K) =>
      let key := entry.1
      let value : ℤ := toInt entry.2
      if (value : K) > st.1 then ((value : K), key) else st)
    ((0 : K), "")).2

end ClassificationResult

/-! ## `src/classifier/pose_sample.cc` -/

/-- The data members of `class PoseSample` (its private embedder has no state). -/
structure PoseSample (K : Type) where
  name : String
  class_name : String
  embedding : List (Keypoint K)
deriving DecidableEq, Repr

namespace PoseSample

variable {K : Type} [LinearOrderedField K]

/-- Constructor `PoseSample(name, class_name, landmark)`: the embedding is computed
by the sample's own default-constructed embedder. -/
def new (R : Runtime K) (name class_name : String) (landmark : Landmark K) : PoseSample K :=
  ⟨name, class_name, FullBodyPoseEmbedder.get_embedding R FullBodyPoseEmbedder.new landmark⟩

end PoseSample

/-! ## `src/classifier/pose_classification.cc` -/

namespace PoseClassifier

variable {K : Type} [LinearOrderedField K]

/-- Member initializer `top_n_by_max_distance{30}`. -/
def top_n_by_max_distance : Nat := 30

/-- Member initializer `top_n_by_mean_distance{10}`. -/
def top_n_by_mean_distance : Nat := 10

/-- `PoseClassifier::getMaxAbs`. -/
def getMaxAbs (point : Keypoint K) : K :=
  max (max |point.x| |point.y|) |point.z|

/-- `PoseClassifier::getSumAbs`. -/
def getSumAbs (point : Keypoint K) : K :=
  |point.x| + |point.y| + |point.z|

/-- The local `Keypoint scale{1.0, 1.0, 0.2}`. -/
def scale : Keypoint K := ⟨1, 1, 1 / 5⟩

/-- The keypoint `Keypoint kp(p["x"] * -1.0, p["y"], p["z"])` of the flipping loop. -/
def flip_x (p : Keypoint K) : Keypoint K := ⟨p.x * (-1), p.y, p.z⟩

/-- The local `flipped_landmarks`: the loop over the 33 points at the head of `classify_pose`. -/
def flipped_landmarks (landmark : Landmark K) : Landmark K :=
  landmark.forEach (fun _ kp => flip_x kp)

/-- The inner loop `for (j = 0; j < embeddings.size(); j++)` of the max-distance
stage, carrying `(originalMax, flippedMax)`. The three vectors are walked in step;
`none` is the `std::out_of_range` of `.at(j)` on a vector shorter than `embeddings`. -/
def maxLoop : List (Keypoint K) → List (Keypoint K) → List (Keypoint K) → K × K → Option (K × K)
  | [], _, _, acc => some acc
  | e :: es, f :: fs, s :: ss, (originalMax, flippedMax) =>
    maxLoop es fs ss
      (max originalMax (getMaxAbs ((e.sub s).mul scale)),
       max flippedMax (getMaxAbs ((f.sub s).mul scale)))
  | _ :: _, _, _, _ => none

/-- The inner loop of the mean-distance stage, carrying `(originalSum, flippedSum)`. -/
def sumLoop : List (Keypoint K) → List (Keypoint K) → List (Keypoint K) → K × K → Option (K × K)
  | [], _, _, acc => some acc
  | e :: es, f :: fs, s :: ss, (originalSum, flippedSum) =>
    sumLoop es fs ss
      (originalSum + getSumAbs ((e.sub s).mul scale),
       flippedSum + getSumAbs ((f.sub s).mul scale))
  | _ :: _, _, _, _ => none

/-- An outer loop `for (i = 0; i < v.size(); i++) out.push_back(body(v.at(i)))` whose
body can throw: the vector built, or `none` when some iteration throws. -/
def forAll {α β : Type} (body : α → Option β) : List α → Option (List β)
  | [] => some []
  | a :: rest =>
    match body a with
    | none => none
    | some b => (forAll body rest).map (fun bs => b :: bs)

/-- The loop `for (i = 0; i < num_to_remove; i++) v.erase(v.begin());`. -/
def eraseFront {α : Type} : Nat → List α → List α
  | 0, v => v
  | n + 1, v => eraseFront n v.tail

/-- The block `if (v.size() > top_n) { num_to_remove = v.size() - top_n; ... }`. -/
def removeMax {α : Type} (top_n : Nat) (v : List α) : List α :=
  if v.length > top_n then eraseFront (v.length - top_n) v else v

/-- The entries the erase loop of `removeMax` takes off the front. -/
def removed {α : Type} (top_n : Nat) (v : List α) : List α :=
  if v.length > top_n then v.take (v.length - top_n) else []

/-- One iteration of the max-distance stage: the pair pushed for one sample. -/
def maxDistance (embeddings flipped_embeddings : List (Keypoint K)) (sample : PoseSample K) :
    Option (PoseSample K × K) :=
  (maxLoop embeddings flipped_embeddings sample.embedding (0, 0)).map
    (fun m => (sample, min m.1 m.2))

/-- One iteration of the mean-distance stage: the pair pushed for one survivor. -/
def meanDistance (embeddings flipped_embeddings : List (Keypoint K))
    (entry : PoseSample K × K) : Option (PoseSample K × K) :=
  (sumLoop embeddings flipped_embeddings entry.1.embedding (0, 0)).map
    (fun m => (entry.1, min m.1 m.2 / ((embeddings.length : K) * 2)))

/-- The final loop: one `increment_class_confidence` per surviving entry. -/
def vote (meanDistances : List (PoseSample K × K)) : ClassificationResult K :=
  meanDistances.foldl (fun r entry => r.increment_class_confidence entry.1.class_name) .empty

/-- `PoseClassifier::classify_pose` for a classifier whose sample bank is
`pose_samples`; `none` when an `.at` throws. (The closing call of
`get_max_confidence_class` only fills the unused local `class_output`.) -/
def classify_pose (R : Runtime K) (S : StdSortDesc (PoseSample K × K) Prod.snd)
    (pose_samples : List (PoseSample K)) (landmark : Landmark K) :
    Option (ClassificationResult K) :=
  let embeddings := FullBodyPoseEmbedder.get_embedding R .new landmark
  let flipped_embeddings :=
    FullBodyPoseEmbedder.get_embedding R .new (flipped_landmarks landmark)
  match forAll (maxDistance embeddings flipped_embeddings) pose_samples with
  | none => none
  | some maxDistances =>
    match forAll (meanDistance embeddings flipped_embeddings)
        (removeMax top_n_by_max_distance (S.sort maxDistances)) with
    | none => none
    | some meanDistances =>
      some (vote (removeMax top_n_by_mean_distance (S.sort meanDistances)))

end PoseClassifier

/-! ## `src/classifier/repetition_counter.cc` -/

/-- The data members of `class RepetitionCounter`. The thresholds are the `int`
arguments of the constructor. -/
structure RepetitionCounter where
  class_name : String
  enter_threshold : ℤ
  exit_threshold : ℤ
  pose_entered : Bool
  n_repeats : ℤ
deriving DecidableEq, Repr

namespace RepetitionCounter

variable {K : Type} [LinearOrderedField K]

/-- Constructor `RepetitionCounter(class_name, enter_threshold, exit_threshold)`. -/
def new (class_name : String) (enter_threshold exit_threshold : ℤ) : RepetitionCounter :=
  ⟨class_name, enter_threshold, exit_threshold, false, 0⟩

/-- The local `pose_confidence` of `count`: 0.0, overwritten when the result has the key. -/
def pose_confidence (c : RepetitionCounter) (result : ClassificationResult K) : K :=
  if result.has_key c.class_name then result.get_class_confidence c.class_name else 0

/-- `RepetitionCounter::count`: the updated counter and the returned value.
`Int.tmod` is the C++ `%` on `int`. -/
def count (c : RepetitionCounter) (result : ClassificationResult K) : RepetitionCounter × ℤ :=
  let n_repeats := c.n_repeats.tmod 12
  let pose_confidence := pose_confidence c result
  if !c.pose_entered then
    ({ c with n_repeats := n_repeats,
              pose_entered := decide (pose_confidence > (c.enter_threshold : K)) }, n_repeats)
  else if pose_confidence < (c.exit_threshold : K) then
    ({ c with n_repeats := n_repeats + 1, pose_entered := false }, n_repeats + 1)
  else
    ({ c with n_repeats := n_repeats }, n_repeats)

/-- The counter after one `count` call per element of `results`, in order. -/
def countAll (c : RepetitionCounter) (results : List (ClassificationResult K)) :
    RepetitionCounter :=
  results.foldl (fun c result => (count c result).1) c

/-- The values returned by one `count` call per element of `results`, in order. -/
def returns : RepetitionCounter → List (ClassificationResult K) → List ℤ
  | _, [] => []
  | c, result :: rest => (count c result).2 :: returns (count c result).1 rest

/-- A call made on counter `c` completes a repetition: it finds the counter in the
pose (`ENTERED`) and leaves it out of the pose (`NOT_ENTERED`). -/
def completes (c : RepetitionCounter) (result : ClassificationResult K) : Bool :=
  c.pose_entered && !(count c result).1.pose_entered

/-- The number of repetitions completed by the calls `results` made in order from `c`. -/
def completed : RepetitionCounter → List (ClassificationResult K) → ℕ
  | _, [] => 0
  | c, result :: rest =>
    (if completes c result then 1 else 0) + completed (count c result).1 rest

end RepetitionCounter

/-! ### The hysteresis machine of the specification -/

/-- The two states of the specification's repetition counter. -/
inductive PoseState where
  | NOT_ENTERED
  | ENTERED
deriving DecidableEq, Repr

namespace Hysteresis

variable {K : Type} [LinearOrderedField K]

/-- One step of the two-state machine as the specification words it: in `NOT_ENTERED`,
move to `ENTERED` iff `confidence > enter_threshold`, counter untouched; in `ENTERED`,
iff `confidence < exit_threshold` add 1 to the counter and move to `NOT_ENTERED`. -/
def step (enter_threshold exit_threshold : ℤ) (s : PoseState × ℤ) (confidence : K) :
    PoseState × ℤ :=
  match s.1 with
  | .NOT_ENTERED =>
    (if confidence > (enter_threshold : K) then .ENTERED else .NOT_ENTERED, s.2)
  | .ENTERED =>
    if confidence < (exit_threshold : K) then (.NOT_ENTERED, s.2 + 1) else (.ENTERED, s.2)

/-- The machine state that a `RepetitionCounter` stands for. -/
def ofCounter (c : RepetitionCounter) : PoseState × ℤ :=
  (if c.pose_entered then .ENTERED else .NOT_ENTERED, c.n_repeats)

end Hysteresis

/-! ## `src/utils/bounding_box.cc` -/

/-- An axis-aligned box, `class BoundingBox`. -/
structure BoundingBox (K : Type) where
  xmin : K
  ymin : K
  xmax : K
  ymax : K
deriving DecidableEq, Repr

namespace BoundingBox

variable {K : Type} [LinearOrderedField K]

/-- Default constructor `BoundingBox()`. -/
def zero : BoundingBox K := ⟨0, 0, 0, 0⟩

/-- `BoundingBox::operator+=(const float&)` (the updated object). -/
def addAssignScalar (b : BoundingBox K) (offset : K) : BoundingBox K :=
  ⟨b.xmin + offset, b.ymin + offset, b.xmax + offset, b.ymax + offset⟩

/-- `BoundingBox::operator+=(const BoundingBox&)` (the updated object). -/
def addAssign (b bbox : BoundingBox K) : BoundingBox K :=
  ⟨b.xmin + bbox.xmin, b.ymin + bbox.ymin, b.xmax + bbox.xmax, b.ymax + bbox.ymax⟩

/-- `BoundingBox::operator*(const float&)`. -/
def mulScalar (b : BoundingBox K) (offset : K) : BoundingBox K :=
  ⟨b.xmin * offset, b.ymin * offset, b.xmax * offset, b.ymax * offset⟩

/-- `BoundingBox::operator/(const BoundingBox&)`. -/
def div (b bbox : BoundingBox K) : BoundingBox K :=
  ⟨b.xmin / bbox.xmin, b.ymin / bbox.ymin, b.xmax / bbox.xmax, b.ymax / bbox.ymax⟩

end BoundingBox

/-! ## `src/utils/ema_filter.cc` -/

/-- The data members of `class Filter`. -/
structure Filter (K : Type) where
  window_size : Nat
  alpha : K
  alpha_landmarks : K
  data : List (BoundingBox K)
  data_landmark : List (Landmark K)
deriving DecidableEq, Repr

namespace Filter

variable {K : Type} [LinearOrderedField K]

/-- Constructor `Filter()`: `window_size{10}, alpha{0.1}, alpha_landmarks{0.4}`, empty histories. -/
def new : Filter K := ⟨10, 1 / 10, 2 / 5, [], []⟩

/-- The head of both `filter` overloads: `v.insert(v.begin(), x); if (v.size() > window_size)
v.pop_back();`. -/
def push {α : Type} (window_size : Nat) (x : α) (v : List α) : List α :=
  if (x :: v).length > window_size then (x :: v).dropLast else x :: v

/-- `Filter::filter(BoundingBox&)`: the updated filter and the returned box. The loop
carries `(factor, top_sum, bottom_sum)`. -/
def filter_bbox (f : Filter K) (detection : BoundingBox K) : Filter K × BoundingBox K :=
  let data := push f.window_size detection f.data
  let acc := data.foldl
    (fun (acc : K × BoundingBox K × BoundingBox K) d =>
      (acc.1 * (1 - f.alpha), acc.2.1.addAssign (d.mulScalar acc.1),
        acc.2.2.addAssignScalar acc.1))
    (1, BoundingBox.zero, BoundingBox.zero)
  ({ f with data := data }, acc.2.1.div acc.2.2)

/-- `Filter::filter(Landmark&)`: the updated filter and the returned landmark. -/
def filter_landmark (f : Filter K) (landmark : Landmark K) : Filter K × Landmark K :=
  let data_landmark := push f.window_size landmark f.data_landmark
  let acc := data_landmark.foldl
    (fun (acc : K × Landmark K × Landmark K) d =>
      (acc.1 * (1 - f.alpha_landmarks), acc.2.1.addAssign (d.mulScalar acc.1),
        acc.2.2.addAssignScalar acc.1))
    (1, Landmark.zero, Landmark.zero)
  ({ f with data_landmark := data_landmark }, acc.2.1.div acc.2.2)

/-- The exponentially weighted mean of the specification: `(Σ a^i * x_i) / (Σ a^i)` over
the entries `x_0, x_1, ...` of `xs`. -/
def weightedMean (a : K) (xs : List K) : K :=
  ((List.range xs.length).map (fun i => a ^ i * xs.getD i 0)).sum /
    ((List.range xs.length).map (fun i => a ^ i)).sum

end Filter

/-! ## `src/classifier/classification_smoothing.cc` -/

/-- The data members of `class EMAFilter`. -/
structure EMAFilter (K : Type) where
  window_size : Nat
  alpha : K
  data : List (ClassificationResult K)
deriving DecidableEq, Repr

namespace EMAFilter

variable {K : Type} [LinearOrderedField K]

/-- Constructor `EMAFilter()`: `window_size{10}, alpha{0.2}, data()`. -/
def new : EMAFilter K := ⟨10, 1 / 5, []⟩

/-- The body of the loop over `keys` in `EMAFilter::filter` for one key: the inner loop
over `data` carries `(factor, top_sum, bottom_sum)`; the value is `top_sum / bottom_sum`. -/
def smooth_key (alpha : K) (data : List (ClassificationResult K)) (key : String) : K :=
  let acc := data.foldl
    (fun (acc : K × K × K) d =>
      let confidence := if d.has_key key then d.get_class_confidence key else 0
      (acc.1 * (1 - alpha), acc.2.1 + acc.1 * confidence, acc.2.2 + acc.1))
    (1, 0, 0)
  acc.2.1 / acc.2.2

/-- `EMAFilter::filter`: the updated filter and the returned result. -/
def filter (f : EMAFilter K) (detection : ClassificationResult K) :
    EMAFilter K × ClassificationResult K :=
  let data := Filter.push f.window_size detection f.data
  let keys := detection.getKeys
  let smoothed_data := keys.foldl
    (fun (smoothed : ClassificationResult K) key =>
      smoothed.put_class_confidence key (smooth_key f.alpha data key))
    ClassificationResult.empty
  ({ f with data := data }, smoothed_data)

/-- The filter after one `filter` call per element of `frames`, in order. -/
def filterAll (f : EMAFilter K) (frames : List (ClassificationResult K)) : EMAFilter K :=
  frames.foldl (fun f frame => (filter f frame).1) f

/-- The results returned by one `filter` call per element of `frames`, in order. -/
def outputs : EMAFilter K → List (ClassificationResult K) → List (ClassificationResult K)
  | _, [] => []
  | f, frame :: rest => (filter f frame).2 :: outputs (filter f frame).1 rest

/-- An `EMAFilter` after any number of calls: the constants set by `EMAFilter()` and
the history. -/
def withHistory (data : List (ClassificationResult K)) : EMAFilter K :=
  { (new : EMAFilter K) with data := data }

end EMAFilter

namespace Filter

variable {K : Type} [LinearOrderedField K]

/-- One call of either `filter` overload, the returned value dropped: the updated filter. -/
def call (f : Filter K) : BoundingBox K ⊕ Landmark K → Filter K
  | .inl detection => (f.filter_bbox detection).1
  | .inr landmark => (f.filter_landmark landmark).1

/-- The filter after the calls `calls`, made in order. -/
def callAll (f : Filter K) (calls : List (BoundingBox K ⊕ Landmark K)) : Filter K :=
  calls.foldl call f

end Filter

/-! ## `src/utils/pose_detection.cc` -/

/-- The data members of `class PoseDetection`. -/
structure PoseDetection (K : Type) where
  score : K
  bbox : BoundingBox K
  mid_hip_center : Keypoint K
  full_body_size_rotation : Keypoint K
deriving DecidableEq, Repr

/-! ## `src/mediapipe/pose_detection_interpreter.cc` -/

/-- How a call can end without a value: `exit(-1)`, or a read past the end of an array
(`raw_bbox[...]`, `anchors.data()[...]`, `memcpy`), which the language leaves undefined. -/
inductive Fault where
  | exit
  | out_of_bounds
deriving DecidableEq, Repr

/-- The data members of `class PoseDetectionInterpreter`; the arrays `scores` and
`raw_bbox` hold `num_detections` and `num_detections * num_keypoints` floats. -/
structure PoseDetectionInterpreter (K : Type) where
  scores : List K
  raw_bbox : List K
  num_detections : Nat
  num_keypoints : Nat
  scale : K
  score_threshold : K
  nms_threshold : K
  anchors : List K
  detected_poses : List (PoseDetection K)
deriving DecidableEq, Repr

namespace PoseDetectionInterpreter

variable {K : Type} [LinearOrderedField K]

/-- Constructor, with `anchors` the floats that `load_anchors` read from the file:
`scale{224.0}, score_threshold{0.5}, nms_threshold{0.3}`, both arrays zeroed. -/
def new (anchors : List K) (num_detections num_keypoints : Nat) : PoseDetectionInterpreter K :=
  ⟨List.replicate num_detections 0, List.replicate (num_detections * num_keypoints) 0,
    num_detections, num_keypoints, 224, 1 / 2, 3 / 10, anchors, []⟩

/-- An unchecked array read `array[index]`. -/
def read (array : List K) (index : Nat) : Except Fault K :=
  match array[index]? with
  | some x => .ok x
  | none => .error .out_of_bounds

/-- `PoseDetectionInterpreter::decode_scores`: the sigmoid of every entry of the member
`scores`, with `exp` standing for `std::exp`. -/
def decode_scores (exp : K → K) (I : PoseDetectionInterpreter K) : PoseDetectionInterpreter K :=
  { I with scores := I.scores.map (fun s => 1 / (1 + exp (-s))) }

/-- `PoseDetectionInterpreter::decode_bbox`. -/
def decode_bbox (I : PoseDetectionInterpreter K) (index : Nat) : Except Fault (BoundingBox K) :=
  if index > I.num_detections then .error .exit
  else do
    let anchor_x ← read I.anchors (index * 4 + 0)
    let raw_x ← read I.raw_bbox (index * I.num_keypoints + 0)
    let centers_x := anchor_x + raw_x / I.scale
    let anchor_y ← read I.anchors (index * 4 + 1)
    let raw_y ← read I.raw_bbox (index * I.num_keypoints + 1)
    let centers_y := anchor_y + raw_y / I.scale
    let raw_w ← read I.raw_bbox (index * I.num_keypoints + 2)
    let sides_w := raw_w / I.scale
    let raw_h ← read I.raw_bbox (index * I.num_keypoints + 3)
    let sides_h := raw_h / I.scale
    pure ⟨centers_x - sides_w / 2, centers_y - sides_h / 2,
      centers_x + sides_w / 2, centers_y + sides_h / 2⟩

/-- `PoseDetectionInterpreter::decode_mid_hip_center`. -/
def decode_mid_hip_center (I : PoseDetectionInterpreter K) (index : Nat) :
    Except Fault (Keypoint K) :=
  if index > I.num_detections then .error .exit
  else do
    let anchor_x ← read I.anchors (index * 4 + 0)
    let raw_x ← read I.raw_bbox (index * I.num_keypoints + 4)
    let mid_hip_center_x := anchor_x + raw_x / I.scale
    let anchor_y ← read I.anchors (index * 4 + 1)
    let raw_y ← read I.raw_bbox (index * I.num_keypoints + 5)
    let mid_hip_center_y := anchor_y + raw_y / I.scale
    pure ⟨mid_hip_center_x, mid_hip_center_y, 0⟩

/-- `PoseDetectionInterpreter::decode_full_body_size_rotation`. -/
def decode_full_body_size_rotation (I : PoseDetectionInterpreter K) (index : Nat) :
    Except Fault (Keypoint K) :=
  if index > I.num_detections then .error .exit
  else do
    let anchor_x ← read I.anchors (index * 4 + 0)
    let raw_x ← read I.raw_bbox (index * I.num_keypoints + 6)
    let full_body_size_rotation_x := anchor_x + raw_x / I.scale
    let anchor_y ← read I.anchors (index * 4 + 1)
    let raw_y ← read I.raw_bbox (index * I.num_keypoints + 7)
    let full_body_size_rotation_y := anchor_y + raw_y / I.scale
    pure ⟨full_body_size_rotation_x, full_body_size_rotation_y, 0⟩

/-- `PoseDetectionInterpreter::iou`. The denominator can only be 0 when `inter` is 0; the
float quotient is then NaN, `o >= 0` fails and 0 is returned, as here with `0 / 0 = 0`. -/
def iou (bbox_a bbox_b : BoundingBox K) : K :=
  let x1 := max bbox_a.xmin bbox_b.xmin
  let y1 := max bbox_a.ymin bbox_b.ymin
  let x2 := min bbox_a.xmax bbox_b.xmax
  let y2 := min bbox_a.ymax bbox_b.ymax
  let w := max 0 (x2 - x1)
  let h := max 0 (y2 - y1)
  let inter := w * h
  let areaA := (bbox_a.xmax - bbox_a.xmin) * (bbox_a.ymax - bbox_a.ymin)
  let areaB := (bbox_b.xmax - bbox_b.xmin) * (bbox_b.ymax - bbox_b.ymin)
  let o := inter / (areaA + areaB - inter)
  if o ≥ 0 then o else 0

/-- The inner loop of `nms`, `while (index < poses.size())` from `index = 1`, as a walk
over the entries after `poses[0]`: an entry whose IoU with `poses[0]` exceeds the
threshold is erased, any other is kept and the index moves on. -/
def suppress (nms_threshold : K) (first : PoseDetection K) :
    List (PoseDetection K) → List (PoseDetection K)
  | [] => []
  | pose :: rest =>
    if iou first.bbox pose.bbox > nms_threshold then suppress nms_threshold first rest
    else pose :: suppress nms_threshold first rest

/-- The outer loop `while (poses.size() > 0)` of `nms` on the sorted vector: at most
`fuel` iterations, each of which takes `poses[0]` into the result and erases it. -/
def nmsLoop (nms_threshold : K) : Nat → List (PoseDetection K) → List (PoseDetection K)
  | 0, _ => []
  | _ + 1, [] => []
  | fuel + 1, first :: rest =>
    first :: nmsLoop nms_threshold fuel (suppress nms_threshold first rest)

/-- `PoseDetectionInterpreter::nms`, the sort being `std::sort(..., comparer)` with
`comparer` = descending `get_score()`. Every iteration of the outer loop erases an
entry, so `poses.size()` iterations are all the loop can make. -/
def nms (S : StdSortDesc (PoseDetection K) PoseDetection.score) (poses : List (PoseDetection K))
    (nms_threshold : K) : List (PoseDetection K) :=
  nmsLoop nms_threshold (S.sort poses).length (S.sort poses)

/-- The loop `for (i = 0; i < num_detections; i++)` of `decode_predictions` over the
indices still to visit; `scores` is the parameter of `decode_predictions` (it hides the
member of the same name). The value is the vector `poses`. -/
def collect (I : PoseDetectionInterpreter K) (scores : List K) :
    List Nat → Except Fault (List (PoseDetection K))
  | [] => .ok []
  | i :: rest => do
    let score ← read scores i
    if score > I.score_threshold then do
      let bbox ← decode_bbox I i
      let mid_hip_center ← decode_mid_hip_center I i
      let full_body_size_rotation ← decode_full_body_size_rotation I i
      let poses ← collect I scores rest
      pure (⟨score, bbox, mid_hip_center, full_body_size_rotation⟩ :: poses)
    else collect I scores rest

/-- The vector `poses` that `decode_predictions` hands to `nms`, for non-null tensors:
the two `memcpy`, `decode_scores`, and the filtering loop. -/
def candidates (exp : K → K) (I : PoseDetectionInterpreter K) (raw_bbox scores : List K) :
    Except Fault (PoseDetectionInterpreter K × List (PoseDetection K)) :=
  if scores.length < I.num_detections ∨
      raw_bbox.length < I.num_detections * I.num_keypoints then .error .out_of_bounds
  else
    let copied := decode_scores exp
      { I with scores := scores.take I.num_detections,
               raw_bbox := raw_bbox.take (I.num_detections * I.num_keypoints) }
    match collect copied scores (List.range I.num_detections) with
    | .error fault => .error fault
    | .ok poses => .ok (copied, poses)

/-- `PoseDetectionInterpreter::decode_predictions`; `none` is a null pointer. -/
def decode_predictions (exp : K → K) (S : StdSortDesc (PoseDetection K) PoseDetection.score)
    (I : PoseDetectionInterpreter K) (raw_bbox scores : Option (List K)) :
    Except Fault (PoseDetectionInterpreter K) :=
  match raw_bbox, scores with
  | some raw_bbox, some scores =>
    match candidates exp I raw_bbox scores with
    | .error fault => .error fault
    | .ok (copied, poses) =>
      .ok { copied with detected_poses := nms S poses copied.nms_threshold }
  | _, _ => .ok I

end PoseDetectionInterpreter

/-! ## `src/classifier/pose_classification.cc`: `load_pose_samples` -/

/-- How `load_pose_samples` can end without a bank: the exception of `.at(n)` past the
end of a row, or the exception of `std::stof` on a field it cannot convert. Neither is
caught anywhere in the program. -/
inductive LoadFault where
  | out_of_range
  | invalid_argument
deriving DecidableEq, Repr

namespace PoseClassifier

variable {K : Type} [LinearOrderedField K]

/-- The loop `while (getline(stream, word, delim)) v.push_back(word);` over the
characters left in the stream. `word` is `none` between two calls of `getline` and holds
the characters extracted so far (latest first) during a call. A call that meets the end
of the stream before it extracted anything fails and ends the loop; the delimiter ends a
word and is dropped; the end of the stream ends a word that has been started. -/
def getlines (delim : Char) : List Char → Option (List Char) → List String
  | [], none => []
  | [], some word => [String.mk word.reverse]
  | c :: rest, word =>
    if c = delim then String.mk (word.getD []).reverse :: getlines delim rest none
    else getlines delim rest (some (c :: word.getD []))

/-- The vector `content` after the reading part of `load_pose_samples`: one row of
comma-separated fields per line of the file. `none` is a file that could not be opened:
the `else` branch prints a message and `content` stays empty. -/
def read_content (file : Option String) : List (List String) :=
  match file with
  | some text => (getlines '\n' text.data none).map (fun line => getlines ',' line.data none)
  | none => []

/-- `row.at(n)`. -/
def fieldAt (row : List String) (n : Nat) : Except LoadFault String :=
  match row[n]? with
  | some field => .ok field
  | none => .error .out_of_range

/-- `std::stof(row.at(n))`, with `stof` standing for `std::stof` (`none` when it throws). -/
def stofAt (stof : String → Option K) (row : List String) (n : Nat) : Except LoadFault K :=
  match fieldAt row n with
  | .error fault => .error fault
  | .ok field =>
    match stof field with
    | some value => .ok value
    | none => .error .invalid_argument

/-- The declaration `Keypoint kp(std::stof(row.at(2 + (j * 3 + 0))),
std::stof(row.at(2 + (j * 3 + 1))), std::stof(row.at(2 + (j * 3 + 2))));`. The three
arguments are taken in the order written; whichever of them throws, no keypoint is made. -/
def read_keypoint (stof : String → Option K) (row : List String) (j : Nat) :
    Except LoadFault (Keypoint K) :=
  match stofAt stof row (2 + (j * 3 + 0)) with
  | .error fault => .error fault
  | .ok x =>
    match stofAt stof row (2 + (j * 3 + 1)) with
    | .error fault => .error fault
    | .ok y =>
      match stofAt stof row (2 + (j * 3 + 2)) with
      | .error fault => .error fault
      | .ok z => .ok ⟨x, y, z⟩

/-- One turn of the loop over `j`: `Keypoint kp(...); landmark[j] = kp;`. -/
def read_point (stof : String → Option K) (row : List String) (landmark : Landmark K)
    (j : Nat) : Except LoadFault (Landmark K) :=
  match read_keypoint stof row j with
  | .error fault => .error fault
  | .ok kp => .ok (landmark.set j kp)

/-- The loop `for (j = 0; j < 33; j++) { Keypoint kp(...); landmark[j] = kp; }` for one
row. -/
def read_row (stof : String → Option K) (row : List String) (landmark : Landmark K) :
    Except LoadFault (Landmark K) :=
  (List.range 33).foldlM (read_point stof row) landmark

/-- The loop marked "Temporary normalization". -/
def temporary_normalization (landmark : Landmark K) : Landmark K :=
  landmark.forEach (fun _ kp => ⟨kp.x / 1920, kp.y / 1080, kp.z / 1920⟩)

/-- The loop "Generate pose_samples" over the rows still to be visited, carrying the
local `landmark` (declared before the loop) and the member `pose_samples`. -/
def generate (R : Runtime K) (stof : String → Option K) :
    List (List String) → Landmark K → List (PoseSample K) → Except LoadFault (List (PoseSample K))
  | [], _, pose_samples => .ok pose_samples
  | row :: rest, landmark, pose_samples =>
    match read_row stof row landmark with
    | .error fault => .error fault
    | .ok lm =>
      let lm := temporary_normalization lm
      match fieldAt row 0 with
      | .error fault => .error fault
      | .ok name =>
        match fieldAt row 1 with
        | .error fault => .error fault
        | .ok class_name =>
          generate R stof rest lm (pose_samples ++ [PoseSample.new R name class_name lm])

/-- `PoseClassifier::load_pose_samples`, which is all that the constructor
`PoseClassifier(embeddings_file)` runs: the member `pose_samples` it leaves, or the
exception that ends it. -/
def load_pose_samples (R : Runtime K) (stof : String → Option K) (file : Option String) :
    Except LoadFault (List (PoseSample K)) :=
  generate R stof (read_content file) Landmark.zero []

end PoseClassifier

/-! ## `src/mediapipe/pose_landmark_interpreter.cc` -/

/-- The data members of `class PoseLandmarkInterpreter`; the array `raw_landmarks` holds
`num_detections * num_keypoints` floats. -/
structure PoseLandmarkInterpreter (K : Type) where
  score : K
  raw_landmarks : List K
  num_detections : Nat
  num_keypoints : Nat
  scale : K
  score_threshold : K
  pose_landmark : Landmark K
deriving DecidableEq, Repr

namespace PoseLandmarkInterpreter

variable {K : Type} [LinearOrderedField K]

/-- Constructor, defaults `num_detections = 195`, `num_keypoints = 5`:
`score{0.0}, scale{256.0}, score_threshold{0.7}, pose_landmark{}`, the array zeroed. -/
def new (num_detections num_keypoints : Nat) : PoseLandmarkInterpreter K :=
  ⟨0, List.replicate (num_detections * num_keypoints) 0, num_detections, num_keypoints,
    256, 7 / 10, Landmark.zero⟩

/-- The body of the loop of `decode_landmark` for one `i`. -/
def decode_point (I : PoseLandmarkInterpreter K) (i : Nat) :
    Except Fault (PoseLandmarkInterpreter K) := do
  let x ← PoseDetectionInterpreter.read I.raw_landmarks (i * I.num_keypoints + 0)
  let y ← PoseDetectionInterpreter.read I.raw_landmarks (i * I.num_keypoints + 1)
  let z ← PoseDetectionInterpreter.read I.raw_landmarks (i * I.num_keypoints + 2)
  let keypoint : Keypoint K := ⟨x, y, z⟩
  pure { I with pose_landmark := I.pose_landmark.set i (keypoint.divScalar I.scale) }

/-- `PoseLandmarkInterpreter::decode_landmark`. -/
def decode_landmark (I : PoseLandmarkInterpreter K) : Except Fault (PoseLandmarkInterpreter K) :=
  (List.range 33).foldlM decode_point I

/-- `PoseLandmarkInterpreter::decode_predictions`; `none` is a null pointer, and a
non-null pointer is the memory it addresses: `raw_landmarks j` is the float at
`raw_landmarks + j`. The `memcpy` copies the first `num_detections * num_keypoints` of
them into the member array, whatever the length of the tensor the pointer came from. The
parameter `score` is a reference: the result holds the interpreter after the call and
the value left in the caller's variable. The member `score` is hidden by the parameter
and stays as it was. -/
def decode_predictions (exp : K → K) (I : PoseLandmarkInterpreter K)
    (raw_landmarks : Option (Nat → K)) (score : K) :
    Except Fault (PoseLandmarkInterpreter K × K) :=
  match raw_landmarks with
  | none => .ok (I, score)
  | some raw_landmarks =>
    let copied :=
      { I with raw_landmarks :=
          (List.range (I.num_detections * I.num_keypoints)).map raw_landmarks }
    let score := 1 / (1 + exp (-score))
    if score > copied.score_threshold then
      match decode_landmark copied with
      | .error fault => .error fault
      | .ok decoded => .ok (decoded, score)
    else .ok (copied, score)

/-- `PoseLandmarkInterpreter::get_pose_landmark`. -/
def get_pose_landmark (I : PoseLandmarkInterpreter K) : Landmark K := I.pose_landmark

end PoseLandmarkInterpreter

/-! ## Floating-point arithmetic -/

/-- How the machine rounds the exact result of an arithmetic operation: `single` for an
operation on `float` operands, `double` for an operation on `double` operands
(a conversion to `float` or `double` rounds in the same way). -/
structure Rounding (K : Type) where
  single : K → K
  double : K → K

/-- No rounding: the arithmetic of an exact field. -/
def Rounding.exact {K : Type} : Rounding K := ⟨id, id⟩

namespace Rounded

/-! ### `src/utils/bounding_box.cc`, each operation rounded to `float` -/

namespace BoundingBox

variable {K : Type} [LinearOrderedField K]

/-- `BoundingBox::operator+=(const float&)` (the updated object). -/
def addAssignScalar (F : Rounding K) (b : BoundingBox K) (offset : K) : BoundingBox K :=
  ⟨F.single (b.xmin + offset), F.single (b.ymin + offset), F.single (b.xmax + offset),
    F.single (b.ymax + offset)⟩

/-- `BoundingBox::operator+=(const BoundingBox&)` (the updated object). -/
def addAssign (F : Rounding K) (b bbox : BoundingBox K) : BoundingBox K :=
  ⟨F.single (b.xmin + bbox.xmin), F.single (b.ymin + bbox.ymin), F.single (b.xmax + bbox.xmax),
    F.single (b.ymax + bbox.ymax)⟩

/-- `BoundingBox::operator*(const float&)`. -/
def mulScalar (F : Rounding K) (b : BoundingBox K) (offset : K) : BoundingBox K :=
  ⟨F.single (b.xmin * offset), F.single (b.ymin * offset), F.single (b.xmax * offset),
    F.single (b.ymax * offset)⟩

/-- `BoundingBox::operator/(const BoundingBox&)`. -/
def div (F : Rounding K) (b bbox : BoundingBox K) : BoundingBox K :=
  ⟨F.single (b.xmin / bbox.xmin), F.single (b.ymin / bbox.ymin), F.single (b.xmax / bbox.xmax),
    F.single (b.ymax / bbox.ymax)⟩

end BoundingBox

/-! ### `src/utils/ema_filter.cc`, with the rounding of its `float` and `double` operations -/

namespace Filter

variable {K : Type} [LinearOrderedField K]

/-- Constructor `Filter()`: the `float` members `alpha` and `alpha_landmarks` take the
`double` literals `0.1` and `0.4` converted to `float`. -/
def new (F : Rounding K) : Filter K :=
  ⟨10, F.single (F.double (1 / 10)), F.single (F.double (2 / 5)), [], []⟩

/-- `Filter::filter(BoundingBox&)`: the updated filter and the returned box. The loop
carries `(factor, top_sum, bottom_sum)`; `factor *= (1.0 - alpha)` subtracts and multiplies
in `double` and converts the product to `float`. -/
def filter_bbox (F : Rounding K) (f : Filter K) (detection : BoundingBox K) :
    Filter K × BoundingBox K :=
  let data := SmartFitness.Filter.push f.window_size detection f.data
  let acc := data.foldl
    (fun (acc : K × BoundingBox K × BoundingBox K) d =>
      (F.single (F.double (acc.1 * F.double (1 - f.alpha))),
        BoundingBox.addAssign F acc.2.1 (BoundingBox.mulScalar F d acc.1),
        BoundingBox.addAssignScalar F acc.2.2 acc.1))
    (1, SmartFitness.BoundingBox.zero, SmartFitness.BoundingBox.zero)
  ({ f with data := data }, BoundingBox.div F acc.2.1 acc.2.2)

end Filter

/-! ### `src/utils/keypoint.cc`, each operation rounded to `float` -/

namespace Keypoint

variable {K : Type} [LinearOrderedField K]

/-- Distance operator 2D, `Keypoint::operator^`: the two differences are `float`
subtractions; `std::pow(float, int)`, the sum and `std::sqrt` work in `double` (`sqrt`
stands for `std::sqrt` on `double`); the returned value is converted to `float`. -/
def dist2D (F : Rounding K) (sqrt : K → K) (a kp : Keypoint K) : K :=
  F.single (sqrt (F.double
    (F.double (F.single (a.x - kp.x) ^ 2) + F.double (F.single (a.y - kp.y) ^ 2))))

/-- `Keypoint::operator*(const float&)`. -/
def mulScalar (F : Rounding K) (a : Keypoint K) (value : K) : Keypoint K :=
  ⟨F.single (a.x * value), F.single (a.y * value), F.single (a.z * value)⟩

/-- `Keypoint::operator/(const float&)`. -/
def divScalar (F : Rounding K) (a : Keypoint K) (value : K) : Keypoint K :=
  ⟨F.single (a.x / value), F.single (a.y / value), F.single (a.z / value)⟩

/-- `Keypoint::operator+(const Keypoint&)`. -/
def add (F : Rounding K) (a kp : Keypoint K) : Keypoint K :=
  ⟨F.single (a.x + kp.x), F.single (a.y + kp.y), F.single (a.z + kp.z)⟩

/-- `Keypoint::operator-(const Keypoint&)`. -/
def sub (F : Rounding K) (a kp : Keypoint K) : Keypoint K :=
  ⟨F.single (a.x - kp.x), F.single (a.y - kp.y), F.single (a.z - kp.z)⟩

end Keypoint

/-! ### `src/classifier/pose_embedding.cc`, each operation rounded to `float` -/

namespace FullBodyPoseEmbedder

variable {K : Type} [LinearOrderedField K]

/-- `FullBodyPoseEmbedder::get_pose_size`, on the member `landmark`. The constants `0.5`
and the default multiplier `2.5` are `float` values as they stand. -/
def get_pose_size (F : Rounding K) (R : Runtime K) (E : FullBodyPoseEmbedder K)
    (landmark : Landmark K) : K :=
  let hips_center :=
    Keypoint.mulScalar F
      (Keypoint.add F (landmark.byName R.undef "left_hip") (landmark.byName R.undef "right_hip"))
      (1 / 2)
  let shoulders_center :=
    Keypoint.mulScalar F
      (Keypoint.add F (landmark.byName R.undef "left_shoulder")
        (landmark.byName R.undef "right_shoulder"))
      (1 / 2)
  let torso_size := Keypoint.dist2D F R.sqrt hips_center shoulders_center
  (List.range 33).foldl
    (fun max_distance i =>
      let distance := Keypoint.dist2D F R.sqrt (landmark.get i) hips_center
      if distance > max_distance then distance else max_distance)
    (F.single (torso_size * E.torso_size_multiplier))

/-- `FullBodyPoseEmbedder::normalize_pose_landmarks`: the new value of the member
`landmark`; the factor `100` is converted to the `float` 100. -/
def normalize_pose_landmarks (F : Rounding K) (R : Runtime K) (E : FullBodyPoseEmbedder K)
    (landmark : Landmark K) : Landmark K :=
  let pose_center :=
    Keypoint.mulScalar F
      (Keypoint.add F (landmark.byName R.undef "left_hip") (landmark.byName R.undef "right_hip"))
      (1 / 2)
  let pose_size := get_pose_size F R E landmark
  landmark.forEach
    (fun _ kp => Keypoint.mulScalar F (Keypoint.divScalar F (Keypoint.sub F kp pose_center) pose_size) 100)

/-- `FullBodyPoseEmbedder::get_pose_distance_embedding`, on the (normalized) member
`landmark`: the 23 `push_back`s in source order, keys spelled as in the source. -/
def get_pose_distance_embedding (F : Rounding K) (R : Runtime K) (landmark : Landmark K) :
    List (SmartFitness.Keypoint K) :=
  let lm := landmark.byName R.undef
  let half := fun (a b : SmartFitness.Keypoint K) => Keypoint.mulScalar F (Keypoint.add F a b) (1 / 2)
  let average_hip := half (lm "left_hip") (lm "right_hip")
  let average_shoulder := half (lm "left_shoulder") (lm "right_shoulder")
  [ Keypoint.sub F average_shoulder average_hip,
    half (lm "left_shoulder") (lm "left_elbow"),
    half (lm "right_shoulder") (lm "right_elbow"),
    half (lm "left_elbow") (lm "left_wrist"),
    half (lm "right_elbow") (lm "right_wrist"),
    half (lm "left_hip") (lm "left_knee"),
    half (lm "right_hip") (lm "right_knee"),
    half (lm "left_knee") (lm "left_ankle"),
    half (lm "right_knee") (lm "right_ankle"),
    half (lm "left_shoulders") (lm "left_wrist"),
    half (lm "right_shoulders") (lm "right_wrist"),
    half (lm "left_hip") (lm "left_ankle"),
    half (lm "right_hip") (lm "right_ankle"),
    half (lm "left_hip") (lm "left_wrist"),
    half (lm "right_hip") (lm "right_wrist"),
    half (lm "left_shoulders") (lm "left_ankle"),
    half (lm "right_shoulders") (lm "right_ankle"),
    half (lm "left_hip") (lm "left_wrist"),
    half (lm "right_hip") (lm "right_wrist"),
    half (lm "left_elbow") (lm "right_elbow"),
    half (lm "left_knee") (lm "right_knee"),
    half (lm "left_wrist") (lm "right_wrist"),
    half (lm "left_ankle") (lm "right_ankle") ]

/-- `FullBodyPoseEmbedder::get_embedding`. -/
def get_embedding (F : Rounding K) (R : Runtime K) (E : FullBodyPoseEmbedder K)
    (landmark : Landmark K) : List (SmartFitness.Keypoint K) :=
  get_pose_distance_embedding F R (normalize_pose_landmarks F R E landmark)

end FullBodyPoseEmbedder

end Rounded

/-! ## Predicates used in the statements -/

section Predicates

variable {K : Type} [LinearOrderedField K]

/-- The keys of an ordered map are strictly ascending (the `std::map` invariant). -/
def ClassificationResult.Ordered (m : List (String × K)) : Prop :=
  (m.map Prod.fst).Pairwise (fun a b => a < b)

/-- Every confidence of the map is a vote count (a natural number). -/
def ClassificationResult.Counts (r : ClassificationResult K) : Prop :=
  ∀ e ∈ r.class_confidences, ∃ n : ℕ, e.2 = (n : K)

/-- Every sample of the bank has the 23 entries that the `.at(j)` of `classify_pose` read. -/
def PoseClassifier.BankOk (pose_samples : List (PoseSample K)) : Prop :=
  ∀ s ∈ pose_samples, 23 ≤ s.embedding.length

/-- What a truncation stage `removeMax top_n (sort distances)` of `classify_pose` leaves:
`count` survivors; the erased entries and the survivors together are a rearrangement
of the stage's entries; no survivor is farther than an erased entry. -/
def PoseClassifier.ClosestKept (S : StdSortDesc (PoseSample K × K) Prod.snd) (top_n : Nat)
    (distances : List (PoseSample K × K)) (count : Nat) : Prop :=
  (removeMax top_n (S.sort distances)).length = count ∧
  (removed top_n (S.sort distances) ++ removeMax top_n (S.sort distances)).Perm distances ∧
  ∀ kept ∈ removeMax top_n (S.sort distances),
    ∀ dropped ∈ removed top_n (S.sort distances), kept.2 ≤ dropped.2

/-- Numerator of `weightedMean`. -/
def Filter.weightedSum (a : K) (xs : List K) : K :=
  ((List.range xs.length).map (fun i => a ^ i * xs.getD i 0)).sum

/-- Denominator of `weightedMean` for `n` entries. -/
def Filter.weightSum (a : K) (n : Nat) : K :=
  ((List.range n).map (fun i => a ^ i)).sum

/-- A `Filter` after any number of calls: the constants set by `Filter()` and the two
histories. -/
def Filter.withHistory (data : List (BoundingBox K)) (data_landmark : List (Landmark K)) :
    Filter K :=
  { (Filter.new : Filter K) with data := data, data_landmark := data_landmark }

/-- Two boxes overlap: their common region has positive width and positive height. -/
def BoundingBox.Overlap (a b : BoundingBox K) : Prop :=
  max a.xmin b.xmin < min a.xmax b.xmax ∧ max a.ymin b.ymin < min a.ymax b.ymax

/-- The 33 anatomical names, in the order of the cases 0..32 of
`Landmark::operator()(const int&)`. -/
def Landmark.names : List String :=
  ["nose", "left_eye_inner", "left_eye", "left_eye_outer", "right_eye_inner", "right_eye",
   "right_eye_outer", "left_ear", "right_ear", "left_mouth", "right_mouth", "left_shoulder",
   "right_shoulder", "left_elbow", "right_elbow", "left_wrist", "right_wrist", "left_pinky",
   "right_pinky", "left_index", "right_index", "left_thumb", "right_thumb", "left_hip",
   "right_hip", "left_knee", "right_knee", "left_ankle", "right_ankle", "left_heel",
   "right_heel", "left_foot", "right_foot"]

/-- A call of one of the two writing methods of `ClassificationResult`. -/
inductive ClassificationResult.Write (K : Type) where
  | put (class_name : String) (confidence : K)
  | increment (class_name : String)

/-- The class name a write is about. -/
def ClassificationResult.Write.class_name : ClassificationResult.Write K → String
  | .put class_name _ => class_name
  | .increment class_name => class_name

/-- The result after one write. -/
def ClassificationResult.write (r : ClassificationResult K) :
    ClassificationResult.Write K → ClassificationResult K
  | .put class_name confidence => r.put_class_confidence class_name confidence
  | .increment class_name => r.increment_class_confidence class_name

/-- A freshly constructed result after the writes `ws`, in order. -/
def ClassificationResult.written (ws : List (ClassificationResult.Write K)) :
    ClassificationResult K :=
  ws.foldl ClassificationResult.write ClassificationResult.empty

/-- The 2D Euclidean distance of the statements, with `sqrt` for the square root;
`z` does not occur. -/
def Keypoint.d2 (sqrt : K → K) (p q : Keypoint K) : K :=
  sqrt ((p.x - q.x) ^ 2 + (p.y - q.y) ^ 2)

/-- The midpoint of two keypoints. -/
def Keypoint.midpoint (p q : Keypoint K) : Keypoint K :=
  ⟨(p.x + q.x) / 2, (p.y + q.y) / 2, (p.z + q.z) / 2⟩

/-- The point `(raw[i*K], raw[i*K+1], raw[i*K+2]) / scale` of a tensor `raw` of records of
`stride = K` floats. -/
def PoseLandmarkInterpreter.decoded (raw : List K) (stride : Nat) (scale : K) (i : Nat) :
    Keypoint K :=
  ⟨raw.getD (i * stride) 0 / scale, raw.getD (i * stride + 1) 0 / scale,
    raw.getD (i * stride + 2) 0 / scale⟩

/-- The memory that the pointer to the first float of `tensor` addresses: the floats of
the tensor, followed by whatever lies behind it. -/
def PoseLandmarkInterpreter.pointer (tensor : List K) (behind : Nat → K) : Nat → K :=
  fun j => (tensor[j]?).getD (behind j)

/-- The keypoint that a row of fields holds for point `j`: the numbers `stof` reads in
the fields `2 + 3 j`, `3 + 3 j`, `4 + 3 j` (counted from 0). -/
def PoseClassifier.row_keypoint (stof : String → Option K) (row : List String) (j : Nat) :
    Keypoint K :=
  ⟨(stof (row.getD (2 + (j * 3 + 0)) "")).getD 0, (stof (row.getD (2 + (j * 3 + 1)) "")).getD 0,
    (stof (row.getD (2 + (j * 3 + 2)) "")).getD 0⟩

/-- The sample that a row of fields describes: name, class label, and the 33 points
scaled by 1/1920, 1/1080, 1/1920. -/
def PoseClassifier.row_sample (R : Runtime K) (stof : String → Option K) (row : List String) :
    PoseSample K :=
  PoseSample.new R (row.getD 0 "") (row.getD 1 "")
    (PoseClassifier.temporary_normalization
      ((Landmark.zero : Landmark K).forEach (fun j _ => PoseClassifier.row_keypoint stof row j)))

/-- A row that `load_pose_samples` takes: at least 101 fields, and `stof` converts each of
the coordinate fields 2..100. -/
def PoseClassifier.RowTaken (stof : String → Option K) (row : List String) : Prop :=
  101 ≤ row.length ∧ ∀ n f, 2 ≤ n → n < 101 → row[n]? = some f → ∃ v, stof f = some v

/-- A row on which `load_pose_samples` throws: fewer than 101 fields, or a coordinate field
among the fields 2..100 that `stof` does not convert. -/
def PoseClassifier.RowRefused (stof : String → Option K) (row : List String) : Prop :=
  row.length < 101 ∨ ∃ n f, 2 ≤ n ∧ n < 101 ∧ row[n]? = some f ∧ stof f = none

/-- A well-formed box: `xmin <= xmax` and `ymin <= ymax`. -/
def BoundingBox.WellFormed (b : BoundingBox K) : Prop :=
  b.xmin ≤ b.xmax ∧ b.ymin ≤ b.ymax

/-- The area `(xmax - xmin) * (ymax - ymin)` of a box. -/
def BoundingBox.area (b : BoundingBox K) : K :=
  (b.xmax - b.xmin) * (b.ymax - b.ymin)

/-- The weighted difference of one feature: `max(|dx|, |dy|, 0.2 * |dz|)` for
`d = v - s`. -/
def PoseClassifier.featureDistance (v s : Keypoint K) : K :=
  max (max |v.x - s.x| |v.y - s.y|) (1 / 5 * |v.z - s.z|)

/-- The number `D` is the maximum of the weighted differences of the features of `v` and
`s`, taken position by position. -/
def PoseClassifier.IsMaxFeature (v s : List (Keypoint K)) (D : K) : Prop :=
  D ∈ List.zipWith PoseClassifier.featureDistance v s ∧
    ∀ x ∈ List.zipWith PoseClassifier.featureDistance v s, x ≤ D

/-- The landmark whose points are `k * p + t`, for the points `p` of `lm`. -/
def Landmark.similar (k : K) (t : Keypoint K) (lm : Landmark K) : Landmark K :=
  lm.forEach (fun _ p => (p.mulScalar k).add t)

end Predicates

/-! ## Concrete inputs -/

/-- An instance of the `std::sort` contract: insertion sort, descending by `key`. -/
def insertionSortDesc {α K : Type} [LinearOrder K] (key : α → K) : StdSortDesc α key where
  sort := List.insertionSort (fun a b => key b ≤ key a)
  perm := List.perm_insertionSort _
  sorted := by
    intro l
    haveI : IsTotal α (fun a b => key b ≤ key a) := ⟨fun a b => le_total (key b) (key a)⟩
    haveI : IsTrans α (fun a b => key b ≤ key a) := ⟨fun _ _ _ h1 h2 => le_trans h2 h1⟩
    exact List.sorted_insertionSort _ l

/-- A runtime over `ℚ`: the square root of `n / d` is `⌊√(n * d)⌋ / d`, and an unlisted
landmark name reads as the zero keypoint. -/
def demoRuntime : Runtime ℚ where
  sqrt := fun q => (Nat.sqrt (q.num.toNat * q.den) : ℚ) / q.den
  undef := fun _ _ => Keypoint.zero

/-- A landmark with the hips at `(±3, 0, 0)`, the shoulders at `(±3, -4, 0)` and every
other point at the origin; its pose size is 10. -/
def standing : Landmark ℚ :=
  { (Landmark.zero : Landmark ℚ) with
    left_shoulder := ⟨3, -4, 0⟩, right_shoulder := ⟨-3, -4, 0⟩,
    left_hip := ⟨3, 0, 0⟩, right_hip := ⟨-3, 0, 0⟩ }

/-- The landmark `standing` with the knees moved out to `(±6, 0, 0)`. -/
def squatting : Landmark ℚ :=
  { standing with left_knee := ⟨6, 0, 0⟩, right_knee := ⟨-6, 0, 0⟩ }

/-- A bank of two samples: `squatting` labelled "down" and `standing` labelled "up". -/
def twoSampleBank : List (PoseSample ℚ) :=
  [PoseSample.new demoRuntime "squat_1" "down" squatting,
   PoseSample.new demoRuntime "squat_2" "up" standing]

/-- The counter of `main.cc`, `RepetitionCounter("squats_down")`, with thresholds 6 and 4. -/
def squatCounter : RepetitionCounter := RepetitionCounter.new "squats_down" 6 4

/-- A result in which the tracked class has confidence 8 (above the enter threshold). -/
def inPose : ClassificationResult ℚ := ⟨[("squats_down", 8), ("squats_up", 2)]⟩

/-- A result in which the tracked class has confidence 2 (below the exit threshold). -/
def outOfPose : ClassificationResult ℚ := ⟨[("squats_down", 2), ("squats_up", 8)]⟩

/-- Twelve repetitions: twelve times a frame in the pose followed by a frame out of it. -/
def twelveSquats : List (ClassificationResult ℚ) :=
  (List.replicate 12 [inPose, outOfPose]).flatten

/-- A box seen in an earlier frame. -/
def earlierBox : BoundingBox ℚ := ⟨0, 0, 10, 20⟩

/-- The box of the current frame. -/
def currentBox : BoundingBox ℚ := ⟨2, 4, 12, 24⟩

/-- The frame `inPose` without its entry for "squats_down". -/
def inPoseOmitted : ClassificationResult ℚ := ⟨[("squats_up", 2)]⟩

/-- An interpreter for one detection of 12 floats, with the anchor `(1/2, 1/2)` and a
frame whose raw box is centred on the anchor, 112 wide and 56 high (in input pixels). -/
def oneDetection : PoseDetectionInterpreter ℚ :=
  { (PoseDetectionInterpreter.new [1 / 2, 1 / 2, 1, 1] 1 12 : PoseDetectionInterpreter ℚ) with
    raw_bbox := [0, 0, 112, 56, 0, 0, 0, 0, 0, 0, 0, 0] }

/-- A detection with score 9/10 on the box `(0, 0)-(2, 2)`. -/
def strongDetection : PoseDetection ℚ := ⟨9 / 10, ⟨0, 0, 2, 2⟩, Keypoint.zero, Keypoint.zero⟩

/-- A detection with score 6/10 on the box `(1, 0)-(3, 2)`; its IoU with the box of
`strongDetection` is 1/3. -/
def weakDetection : PoseDetection ℚ := ⟨6 / 10, ⟨1, 0, 3, 2⟩, Keypoint.zero, Keypoint.zero⟩

/-- Distance entries `0, 1, ..., n-1` for one and the same sample. -/
def manyDistances (n : Nat) : List (PoseSample ℚ × ℚ) :=
  (List.range n).map
    (fun (i : ℕ) => (PoseSample.new demoRuntime "squat_1" "down" squatting, (i : ℚ)))

/-- A `stof` over `ℚ` for fields that start with an unsigned decimal integer: the value of
the leading digits, which is what `std::stof` reads from such a field ("12abc" gives 12);
a field that starts with anything else is refused. -/
def demoStof (field : String) : Option ℚ :=
  match field.data.takeWhile Char.isDigit with
  | [] => none
  | digits => some ((digits.foldl (fun n c => 10 * n + (c.toNat - 48)) 0 : ℕ) : ℚ)

/-- The fields of a well-formed row: name, class label, and 99 coordinates, all "0"
except the x of the left hip (field 71), which is "1920". -/
def plainRow : List String :=
  ["squat_1", "down"] ++ List.replicate 69 "0" ++ ["1920"] ++ List.replicate 29 "0"

/-- A file of one line: the 101 fields of `plainRow`. -/
def plainFile : String := String.intercalate "," plainRow

/-- A file of one line with 102 fields: those of `plainRow` and one more. -/
def longRowFile : String := String.intercalate "," (plainRow ++ ["extra"])

/-- A file of one line with 101 fields: those of `plainRow`, but with "1920px" as the x of
the left hip. -/
def looseNumberFile : String :=
  String.intercalate ","
    (["squat_1", "down"] ++ List.replicate 69 "0" ++ ["1920px"] ++ List.replicate 29 "0")

/-- A file of two lines: the 101 fields of `plainRow`, then a line of 3 fields. -/
def shortRowFile : String := plainFile ++ "\nsquat_2,up,0\n"

/-- Another instance of the `std::sort` contract: insertion sort, descending by `key`, of
the input rotated by one place. Entries with equal keys do not keep their input order. -/
def rotateSortDesc {α K : Type} [LinearOrder K] (key : α → K) : StdSortDesc α key where
  sort := fun l => List.insertionSort (fun a b => key b ≤ key a) (l.rotate 1)
  perm := fun l => (List.perm_insertionSort _ _).trans (List.rotate_perm l 1)
  sorted := by
    intro l
    haveI : IsTotal α (fun a b => key b ≤ key a) := ⟨fun a b => le_total (key b) (key a)⟩
    haveI : IsTrans α (fun a b => key b ≤ key a) := ⟨fun _ _ _ h1 h2 => le_trans h2 h1⟩
    exact List.sorted_insertionSort _ _

/-- A bank of 17 samples of the landmark `standing`: the first labelled "down", the other
16 labelled "up". All of them are at the same distance from any landmark. -/
def tiedBank : List (PoseSample ℚ) :=
  PoseSample.new demoRuntime "squat_0" "down" standing ::
    List.replicate 16 (PoseSample.new demoRuntime "squat_1" "up" standing)

/-- The landmark `standing` over any field: hips at `(±3, 0, 0)`, shoulders at
`(±3, -4, 0)`, every other point at the origin. -/
def standingIn (K : Type) [LinearOrderedField K] : Landmark K :=
  { (Landmark.zero : Landmark K) with
    left_shoulder := ⟨3, -4, 0⟩, right_shoulder := ⟨-3, -4, 0⟩,
    left_hip := ⟨3, 0, 0⟩, right_hip := ⟨-3, 0, 0⟩ }

/-- The runtime `demoRuntime` with another value for an unlisted landmark name. -/
def otherRuntime : Runtime ℚ where
  sqrt := demoRuntime.sqrt
  undef := fun _ _ => ⟨1, 1, 1⟩

/-- The position of the leading binary digit of `n` (0 for `n < 2`), by at most `fuel`
halvings. -/
def log2Loop : Nat → Nat → Nat
  | 0, _ => 0
  | fuel + 1, n => if n < 2 then 0 else log2Loop fuel (n / 2) + 1

/-- The exponent `e` with `2^e ≤ n / d < 2^(e+1)`, for positive `n` and `d` below
`2^4096`. -/
def binaryExponent (n d : Nat) : Int :=
  let e0 : Int := (log2Loop 4096 n : Int) - (log2Loop 4096 d : Int)
  let reached : Bool :=
    if 0 ≤ e0 then decide (d * 2 ^ e0.toNat ≤ n) else decide (d ≤ n * 2 ^ (-e0).toNat)
  if reached then e0 else e0 - 1

/-- The integer nearest to `N / D`, a tie going to the even one. -/
def nearestEven (N D : Nat) : Nat :=
  let f := N / D
  let r := N % D
  if 2 * r < D then f else if D < 2 * r then f + 1 else if f % 2 = 0 then f else f + 1

/-- Rounding to nearest, ties to even, onto the binary floating-point numbers with `p`
significant bits, as IEEE 754 arithmetic rounds an exact result (the exponent range is not
bounded: overflow and subnormal numbers are outside this function). -/
def roundNearestEven (p : Nat) (q : ℚ) : ℚ :=
  if q.num = 0 then 0
  else
    let n := q.num.natAbs
    let d := q.den
    let s : Int := (p : Int) - 1 - binaryExponent n d
    let v : ℚ :=
      if 0 ≤ s then (nearestEven (n * 2 ^ s.toNat) d : ℚ) / ((2 ^ s.toNat : ℕ) : ℚ)
      else (nearestEven n (d * 2 ^ (-s).toNat) : ℚ) * ((2 ^ (-s).toNat : ℕ) : ℚ)
    if q.num < 0 then -v else v

/-- The rounding of IEEE 754 binary32 (`float`) and binary64 (`double`). -/
def ieee : Rounding ℚ := ⟨roundNearestEven 24, roundNearestEven 53⟩

/-- A box with every coordinate 7. -/
def sevenBox : BoundingBox ℚ := ⟨7, 7, 7, 7⟩

/-- The integer square root of `n`, built bit by bit from bit `fuel - 1` down. -/
def isqrtLoop (n : Nat) : Nat → Nat → Nat
  | 0, acc => acc
  | b + 1, acc =>
    if (acc + 2 ^ b) * (acc + 2 ^ b) ≤ n then isqrtLoop n b (acc + 2 ^ b) else isqrtLoop n b acc

/-- The square root rounded to nearest, ties to even, onto the binary floating-point
numbers with `p` significant bits, as IEEE 754 `sqrt` returns it; 0 for an argument that
is not positive. -/
def sqrtNearestEven (p : Nat) (q : ℚ) : ℚ :=
  if q.num ≤ 0 then 0
  else
    let n := q.num.natAbs
    let d := q.den
    let t : Int := 2 * (p : Int) - 2 - binaryExponent n d
    let s : Int := (t + t.emod 2).ediv 2
    let N := if 0 ≤ s then n * 4 ^ s.toNat else n
    let D := if 0 ≤ s then d else d * 4 ^ (-s).toNat
    let r := isqrtLoop (N / D) (log2Loop 4096 (N / D) / 2 + 1) 0
    let m :=
      if 4 * N < (4 * r * r + 4 * r + 1) * D then r
      else if (4 * r * r + 4 * r + 1) * D < 4 * N then r + 1
      else if r % 2 = 0 then r else r + 1
    if 0 ≤ s then (m : ℚ) / ((2 ^ s.toNat : ℕ) : ℚ) else (m : ℚ) * ((2 ^ (-s).toNat : ℕ) : ℚ)

/-- A runtime over `ℚ` for the machine's arithmetic: `std::sqrt` on `double` as IEEE 754
defines it, and an unlisted landmark name reads as the zero keypoint. -/
def ieeeRuntime : Runtime ℚ where
  sqrt := sqrtNearestEven 53
  undef := fun _ _ => Keypoint.zero

/-- The landmark `standing` with the left knee at `(x, y, 0)`. -/
def kneeAt (x y : ℚ) : Landmark ℚ := { standing with left_knee := ⟨x, y, 0⟩ }


/-- A landmark with the hips at `(3, 0, 0)` and `(-3, 0, 0)`, the shoulders at `(4, -2, 0)`
and `(-2, -2, 0)`, and every other point at the origin. -/
def leaning : Landmark ℚ :=
  { (Landmark.zero : Landmark ℚ) with
    left_hip := ⟨3, 0, 0⟩, right_hip := ⟨-3, 0, 0⟩,
    left_shoulder := ⟨4, -2, 0⟩, right_shoulder := ⟨-2, -2, 0⟩ }

section LandmarkLemmas

variable {K : Type} [LinearOrderedField K]

theorem Landmark.forEach_eq (lm : Landmark K) (g : Nat → Keypoint K → Keypoint K) :
    lm.forEach g =
      ⟨g 0 lm.nose, g 1 lm.left_eye_inner, g 2 lm.left_eye, g 3 lm.left_eye_outer,
       g 4 lm.right_eye_inner, g 5 lm.right_eye, g 6 lm.right_eye_outer, g 7 lm.left_ear,
       g 8 lm.right_ear, g 9 lm.left_mouth, g 10 lm.right_mouth, g 11 lm.left_shoulder,
       g 12 lm.right_shoulder, g 13 lm.left_elbow, g 14 lm.right_elbow, g 15 lm.left_wrist,
       g 16 lm.right_wrist, g 17 lm.left_pinky, g 18 lm.right_pinky, g 19 lm.left_index,
       g 20 lm.right_index, g 21 lm.left_thumb, g 22 lm.right_thumb, g 23 lm.left_hip,
       g 24 lm.right_hip, g 25 lm.left_knee, g 26 lm.right_knee, g 27 lm.left_ankle,
       g 28 lm.right_ankle, g 29 lm.left_heel, g 30 lm.right_heel, g 31 lm.left_foot,
       g 32 lm.right_foot⟩ := by
  cases lm
  simp [Landmark.forEach, List.range, List.range.loop, Landmark.set, Landmark.get]

theorem Landmark.get_forEach (lm : Landmark K) (g : Nat → Keypoint K → Keypoint K)
    (i : Nat) (hi : i < 33) : (lm.forEach g).get i = g i (lm.get i) := by
  rw [Landmark.forEach_eq]
  interval_cases i <;> rfl

end LandmarkLemmas

section ClassifierLemmas

variable {K : Type} [LinearOrderedField K]

open PoseClassifier FullBodyPoseEmbedder

theorem PoseClassifier.flip_x_flip_x (p : Keypoint K) : flip_x (flip_x p) = p := by
  cases p
  simp [flip_x]

theorem PoseClassifier.flipped_flipped (landmark : Landmark K) :
    flipped_landmarks (flipped_landmarks landmark) = landmark := by
  simp only [flipped_landmarks, Landmark.forEach_eq, flip_x_flip_x]

theorem FullBodyPoseEmbedder.length_get_embedding (R : Runtime K) (E : FullBodyPoseEmbedder K)
    (landmark : Landmark K) : (get_embedding R E landmark).length = 23 := by
  rfl

theorem PoseClassifier.maxLoop_swap (es fs ss : List (Keypoint K)) (a b : K)
    (h : es.length = fs.length) :
    maxLoop fs es ss (b, a) = (maxLoop es fs ss (a, b)).map Prod.swap := by
  induction es generalizing fs ss a b with
  | nil =>
    cases fs with
    | nil => simp [maxLoop]
    | cons f fs => simp at h
  | cons e es ih =>
    cases fs with
    | nil => simp at h
    | cons f fs =>
      cases ss with
      | nil => simp [maxLoop]
      | cons s ss =>
        simp only [maxLoop]
        exact ih fs ss _ _ (by simpa using h)

theorem PoseClassifier.sumLoop_swap (es fs ss : List (Keypoint K)) (a b : K)
    (h : es.length = fs.length) :
    sumLoop fs es ss (b, a) = (sumLoop es fs ss (a, b)).map Prod.swap := by
  induction es generalizing fs ss a b with
  | nil =>
    cases fs with
    | nil => simp [sumLoop]
    | cons f fs => simp at h
  | cons e es ih =>
    cases fs with
    | nil => simp at h
    | cons f fs =>
      cases ss with
      | nil => simp [sumLoop]
      | cons s ss =>
        simp only [sumLoop]
        exact ih fs ss _ _ (by simpa using h)

theorem PoseClassifier.maxDistance_swap (es fs : List (Keypoint K)) (h : es.length = fs.length) :
    maxDistance fs es = maxDistance es fs := by
  funext sample
  simp only [maxDistance, maxLoop_swap es fs sample.embedding 0 0 h, Option.map_map]
  congr 1
  funext m
  simp [min_comm]

theorem PoseClassifier.meanDistance_swap (es fs : List (Keypoint K)) (h : es.length = fs.length) :
    meanDistance fs es = meanDistance es fs := by
  funext entry
  simp only [meanDistance, sumLoop_swap es fs entry.1.embedding 0 0 h, Option.map_map, h]
  congr 1
  funext m
  simp [min_comm]

end ClassifierLemmas

section MapLemmas

variable {K : Type}

open ClassificationResult

theorem ClassificationResult.find_assign (m : List (String × K)) (c : String) (v : K)
    (c' : String) : find (assign m c v) c' = if c = c' then some v else find m c' := by
  induction m with
  | nil => simp [assign, find]
  | cons e rest ih =>
    obtain ⟨k, w⟩ := e
    simp only [assign]
    by_cases h1 : c < k
    · simp only [h1, if_true]
      rw [find]
    · by_cases h2 : c = k
      · subst h2
        simp only [h1, if_false, if_true]
        by_cases h3 : c = c'
        · simp [find, h3]
        · simp [find, h3]
      · have hk : ¬ k = c := fun h => h2 h.symm
        simp only [h1, h2, if_false]
        by_cases h3 : c = c'
        · subst h3
          simp [find, ih, hk]
        · simp [find, ih, h3]

theorem ClassificationResult.find_eq_none (m : List (String × K)) (c : String)
    (h : ∀ k ∈ m.map Prod.fst, c < k) : find m c = none := by
  induction m with
  | nil => rfl
  | cons e rest ih =>
    obtain ⟨k, w⟩ := e
    have hk : ¬ k = c := by
      rintro rfl
      exact lt_irrefl _ (h k (by simp))
    simp only [find, hk, if_false]
    exact ih (fun k' hk' => h k' (by simp [List.mem_map] at hk' ⊢; exact Or.inr hk'))

theorem ClassificationResult.mem_keys_assign (m : List (String × K)) (c : String) (v : K)
    (x : String) (hx : x ∈ (assign m c v).map Prod.fst) : x = c ∨ x ∈ m.map Prod.fst := by
  induction m with
  | nil => simpa [assign] using hx
  | cons e rest ih =>
    obtain ⟨k, w⟩ := e
    simp only [assign] at hx
    by_cases h1 : c < k
    · simp only [h1, if_true, List.map_cons, List.mem_cons] at hx
      simpa using hx
    · by_cases h2 : c = k
      · subst h2
        simp only [h1, if_false, if_true, List.map_cons, List.mem_cons] at hx
        simpa using hx
      · simp only [h1, h2, if_false, List.map_cons, List.mem_cons] at hx
        rcases hx with hx | hx
        · right
          simp [hx]
        · rcases ih hx with h | h
          · exact Or.inl h
          · right
            simp only [List.map_cons, List.mem_cons]
            exact Or.inr h

theorem ClassificationResult.mem_assign (m : List (String × K)) (c : String) (v : K)
    (e : String × K) (he : e ∈ assign m c v) : e = (c, v) ∨ e ∈ m := by
  induction m with
  | nil => simpa [assign] using he
  | cons e' rest ih =>
    obtain ⟨k, w⟩ := e'
    simp only [assign] at he
    by_cases h1 : c < k
    · simp only [h1, if_true, List.mem_cons] at he
      simpa using he
    · by_cases h2 : c = k
      · subst h2
        simp only [h1, if_false, if_true, List.mem_cons] at he
        rcases he with he | he
        · exact Or.inl he
        · exact Or.inr (List.mem_cons_of_mem _ he)
      · simp only [h1, h2, if_false, List.mem_cons] at he
        rcases he with he | he
        · exact Or.inr (by simp [he])
        · rcases ih he with h | h
          · exact Or.inl h
          · exact Or.inr (List.mem_cons_of_mem _ h)

theorem ClassificationResult.mem_of_find (m : List (String × K)) (c : String) (v : K)
    (h : find m c = some v) : (c, v) ∈ m := by
  induction m with
  | nil => simp [find] at h
  | cons e rest ih =>
    obtain ⟨k, w⟩ := e
    by_cases hk : k = c
    · subst hk
      simp only [find, if_true, Option.some.injEq] at h
      simp [h]
    · simp only [find, hk, if_false] at h
      exact List.mem_cons_of_mem _ (ih h)

theorem ClassificationResult.ordered_assign (m : List (String × K)) (c : String) (v : K)
    (hm : Ordered m) : Ordered (assign m c v) := by
  induction m with
  | nil => simp [assign, Ordered]
  | cons e rest ih =>
    obtain ⟨k, w⟩ := e
    have hrest : Ordered rest := (List.pairwise_cons.mp hm).2
    have hk : ∀ k' ∈ rest.map Prod.fst, k < k' := (List.pairwise_cons.mp hm).1
    simp only [assign]
    by_cases h1 : c < k
    · simp only [h1, if_true]
      refine List.pairwise_cons.mpr ⟨?_, hm⟩
      intro k' hk'
      simp only [List.map_cons, List.mem_cons] at hk'
      rcases hk' with rfl | hk'
      · exact h1
      · exact lt_trans h1 (hk k' hk')
    · by_cases h2 : c = k
      · subst h2
        simp only [h1, if_false, if_true]
        exact hm
      · simp only [h1, h2, if_false]
        have hkc : k < c := lt_of_le_of_ne (not_lt.mp h1) (fun h => h2 h.symm)
        refine List.pairwise_cons.mpr ⟨?_, ih hrest⟩
        intro k' hk'
        rcases mem_keys_assign rest c v k' hk' with rfl | h
        · exact hkc
        · exact hk k' h

end MapLemmas

section ResultLemmas

variable {K : Type} [LinearOrderedField K]

open ClassificationResult

theorem ClassificationResult.sum_assign (m : List (String × K)) (c : String) (v : K)
    (hm : Ordered m) :
    ((assign m c v).map Prod.snd).sum =
      (m.map Prod.snd).sum - (match find m c with | none => 0 | some w => w) + v := by
  induction m with
  | nil => simp [assign, find]
  | cons e rest ih =>
    obtain ⟨k, w⟩ := e
    have hrest : Ordered rest := (List.pairwise_cons.mp hm).2
    have hk : ∀ k' ∈ rest.map Prod.fst, k < k' := (List.pairwise_cons.mp hm).1
    simp only [assign]
    by_cases h1 : c < k
    · have hnone : find ((k, w) :: rest) c = none := by
        apply find_eq_none
        intro k' hk'
        simp only [List.map_cons, List.mem_cons] at hk'
        rcases hk' with rfl | hk'
        · exact h1
        · exact lt_trans h1 (hk k' hk')
      simp only [h1, if_true, hnone, List.map_cons, List.sum_cons]
      ring
    · by_cases h2 : c = k
      · subst h2
        simp only [find, h1, if_false, if_true, List.map_cons, List.sum_cons]
        ring
      · have hkc : ¬ k = c := fun h => h2 h.symm
        simp only [h1, h2, if_false, List.map_cons, List.sum_cons, ih hrest, find, hkc]
        ring

theorem ClassificationResult.get_increment (r : ClassificationResult K) (c c' : String) :
    (r.increment_class_confidence c).get_class_confidence c' =
      r.get_class_confidence c' + (if c = c' then 1 else 0) := by
  simp only [increment_class_confidence, get_class_confidence, find_assign]
  by_cases h : c = c'
  · subst h
    cases hf : find r.class_confidences c <;> simp
  · simp [h]

theorem ClassificationResult.sum_increment (r : ClassificationResult K) (c : String)
    (hr : Ordered r.class_confidences) :
    ((r.increment_class_confidence c).class_confidences.map Prod.snd).sum =
      (r.class_confidences.map Prod.snd).sum + 1 := by
  simp only [increment_class_confidence, sum_assign _ _ _ hr]
  cases hf : find r.class_confidences c
  · simp
  · simp only []
    ring

theorem ClassificationResult.ordered_increment (r : ClassificationResult K) (c : String)
    (hr : Ordered r.class_confidences) :
    Ordered (r.increment_class_confidence c).class_confidences :=
  ordered_assign _ _ _ hr

theorem ClassificationResult.counts_increment (r : ClassificationResult K) (c : String)
    (hr : Counts r) : Counts (r.increment_class_confidence c) := by
  intro e he
  rcases mem_assign _ _ _ e he with rfl | h
  · cases hf : find r.class_confidences c with
    | none => exact ⟨1, by simp⟩
    | some w =>
      obtain ⟨n, hn⟩ := hr _ (mem_of_find _ _ _ hf)
      exact ⟨n + 1, by simp at hn; simp [hn]⟩
  · exact hr e h

end ResultLemmas

section StageLemmas

variable {K : Type} [LinearOrderedField K]

open PoseClassifier FullBodyPoseEmbedder ClassificationResult

theorem PoseClassifier.eraseFront_eq_drop {α : Type} (n : Nat) (v : List α) :
    eraseFront n v = v.drop n := by
  induction n generalizing v with
  | zero => rfl
  | succ n ih =>
    cases v with
    | nil => simp [eraseFront, ih]
    | cons a rest => simp [eraseFront, ih]

theorem PoseClassifier.removeMax_of_le {α : Type} (top_n : Nat) (v : List α)
    (h : v.length ≤ top_n) : removeMax top_n v = v := by
  simp [removeMax, Nat.not_lt.mpr h]

theorem PoseClassifier.length_removeMax {α : Type} (top_n : Nat) (v : List α) :
    (removeMax top_n v).length = min v.length top_n := by
  unfold removeMax
  split_ifs with h
  · rw [eraseFront_eq_drop, List.length_drop]
    omega
  · omega

theorem PoseClassifier.removed_append_removeMax {α : Type} (top_n : Nat) (v : List α) :
    removed top_n v ++ removeMax top_n v = v := by
  unfold removed removeMax
  split_ifs with h
  · rw [eraseFront_eq_drop, List.take_append_drop]
  · rfl

theorem PoseClassifier.removeMax_sublist {α : Type} (top_n : Nat) (v : List α) :
    (removeMax top_n v).Sublist v := by
  unfold removeMax
  split_ifs with h
  · rw [eraseFront_eq_drop]
    exact List.drop_sublist _ _
  · exact List.Sublist.refl _

theorem PoseClassifier.maxLoop_some (es fs ss : List (Keypoint K)) (acc : K × K)
    (hf : es.length ≤ fs.length) (hs : es.length ≤ ss.length) :
    ∃ m, maxLoop es fs ss acc = some m := by
  induction es generalizing fs ss acc with
  | nil => exact ⟨acc, by simp [maxLoop]⟩
  | cons e es ih =>
    cases fs with
    | nil => simp at hf
    | cons f fs =>
      cases ss with
      | nil => simp at hs
      | cons s ss =>
        obtain ⟨a, b⟩ := acc
        simp only [maxLoop]
        exact ih fs ss _ (by simpa using hf) (by simpa using hs)

theorem PoseClassifier.sumLoop_some (es fs ss : List (Keypoint K)) (acc : K × K)
    (hf : es.length ≤ fs.length) (hs : es.length ≤ ss.length) :
    ∃ m, sumLoop es fs ss acc = some m := by
  induction es generalizing fs ss acc with
  | nil => exact ⟨acc, by simp [sumLoop]⟩
  | cons e es ih =>
    cases fs with
    | nil => simp at hf
    | cons f fs =>
      cases ss with
      | nil => simp at hs
      | cons s ss =>
        obtain ⟨a, b⟩ := acc
        simp only [sumLoop]
        exact ih fs ss _ (by simpa using hf) (by simpa using hs)

theorem PoseClassifier.forAll_map {α β γ : Type} (body : α → Option β) (g : β → γ) (h : α → γ)
    (l : List α) (H : ∀ a ∈ l, ∃ b, body a = some b ∧ g b = h a) :
    ∃ bs, forAll body l = some bs ∧ bs.map g = l.map h := by
  induction l with
  | nil => exact ⟨[], rfl, rfl⟩
  | cons a rest ih =>
    obtain ⟨b, hb, hg⟩ := H a (List.mem_cons_self _ _)
    obtain ⟨bs, hbs, hmap⟩ := ih (fun a' ha' => H a' (List.mem_cons_of_mem _ ha'))
    exact ⟨b :: bs, by simp [forAll, hb, hbs], by simp [hg, hmap]⟩

theorem PoseClassifier.maxStage_some (R : Runtime K) (landmark : Landmark K)
    (pose_samples : List (PoseSample K)) (hok : BankOk pose_samples) :
    ∃ maxDistances,
      forAll (maxDistance (get_embedding R .new landmark)
        (get_embedding R .new (flipped_landmarks landmark))) pose_samples = some maxDistances ∧
      maxDistances.map Prod.fst = pose_samples := by
  have := forAll_map (maxDistance (get_embedding R .new landmark)
      (get_embedding R .new (flipped_landmarks landmark))) Prod.fst id pose_samples (by
    intro s hs
    obtain ⟨m, hm⟩ := maxLoop_some (get_embedding R .new landmark)
      (get_embedding R .new (flipped_landmarks landmark)) s.embedding (0, 0)
      (by rw [length_get_embedding, length_get_embedding])
      (by rw [length_get_embedding]; exact hok s hs)
    exact ⟨(s, min m.1 m.2), by simp only [maxDistance, hm, Option.map_some'], rfl⟩)
  simpa using this

theorem PoseClassifier.meanStage_some (R : Runtime K) (landmark : Landmark K)
    (entries : List (PoseSample K × K)) (hok : BankOk (entries.map Prod.fst)) :
    ∃ meanDistances,
      forAll (meanDistance (get_embedding R .new landmark)
        (get_embedding R .new (flipped_landmarks landmark))) entries = some meanDistances ∧
      meanDistances.map Prod.fst = entries.map Prod.fst := by
  apply forAll_map
  intro e he
  obtain ⟨m, hm⟩ := sumLoop_some (get_embedding R .new landmark)
    (get_embedding R .new (flipped_landmarks landmark)) e.1.embedding (0, 0)
    (by rw [length_get_embedding, length_get_embedding])
    (by rw [length_get_embedding]; exact hok e.1 (List.mem_map_of_mem _ he))
  exact ⟨(e.1, min m.1 m.2 / (((get_embedding R .new landmark).length : K) * 2)),
    by simp only [meanDistance, hm, Option.map_some'], rfl⟩

theorem PoseClassifier.foldl_increment_get (l : List (PoseSample K × K))
    (r : ClassificationResult K) (c : String) :
    (l.foldl (fun r entry => r.increment_class_confidence entry.1.class_name) r).get_class_confidence c =
      r.get_class_confidence c + ((l.map (fun e => e.1.class_name)).count c : ℕ) := by
  induction l generalizing r with
  | nil => simp
  | cons e rest ih =>
    simp only [List.foldl_cons, ih, get_increment, List.map_cons, List.count_cons]
    by_cases h : e.1.class_name = c
    · simp only [h, if_true, beq_self_eq_true, Nat.cast_add, Nat.cast_one]
      ring
    · simp [h]

theorem PoseClassifier.foldl_increment_sum (l : List (PoseSample K × K))
    (r : ClassificationResult K) (hr : Ordered r.class_confidences) :
    Ordered (l.foldl (fun r entry => r.increment_class_confidence entry.1.class_name)
        r).class_confidences ∧
    ((l.foldl (fun r entry => r.increment_class_confidence entry.1.class_name)
        r).class_confidences.map Prod.snd).sum =
      (r.class_confidences.map Prod.snd).sum + (l.length : ℕ) := by
  induction l generalizing r with
  | nil => simp [hr]
  | cons e rest ih =>
    obtain ⟨h1, h2⟩ := ih (r.increment_class_confidence e.1.class_name)
      (ordered_increment r _ hr)
    refine ⟨h1, ?_⟩
    simp only [List.foldl_cons, h2, sum_increment r _ hr, List.length_cons, Nat.cast_add,
      Nat.cast_one]
    ring

theorem PoseClassifier.foldl_increment_counts (l : List (PoseSample K × K))
    (r : ClassificationResult K) (hr : Counts r) :
    Counts (l.foldl (fun r entry => r.increment_class_confidence entry.1.class_name) r) := by
  induction l generalizing r with
  | nil => simpa using hr
  | cons e rest ih => exact ih _ (counts_increment r _ hr)

theorem PoseClassifier.vote_get (l : List (PoseSample K × K)) (c : String) :
    (vote l).get_class_confidence c = ((l.map (fun e => e.1.class_name)).count c : ℕ) := by
  rw [vote, foldl_increment_get]
  simp [ClassificationResult.empty, get_class_confidence, find]

theorem PoseClassifier.vote_sum (l : List (PoseSample K × K)) :
    ((vote l).class_confidences.map Prod.snd).sum = (l.length : ℕ) := by
  have := (foldl_increment_sum l (.empty : ClassificationResult K)
    (by simp [ClassificationResult.empty, Ordered])).2
  simpa [vote, ClassificationResult.empty] using this

theorem PoseClassifier.vote_counts (l : List (PoseSample K × K)) : Counts (vote l) :=
  foldl_increment_counts l .empty (by simp [Counts, ClassificationResult.empty])

end StageLemmas

section ClassifyLemmas

variable {K : Type} [LinearOrderedField K]

open PoseClassifier FullBodyPoseEmbedder ClassificationResult

/-- On a bank whose samples all have 23 entries no `.at` throws: `classify_pose` returns the
votes of the entries left by the two stages, and each stage list carries the samples of
the list it was built from. -/
theorem PoseClassifier.classify_pose_eq (R : Runtime K)
    (S : StdSortDesc (PoseSample K × K) Prod.snd) (pose_samples : List (PoseSample K))
    (landmark : Landmark K) (hok : BankOk pose_samples) :
    ∃ maxDistances meanDistances : List (PoseSample K × K),
      maxDistances.map Prod.fst = pose_samples ∧
      meanDistances.map Prod.fst =
        (removeMax top_n_by_max_distance (S.sort maxDistances)).map Prod.fst ∧
      classify_pose R S pose_samples landmark =
        some (vote (removeMax top_n_by_mean_distance (S.sort meanDistances))) := by
  obtain ⟨l1, h1, hl1⟩ := maxStage_some R landmark pose_samples hok
  have hok2 : BankOk ((removeMax top_n_by_max_distance (S.sort l1)).map Prod.fst) := by
    intro s hs
    apply hok
    rw [← hl1]
    have hsub := (removeMax_sublist top_n_by_max_distance (S.sort l1)).map Prod.fst
    exact ((S.perm l1).map Prod.fst).subset (hsub.subset hs)
  obtain ⟨l2, h2, hl2⟩ := meanStage_some R landmark _ hok2
  exact ⟨l1, l2, hl1, hl2, by simp only [classify_pose, h1, h2]⟩

theorem PoseClassifier.classify_pose_small (R : Runtime K)
    (S : StdSortDesc (PoseSample K × K) Prod.snd) (pose_samples : List (PoseSample K))
    (landmark : Landmark K) (hsize : pose_samples.length ≤ 10) (hok : BankOk pose_samples) :
    ∃ survivors : List (PoseSample K × K),
      (survivors.map Prod.fst).Perm pose_samples ∧
      classify_pose R S pose_samples landmark = some (vote survivors) := by
  obtain ⟨l1, l2, hl1, hl2, hc⟩ := classify_pose_eq R S pose_samples landmark hok
  have hlen1 : (S.sort l1).length ≤ top_n_by_max_distance := by
    rw [(S.perm l1).length_eq, ← List.length_map l1 Prod.fst, hl1, top_n_by_max_distance]
    omega
  rw [removeMax_of_le _ _ hlen1] at hl2
  have hlen2 : (S.sort l2).length ≤ top_n_by_mean_distance := by
    rw [(S.perm l2).length_eq, ← List.length_map l2 Prod.fst, hl2, List.length_map,
      (S.perm l1).length_eq, ← List.length_map l1 Prod.fst, hl1, top_n_by_mean_distance]
    exact hsize
  rw [removeMax_of_le _ _ hlen2] at hc
  refine ⟨S.sort l2, ?_, hc⟩
  have hp2 : ((S.sort l2).map Prod.fst).Perm (l2.map Prod.fst) := (S.perm l2).map _
  have hp1 : ((S.sort l1).map Prod.fst).Perm (l1.map Prod.fst) := (S.perm l1).map _
  rw [hl2] at hp2
  rw [hl1] at hp1
  exact hp2.trans hp1

end ClassifyLemmas

section TruncationLemmas

variable {K : Type} [LinearOrderedField K]

open PoseClassifier

theorem PoseClassifier.closestKept (S : StdSortDesc (PoseSample K × K) Prod.snd)
    (top_n : Nat) (distances : List (PoseSample K × K)) (hmore : distances.length > top_n) :
    ClosestKept S top_n distances top_n := by
  refine ⟨?_, ?_, ?_⟩
  · rw [length_removeMax, (S.perm distances).length_eq]
    omega
  · rw [removed_append_removeMax]
    exact S.perm distances
  · have hsorted := S.sorted distances
    rw [← removed_append_removeMax top_n (S.sort distances)] at hsorted
    intro kept hk dropped hd
    exact (List.pairwise_append.mp hsorted).2.2 dropped hd kept hk

end TruncationLemmas

section FilterLemmas

variable {K : Type} [LinearOrderedField K]

open Filter

theorem Filter.weightedMean_eq (a : K) (xs : List K) :
    weightedMean a xs = weightedSum a xs / weightSum a xs.length := rfl

theorem Filter.weightedSum_cons (a x : K) (xs : List K) :
    weightedSum a (x :: xs) = x + a * weightedSum a xs := by
  simp only [weightedSum, List.length_cons, List.range_succ_eq_map, List.map_cons,
    List.sum_cons, List.map_map, pow_zero, one_mul, List.getD_cons_zero]
  congr 1
  rw [← List.sum_map_mul_left]
  congr 1
  apply List.map_congr_left
  intro i _
  simp only [Function.comp, List.getD_cons_succ, pow_succ]
  ring

theorem Filter.weightSum_succ (a : K) (n : Nat) :
    weightSum a (n + 1) = 1 + a * weightSum a n := by
  simp only [weightSum, List.range_succ_eq_map, List.map_cons, List.sum_cons, List.map_map,
    pow_zero]
  congr 1
  rw [← List.sum_map_mul_left]
  congr 1
  apply List.map_congr_left
  intro i _
  simp only [Function.comp, pow_succ]
  ring

/-- The accumulation loop of both `filter` overloads, seen through one scalar field `π`. -/
theorem Filter.fold_field {T : Type} (addAssign : T → T → T) (mulScalar addAssignScalar : T → K → T)
    (π : T → K) (hadd : ∀ t d f, π (addAssign t (mulScalar d f)) = π t + π d * f)
    (hscalar : ∀ b f, π (addAssignScalar b f) = π b + f) (a : K) (data : List T)
    (factor : K) (top bottom : T) :
    π (data.foldl (fun (acc : K × T × T) d =>
        (acc.1 * a, addAssign acc.2.1 (mulScalar d acc.1), addAssignScalar acc.2.2 acc.1))
        (factor, top, bottom)).2.1 = π top + factor * weightedSum a (data.map π) ∧
    π (data.foldl (fun (acc : K × T × T) d =>
        (acc.1 * a, addAssign acc.2.1 (mulScalar d acc.1), addAssignScalar acc.2.2 acc.1))
        (factor, top, bottom)).2.2 = π bottom + factor * weightSum a data.length := by
  induction data generalizing factor top bottom with
  | nil => simp [weightedSum, weightSum]
  | cons d rest ih =>
    obtain ⟨h1, h2⟩ := ih (factor * a) (addAssign top (mulScalar d factor))
      (addAssignScalar bottom factor)
    simp only [List.foldl_cons, List.map_cons, List.length_cons, weightedSum_cons,
      weightSum_succ]
    rw [h1, h2, hadd, hscalar]
    constructor <;> ring

theorem Filter.length_push {α : Type} (window_size : Nat) (x : α) (v : List α)
    (hw : 0 < window_size) (hv : v.length ≤ window_size) :
    (push window_size x v).length ≤ window_size := by
  unfold push
  split_ifs with h
  · simp only [List.length_dropLast, List.length_cons] at h ⊢
    omega
  · simp only [List.length_cons] at h ⊢
    omega

theorem Filter.push_eq_take {α : Type} (window_size : Nat) (x : α) (v : List α)
    (hv : v.length ≤ window_size) :
    push window_size x v = (x :: v).take window_size := by
  unfold push
  split_ifs with h
  · have hlen : (x :: v).length = window_size + 1 := by
      simp only [List.length_cons] at h ⊢
      omega
    rw [List.dropLast_eq_take, hlen]
    rfl
  · rw [List.take_of_length_le (by omega)]

theorem Filter.head_push {α : Type} (window_size : Nat) (x : α) (v : List α)
    (hw : 0 < window_size) : (push window_size x v).head? = some x := by
  unfold push
  split_ifs with h
  · cases v with
    | nil => simp at h; omega
    | cons y rest => simp [List.dropLast]
  · rfl

end FilterLemmas

section FilterFieldLemmas

variable {K : Type} [LinearOrderedField K]

open Filter

theorem Filter.filter_bbox_field (f : Filter K) (detection : BoundingBox K)
    (π : BoundingBox K → K)
    (hadd : ∀ t d x, π (BoundingBox.addAssign t (BoundingBox.mulScalar d x)) = π t + π d * x)
    (hscalar : ∀ b x, π (BoundingBox.addAssignScalar b x) = π b + x)
    (hzero : π BoundingBox.zero = 0)
    (hdiv : ∀ t b, π (BoundingBox.div t b) = π t / π b) :
    π (f.filter_bbox detection).2 =
      weightedMean (1 - f.alpha) ((f.filter_bbox detection).1.data.map π) := by
  obtain ⟨h1, h2⟩ := fold_field BoundingBox.addAssign BoundingBox.mulScalar
    BoundingBox.addAssignScalar π hadd hscalar (1 - f.alpha)
    (push f.window_size detection f.data) 1 BoundingBox.zero BoundingBox.zero
  simp only [filter_bbox, hdiv, h1, h2, hzero, weightedMean_eq, List.length_map, zero_add,
    one_mul]

theorem Landmark.get_zero (i : Nat) : (Landmark.zero : Landmark K).get i = Keypoint.zero := by
  unfold Landmark.get
  split <;> rfl

theorem Filter.filter_landmark_field (f : Filter K) (landmark : Landmark K)
    (i : Nat) (hi : i < 33) (ρ : Keypoint K → K)
    (hadd : ∀ t d, ρ (Keypoint.add t d) = ρ t + ρ d)
    (hmul : ∀ d x, ρ (Keypoint.mulScalar d x) = ρ d * x)
    (hscalar : ∀ b x, ρ (Keypoint.addScalar b x) = ρ b + x)
    (hzero : ρ Keypoint.zero = 0)
    (hdiv : ∀ t b, ρ (Keypoint.div t b) = ρ t / ρ b) :
    ρ ((f.filter_landmark landmark).2.get i) =
      weightedMean (1 - f.alpha_landmarks)
        ((f.filter_landmark landmark).1.data_landmark.map (fun l => ρ (l.get i))) := by
  obtain ⟨h1, h2⟩ := fold_field Landmark.addAssign Landmark.mulScalar
    Landmark.addAssignScalar (fun l => ρ (l.get i))
    (by
      intro t d x
      simp only [Landmark.addAssign, Landmark.mulScalar, Landmark.get_forEach _ _ i hi, hadd,
        hmul])
    (by
      intro b x
      simp only [Landmark.addAssignScalar, Landmark.get_forEach _ _ i hi, hscalar])
    (1 - f.alpha_landmarks) (push f.window_size landmark f.data_landmark) 1
    Landmark.zero Landmark.zero
  simp only [Landmark.get_zero, hzero, zero_add, one_mul] at h1 h2
  simp only [filter_landmark, Landmark.div, Landmark.get_forEach _ _ i hi, hdiv, h1, h2,
    weightedMean_eq, List.length_map]

end FilterFieldLemmas

section CounterLemmas

variable {K : Type} [LinearOrderedField K]

open RepetitionCounter ClassificationResult

theorem RepetitionCounter.pose_confidence_eq (c : RepetitionCounter)
    (result : ClassificationResult K) :
    pose_confidence c result = result.get_class_confidence c.class_name := by
  unfold pose_confidence has_key get_class_confidence
  cases find result.class_confidences c.class_name <;> simp

theorem RepetitionCounter.count_fields (c : RepetitionCounter) (result : ClassificationResult K) :
    (count c result).1.class_name = c.class_name ∧
    (count c result).1.enter_threshold = c.enter_threshold ∧
    (count c result).1.exit_threshold = c.exit_threshold ∧
    (count c result).2 = (count c result).1.n_repeats := by
  unfold count
  by_cases h1 : (!c.pose_entered) = true
  · simp [h1]
  · by_cases h2 : pose_confidence c result < (c.exit_threshold : K) <;> simp [h1, h2]

theorem RepetitionCounter.count_refines (c : RepetitionCounter) (result : ClassificationResult K) :
    Hysteresis.ofCounter (count c result).1 =
      Hysteresis.step c.enter_threshold c.exit_threshold
        ((Hysteresis.ofCounter c).1, c.n_repeats.tmod 12) (pose_confidence c result) := by
  unfold count Hysteresis.ofCounter Hysteresis.step
  cases hc : c.pose_entered
  · by_cases h : pose_confidence c result > (c.enter_threshold : K) <;> simp [h]
  · by_cases h : pose_confidence c result < (c.exit_threshold : K) <;> simp [h]

theorem RepetitionCounter.tmod_of_lt (n : ℤ) (h0 : 0 ≤ n) (h12 : n < 12) : n.tmod 12 = n := by
  rw [Int.tmod_eq_emod h0 (by norm_num)]
  omega

theorem RepetitionCounter.completes_iff (c : RepetitionCounter) (result : ClassificationResult K) :
    completes c result = true ↔
      c.pose_entered = true ∧ pose_confidence c result < (c.exit_threshold : K) := by
  unfold completes count
  cases hc : c.pose_entered
  · simp
  · by_cases h : pose_confidence c result < (c.exit_threshold : K) <;> simp [h]

theorem RepetitionCounter.countAll_append (c : RepetitionCounter)
    (results : List (ClassificationResult K)) (result : ClassificationResult K) :
    countAll c (results ++ [result]) = (count (countAll c results) result).1 := by
  simp [countAll, List.foldl_append]

theorem RepetitionCounter.completed_append (c : RepetitionCounter)
    (results : List (ClassificationResult K)) (result : ClassificationResult K) :
    completed c (results ++ [result]) =
      completed c results + (if completes (countAll c results) result then 1 else 0) := by
  induction results generalizing c with
  | nil => simp [completed, countAll]
  | cons r rest ih =>
    have h := ih (count c r).1
    rw [List.cons_append, completed, h]
    simp only [completed, countAll, List.foldl_cons]
    ring

/-- After any calls from a fresh counter the stored count lies in 0..12 and is congruent
modulo 12 to the number of repetitions completed. -/
theorem RepetitionCounter.n_repeats_invariant (class_name : String)
    (enter_threshold exit_threshold : ℤ) (results : List (ClassificationResult K)) :
    0 ≤ (countAll (new class_name enter_threshold exit_threshold) results).n_repeats ∧
    (countAll (new class_name enter_threshold exit_threshold) results).n_repeats ≤ 12 ∧
    (countAll (new class_name enter_threshold exit_threshold) results).n_repeats % 12 =
      ((completed (new class_name enter_threshold exit_threshold) results : ℕ) : ℤ) % 12 ∧
    ((countAll (new class_name enter_threshold exit_threshold) results).pose_entered = true →
      (countAll (new class_name enter_threshold exit_threshold) results).n_repeats < 12) := by
  induction results using List.reverseRecOn with
  | nil => simp [countAll, completed, new]
  | append_singleton rest r ih =>
    obtain ⟨h0, h12, hmod, hent⟩ := ih
    rw [countAll_append, completed_append]
    set c := countAll (new class_name enter_threshold exit_threshold) rest with hc
    have htmod : c.n_repeats.tmod 12 = c.n_repeats % 12 := Int.tmod_eq_emod h0 (by norm_num)
    by_cases hcomp : completes c r = true
    · obtain ⟨he, hlt⟩ := (completes_iff c r).mp hcomp
      have hn := hent he
      simp only [hcomp, if_true, count, he, Bool.not_true, Bool.false_eq_true, if_false, hlt,
        htmod, Nat.cast_add, Nat.cast_one]
      refine ⟨by omega, by omega, by omega, by simp⟩
    · have hcomp' : completes c r = false := by simpa using hcomp
      simp only [hcomp', Bool.false_eq_true, if_false, add_zero]
      unfold count
      cases he : c.pose_entered
      · simp only [Bool.not_false, if_true, htmod]
        refine ⟨by omega, by omega, by omega, fun _ => by omega⟩
      · have hge : ¬ pose_confidence c r < (c.exit_threshold : K) := by
          intro hlt
          exact hcomp ((completes_iff c r).mpr ⟨he, hlt⟩)
        have hn := hent he
        simp only [Bool.not_true, Bool.false_eq_true, if_false, hge, htmod]
        refine ⟨by omega, by omega, by omega, fun _ => by omega⟩

end CounterLemmas

section TwoSampleLemmas

variable {K : Type} [LinearOrderedField K]

open PoseClassifier FullBodyPoseEmbedder ClassificationResult

theorem PoseClassifier.down_lt_up : ("down" : String) < "up" := by
  with_unfolding_all decide

theorem PoseClassifier.vote_down_up (a b : PoseSample K × K) (ha : a.1.class_name = "down")
    (hb : b.1.class_name = "up") :
    vote [a, b] = ⟨[("down", 1), ("up", 1)]⟩ ∧ vote [b, a] = ⟨[("down", 1), ("up", 1)]⟩ := by
  have h1 : ¬ ("up" : String) < "down" := not_lt.mpr (le_of_lt down_lt_up)
  have h2 : ¬ ("up" : String) = "down" := by decide
  have h3 : ¬ ("down" : String) = "up" := by decide
  simp only [vote, List.foldl, increment_class_confidence, ClassificationResult.empty, assign,
    find, ha, hb, if_pos down_lt_up, if_neg h1, if_neg h2, if_neg h3, and_self]

/-- A bank of one "down" and one "up" sample, in either order: both samples vote. -/
theorem PoseClassifier.classify_pose_two (R : Runtime K)
    (S : StdSortDesc (PoseSample K × K) Prod.snd) (down up : PoseSample K)
    (pose_samples : List (PoseSample K)) (landmark : Landmark K)
    (hbank : pose_samples = [down, up] ∨ pose_samples = [up, down])
    (hdown : down.class_name = "down") (hup : up.class_name = "up")
    (hd : 23 ≤ down.embedding.length) (hu : 23 ≤ up.embedding.length) :
    classify_pose R S pose_samples landmark = some ⟨[("down", 1), ("up", 1)]⟩ := by
  have hperm : pose_samples.Perm [down, up] := by
    rcases hbank with h | h
    · rw [h]
    · rw [h]
      exact List.Perm.swap _ _ _
  have hok : BankOk pose_samples := by
    intro s hs
    have := hperm.subset hs
    simp only [List.mem_cons, List.mem_singleton, List.not_mem_nil, or_false] at this
    rcases this with rfl | rfl
    · exact hd
    · exact hu
  obtain ⟨l, hl, hc⟩ := classify_pose_small R S pose_samples landmark
    (by rw [hperm.length_eq]; simp) hok
  rw [hc]
  have hl2 := hl.trans hperm
  have hlen : l.length = 2 := by
    have := hl2.length_eq
    simpa using this
  match l, hlen with
  | [x, y], _ =>
    simp only [List.map_cons, List.map_nil] at hl2
    have hx : x.1 ∈ [down, up] := hl2.subset (by simp)
    simp only [List.mem_cons, List.mem_singleton, List.not_mem_nil, or_false] at hx
    have hne : down ≠ up := by
      intro h
      rw [h, hup] at hdown
      exact absurd hdown (by decide)
    rcases hx with hx | hx
    · rw [hx] at hl2
      have hy := List.perm_singleton.mp ((List.perm_cons _).mp hl2)
      simp only [List.cons.injEq, and_true] at hy
      rw [(vote_down_up x y (by rw [hx, hdown]) (by rw [hy, hup])).1]
    · rw [hx] at hl2
      have hdm : down ∈ [up, y.1] := hl2.symm.subset (by simp)
      simp only [List.mem_cons, List.mem_singleton, List.not_mem_nil, or_false] at hdm
      rcases hdm with h | h
      · exact absurd h hne
      · rw [(vote_down_up y x (by rw [← h, hdown]) (by rw [hx, hup])).2]

theorem RepetitionCounter.count_idle (c : RepetitionCounter) (result : ClassificationResult K)
    (he : c.pose_entered = false) (hn : c.n_repeats = 0)
    (hconf : result.get_class_confidence c.class_name ≤ (c.enter_threshold : K)) :
    RepetitionCounter.count c result = (c, 0) := by
  have hnot : ¬ RepetitionCounter.pose_confidence c result > (c.enter_threshold : K) := by
    rw [RepetitionCounter.pose_confidence_eq]
    exact not_lt.mpr hconf
  obtain ⟨cn, en, ex, pe, n⟩ := c
  simp only at he hn hnot
  subst he hn
  simp [RepetitionCounter.count, hnot, Int.tmod]

theorem RepetitionCounter.idle_run (c : RepetitionCounter)
    (results : List (ClassificationResult K))
    (he : c.pose_entered = false) (hn : c.n_repeats = 0)
    (hconf : ∀ r ∈ results, r.get_class_confidence c.class_name ≤ (c.enter_threshold : K)) :
    RepetitionCounter.countAll c results = c ∧
      ∀ v ∈ RepetitionCounter.returns c results, v = 0 := by
  induction results with
  | nil => simp [RepetitionCounter.countAll, RepetitionCounter.returns]
  | cons r rest ih =>
    have h1 := RepetitionCounter.count_idle c r he hn (hconf r (List.mem_cons_self _ _))
    obtain ⟨ih1, ih2⟩ := ih (fun r' hr' => hconf r' (List.mem_cons_of_mem _ hr'))
    simp only [RepetitionCounter.countAll] at ih1
    simp only [RepetitionCounter.countAll, List.foldl_cons, RepetitionCounter.returns, h1,
      List.mem_cons, forall_eq_or_imp, true_and]
    exact ⟨ih1, ih2⟩

end TwoSampleLemmas

section MapFoldLemmas

variable {K : Type}

open ClassificationResult

theorem ClassificationResult.find_foldl_put (g : String → K) (keys : List String)
    (init : ClassificationResult K) (c : String) :
    find (keys.foldl (fun (smoothed : ClassificationResult K) key =>
        smoothed.put_class_confidence key (g key)) init).class_confidences c =
      if c ∈ keys then some (g c) else find init.class_confidences c := by
  induction keys generalizing init with
  | nil => simp
  | cons k rest ih =>
    rw [List.foldl_cons, ih]
    simp only [put_class_confidence, find_assign, List.mem_cons]
    by_cases h1 : c ∈ rest
    · simp [h1]
    · by_cases h2 : k = c
      · subst h2
        simp [h1]
      · have h3 : ¬ c = k := fun h => h2 h.symm
        simp [h1, h2, h3]

theorem ClassificationResult.mem_getKeys_of_find (r : ClassificationResult K) (c : String) (v : K)
    (h : find r.class_confidences c = some v) : c ∈ r.getKeys := by
  have := mem_of_find _ _ _ h
  exact List.mem_map_of_mem Prod.fst this

theorem ClassificationResult.find_isSome_of_mem_getKeys (m : List (String × K)) (c : String)
    (h : c ∈ m.map Prod.fst) : ∃ v, find m c = some v := by
  induction m with
  | nil => simp at h
  | cons e rest ih =>
    obtain ⟨k, w⟩ := e
    by_cases hk : k = c
    · exact ⟨w, by simp [find, hk]⟩
    · simp only [List.map_cons, List.mem_cons] at h
      rcases h with h | h
      · exact absurd h.symm hk
      · obtain ⟨v, hv⟩ := ih h
        exact ⟨v, by simp [find, hk, hv]⟩

theorem ClassificationResult.find_of_mem_ordered (m : List (String × K)) (hm : Ordered m)
    (k : String) (w : K) (h : (k, w) ∈ m) : find m k = some w := by
  induction m with
  | nil => simp at h
  | cons e rest ih =>
    obtain ⟨k0, w0⟩ := e
    have hrest : Ordered rest := (List.pairwise_cons.mp hm).2
    have hk : ∀ k' ∈ rest.map Prod.fst, k0 < k' := (List.pairwise_cons.mp hm).1
    simp only [List.mem_cons, Prod.mk.injEq] at h
    rcases h with ⟨h1, h2⟩ | h
    · simp [find, h1, h2]
    · have hlt : k0 < k := hk k (List.mem_map_of_mem Prod.fst h)
      have hne : ¬ k0 = k := ne_of_lt hlt
      simp only [find, hne, if_false]
      exact ih hrest h

theorem ClassificationResult.assign_append (m : List (String × K)) (k : String) (v : K)
    (h : ∀ k' ∈ m.map Prod.fst, k' < k) : assign m k v = m ++ [(k, v)] := by
  induction m with
  | nil => rfl
  | cons e rest ih =>
    obtain ⟨k0, w0⟩ := e
    have h0 : k0 < k := h k0 (by simp)
    have h1 : ¬ k < k0 := not_lt.mpr (le_of_lt h0)
    have h2 : ¬ k = k0 := fun heq => ne_of_lt h0 heq.symm
    simp only [assign, h1, h2, if_false, List.cons_append]
    rw [ih (fun k' hk' => h k' (by simp only [List.map_cons, List.mem_cons]; exact Or.inr hk'))]

theorem ClassificationResult.foldl_put_ordered (g : String → K) (m acc : List (String × K))
    (hm : Ordered m) (hacc : ∀ a ∈ acc.map Prod.fst, ∀ b ∈ m.map Prod.fst, a < b) :
    (m.map Prod.fst).foldl (fun (smoothed : ClassificationResult K) key =>
        smoothed.put_class_confidence key (g key)) ⟨acc⟩ =
      ⟨acc ++ m.map (fun e => (e.1, g e.1))⟩ := by
  induction m generalizing acc with
  | nil => simp
  | cons e rest ih =>
    obtain ⟨k0, w0⟩ := e
    have hrest : Ordered rest := (List.pairwise_cons.mp hm).2
    have hk : ∀ k' ∈ rest.map Prod.fst, k0 < k' := (List.pairwise_cons.mp hm).1
    have hstep : (⟨acc⟩ : ClassificationResult K).put_class_confidence k0 (g k0) =
        ⟨acc ++ [(k0, g k0)]⟩ := by
      simp only [put_class_confidence]
      rw [assign_append acc k0 (g k0) (fun a ha => hacc a ha k0 (by simp))]
    rw [List.map_cons, List.foldl_cons, hstep, ih (acc ++ [(k0, g k0)]) hrest]
    · simp
    · intro a ha b hb
      simp only [List.map_append, List.map_cons, List.map_nil, List.mem_append,
        List.mem_singleton] at ha
      rcases ha with ha | ha
      · exact hacc a ha b (by simp only [List.map_cons, List.mem_cons]; exact Or.inr hb)
      · rw [ha]
        exact hk b hb

theorem Keypoint.eq_of_fields (a b : Keypoint K) (hx : a.x = b.x) (hy : a.y = b.y)
    (hz : a.z = b.z) : a = b := by
  cases a
  cases b
  simp only at hx hy hz
  rw [hx, hy, hz]

end MapFoldLemmas

section SmoothingLemmas

variable {K : Type} [LinearOrderedField K]

open ClassificationResult Filter

theorem ClassificationResult.confidence_or_zero (d : ClassificationResult K) (key : String) :
    (if d.has_key key then d.get_class_confidence key else 0) = d.get_class_confidence key := by
  unfold has_key get_class_confidence
  cases find d.class_confidences key <;> simp

theorem EMAFilter.fold_scalar {T : Type} (a : K) (conf : T → K) (data : List T)
    (factor top bottom : K) :
    (data.foldl
      (fun (acc : K × K × K) (d : T) =>
        (acc.1 * a, acc.2.1 + acc.1 * conf d, acc.2.2 + acc.1))
      (factor, top, bottom)).2 =
    (top + factor * weightedSum a (data.map conf), bottom + factor * weightSum a data.length) := by
  induction data generalizing factor top bottom with
  | nil => simp [weightedSum, weightSum]
  | cons d rest ih =>
    rw [List.foldl_cons, ih, List.map_cons, List.length_cons, weightedSum_cons, weightSum_succ]
    simp only [Prod.mk.injEq]
    constructor <;> ring

theorem EMAFilter.smooth_key_eq (alpha : K) (data : List (ClassificationResult K))
    (key : String) :
    EMAFilter.smooth_key alpha data key =
      weightedMean (1 - alpha) (data.map (fun d => d.get_class_confidence key)) := by
  simp only [EMAFilter.smooth_key, confidence_or_zero]
  rw [EMAFilter.fold_scalar (1 - alpha) (fun d => d.get_class_confidence key) data 1 0 0]
  simp only [weightedMean_eq, List.length_map, zero_add, one_mul]

theorem Filter.weightedSum_replicate (a x : K) (n : Nat) :
    weightedSum a (List.replicate n x) = x * weightSum a n := by
  induction n with
  | zero => simp [weightedSum, weightSum]
  | succ n ih =>
    rw [List.replicate_succ, weightedSum_cons, ih, weightSum_succ]
    ring

theorem Filter.weightSum_pos (a : K) (ha : 0 ≤ a) (n : Nat) (hn : 0 < n) : 0 < weightSum a n := by
  have hnonneg : ∀ m : Nat, 0 ≤ weightSum a m := by
    intro m
    induction m with
    | zero => simp [weightSum]
    | succ m ih =>
      rw [weightSum_succ]
      have := mul_nonneg ha ih
      linarith
  cases n with
  | zero => omega
  | succ m =>
    rw [weightSum_succ]
    have := mul_nonneg ha (hnonneg m)
    linarith

theorem Filter.weightedMean_replicate (a x : K) (ha : 0 ≤ a) (n : Nat) (hn : 0 < n) :
    weightedMean a (List.replicate n x) = x := by
  rw [weightedMean_eq, weightedSum_replicate, List.length_replicate]
  exact mul_div_cancel_right₀ x (ne_of_gt (weightSum_pos a ha n hn))

/-- The history after `xs` have been pushed, one by one, onto a history `v` of at most
`window_size` entries: the newest `window_size` of them, newest first. -/
theorem Filter.foldl_push {α : Type} (window_size : Nat) (xs v : List α)
    (hv : v.length ≤ window_size) :
    xs.foldl (fun h x => push window_size x h) v = (xs.reverse ++ v).take window_size := by
  induction xs generalizing v with
  | nil => simp [List.take_of_length_le hv]
  | cons x rest ih =>
    have hlen : (push window_size x v).length ≤ window_size := by
      rw [push_eq_take window_size x v hv]
      exact List.length_take_le _ _
    rw [List.foldl_cons, ih _ hlen, push_eq_take window_size x v hv, List.reverse_cons,
      List.append_assoc, List.singleton_append]
    rw [List.take_append_eq_append_take]
    rw [List.take_append_eq_append_take]
    congr 1
    rw [List.take_take]
    congr 1
    omega

end SmoothingLemmas

section HistoryLemmas

variable {K : Type} [LinearOrderedField K]

open ClassificationResult Filter

theorem Filter.callAll_state (f : Filter K) (calls : List (BoundingBox K ⊕ Landmark K)) :
    (callAll f calls).window_size = f.window_size ∧
    (callAll f calls).alpha = f.alpha ∧
    (callAll f calls).alpha_landmarks = f.alpha_landmarks ∧
    (callAll f calls).data =
      (calls.filterMap Sum.getLeft?).foldl (fun h x => push f.window_size x h) f.data ∧
    (callAll f calls).data_landmark =
      (calls.filterMap Sum.getRight?).foldl (fun h x => push f.window_size x h)
        f.data_landmark := by
  induction calls generalizing f with
  | nil => simp [callAll]
  | cons c rest ih =>
    obtain ⟨h1, h2, h3, h4, h5⟩ := ih (call f c)
    simp only [callAll, List.foldl_cons] at h1 h2 h3 h4 h5 ⊢
    cases c with
    | inl b =>
      simp only [call, filter_bbox] at h1 h2 h3 h4 h5 ⊢
      simp [h1, h2, h3, h4, h5]
    | inr l =>
      simp only [call, filter_landmark] at h1 h2 h3 h4 h5 ⊢
      simp [h1, h2, h3, h4, h5]

theorem EMAFilter.filterAll_state (f : EMAFilter K) (frames : List (ClassificationResult K)) :
    (EMAFilter.filterAll f frames).window_size = f.window_size ∧
    (EMAFilter.filterAll f frames).alpha = f.alpha ∧
    (EMAFilter.filterAll f frames).data =
      frames.foldl (fun h x => push f.window_size x h) f.data := by
  induction frames generalizing f with
  | nil => simp [EMAFilter.filterAll]
  | cons c rest ih =>
    obtain ⟨h1, h2, h3⟩ := ih (EMAFilter.filter f c).1
    simp only [EMAFilter.filterAll, List.foldl_cons] at h1 h2 h3 ⊢
    simp only [EMAFilter.filter] at h1 h2 h3 ⊢
    simp [h1, h2, h3]

theorem Filter.push_full {α : Type} (window_size : Nat) (x : α) (v : List α)
    (hw : 0 < window_size) (hv : v.length = window_size) :
    push window_size x v = x :: v.dropLast := by
  unfold push
  have hlen : (x :: v).length > window_size := by
    simp only [List.length_cons]
    omega
  rw [if_pos hlen]
  cases v with
  | nil => simp at hv; omega
  | cons y rest => rfl

theorem Filter.take_replicate_append {α : Type} (x : α) (n m : Nat) (v : List α) (h : m ≤ n) :
    (List.replicate n x ++ v).take m = List.replicate m x := by
  rw [List.take_append_of_le_length (by simp [h]), List.take_replicate, Nat.min_eq_left h]

theorem Landmark.eq_of_get (a b : Landmark K) (h : ∀ i < 33, a.get i = b.get i) : a = b := by
  have e : ∀ l : Landmark K, l = ⟨l.get 0, l.get 1, l.get 2, l.get 3, l.get 4, l.get 5, l.get 6, l.get 7, l.get 8, l.get 9, l.get 10, l.get 11, l.get 12, l.get 13, l.get 14, l.get 15, l.get 16, l.get 17, l.get 18, l.get 19, l.get 20, l.get 21, l.get 22, l.get 23, l.get 24, l.get 25, l.get 26, l.get 27, l.get 28, l.get 29, l.get 30, l.get 31, l.get 32⟩ := fun l => by
    cases l
    rfl
  rw [e a, e b, h 0 (by decide), h 1 (by decide), h 2 (by decide), h 3 (by decide), h 4 (by decide), h 5 (by decide), h 6 (by decide), h 7 (by decide), h 8 (by decide), h 9 (by decide), h 10 (by decide), h 11 (by decide), h 12 (by decide), h 13 (by decide), h 14 (by decide), h 15 (by decide), h 16 (by decide), h 17 (by decide), h 18 (by decide), h 19 (by decide), h 20 (by decide), h 21 (by decide), h 22 (by decide), h 23 (by decide), h 24 (by decide), h 25 (by decide), h 26 (by decide), h 27 (by decide), h 28 (by decide), h 29 (by decide), h 30 (by decide), h 31 (by decide), h 32 (by decide)]

end HistoryLemmas

section ConvergenceLemmas

variable {K : Type} [LinearOrderedField K]

open ClassificationResult Filter

/-- The history after at least `window_size - 1` pushes of `x` and one more. -/
theorem Filter.push_replicate {α : Type} (window_size : Nat) (x : α) (v : List α) (m : Nat)
    (hv : v.length ≤ window_size) (hm : window_size ≤ m + 1) :
    push window_size x ((List.replicate m x).foldl (fun h y => push window_size y h) v) =
      List.replicate window_size x := by
  have hfold := foldl_push window_size (List.replicate m x) v hv
  rw [hfold, push_eq_take _ _ _ (List.length_take_le _ _), List.reverse_replicate]
  by_cases hle : window_size ≤ m
  · rw [take_replicate_append x m window_size v hle]
    have : x :: List.replicate window_size x = List.replicate (window_size + 1) x ++ [] := by
      simp [List.replicate_succ]
    rw [this, take_replicate_append x _ window_size [] (by omega)]
  · have hm' : window_size = m + 1 := by omega
    have hcons : x :: (List.replicate m x ++ v).take window_size =
        List.replicate (m + 1) x ++ (v.take (window_size - m)) := by
      rw [List.take_append_eq_append_take, List.take_replicate, Nat.min_eq_right (by omega),
        List.length_replicate, List.replicate_succ, List.cons_append]
    rw [hcons, take_replicate_append x (m + 1) window_size _ (by omega)]

theorem Filter.filter_bbox_constant (f : Filter K) (box : BoundingBox K)
    (hdata : push f.window_size box f.data = List.replicate 10 box)
    (halpha : f.alpha = 1 / 10) : (f.filter_bbox box).2 = box := by
  have ha : (0 : K) ≤ 1 - f.alpha := by
    rw [halpha]
    norm_num
  have hfield : ∀ (π : BoundingBox K → K),
      (∀ t d x, π (BoundingBox.addAssign t (BoundingBox.mulScalar d x)) = π t + π d * x) →
      (∀ b x, π (BoundingBox.addAssignScalar b x) = π b + x) → π BoundingBox.zero = 0 →
      (∀ t b, π (BoundingBox.div t b) = π t / π b) → π (f.filter_bbox box).2 = π box := by
    intro π h1 h2 h3 h4
    rw [filter_bbox_field f box π h1 h2 h3 h4]
    have hd : (f.filter_bbox box).1.data = List.replicate 10 box := hdata
    rw [hd, List.map_replicate, weightedMean_replicate _ _ ha 10 (by norm_num)]
  have hxmin := hfield BoundingBox.xmin (fun _ _ _ => rfl) (fun _ _ => rfl) rfl (fun _ _ => rfl)
  have hymin := hfield BoundingBox.ymin (fun _ _ _ => rfl) (fun _ _ => rfl) rfl (fun _ _ => rfl)
  have hxmax := hfield BoundingBox.xmax (fun _ _ _ => rfl) (fun _ _ => rfl) rfl (fun _ _ => rfl)
  have hymax := hfield BoundingBox.ymax (fun _ _ _ => rfl) (fun _ _ => rfl) rfl (fun _ _ => rfl)
  generalize (f.filter_bbox box).2 = out at hxmin hymin hxmax hymax
  cases out
  cases box
  simp only at hxmin hymin hxmax hymax
  rw [hxmin, hymin, hxmax, hymax]

theorem Filter.filter_landmark_constant (f : Filter K) (landmark : Landmark K)
    (hdata : push f.window_size landmark f.data_landmark = List.replicate 10 landmark)
    (halpha : f.alpha_landmarks = 2 / 5) : (f.filter_landmark landmark).2 = landmark := by
  have ha : (0 : K) ≤ 1 - f.alpha_landmarks := by
    rw [halpha]
    norm_num
  apply Landmark.eq_of_get
  intro i hi
  have hfield : ∀ (ρ : Keypoint K → K),
      (∀ t d, ρ (Keypoint.add t d) = ρ t + ρ d) → (∀ d x, ρ (Keypoint.mulScalar d x) = ρ d * x) →
      (∀ b x, ρ (Keypoint.addScalar b x) = ρ b + x) → ρ Keypoint.zero = 0 →
      (∀ t b, ρ (Keypoint.div t b) = ρ t / ρ b) →
      ρ ((f.filter_landmark landmark).2.get i) = ρ (landmark.get i) := by
    intro ρ h1 h2 h3 h4 h5
    rw [filter_landmark_field f landmark i hi ρ h1 h2 h3 h4 h5]
    have hd : (f.filter_landmark landmark).1.data_landmark = List.replicate 10 landmark := hdata
    rw [hd, List.map_replicate, weightedMean_replicate _ _ ha 10 (by norm_num)]
  exact Keypoint.eq_of_fields _ _
    (hfield Keypoint.x (fun _ _ => rfl) (fun _ _ => rfl) (fun _ _ => rfl) rfl (fun _ _ => rfl))
    (hfield Keypoint.y (fun _ _ => rfl) (fun _ _ => rfl) (fun _ _ => rfl) rfl (fun _ _ => rfl))
    (hfield Keypoint.z (fun _ _ => rfl) (fun _ _ => rfl) (fun _ _ => rfl) rfl (fun _ _ => rfl))

theorem EMAFilter.filter_constant (f : EMAFilter K) (result : ClassificationResult K)
    (hdata : push f.window_size result f.data = List.replicate 10 result)
    (halpha : f.alpha = 1 / 5) (hres : Ordered result.class_confidences) :
    (EMAFilter.filter f result).2 = result := by
  have ha : (0 : K) ≤ 1 - f.alpha := by
    rw [halpha]
    norm_num
  have hg : EMAFilter.smooth_key f.alpha (push f.window_size result f.data) =
      fun key => result.get_class_confidence key := by
    funext key
    rw [EMAFilter.smooth_key_eq, hdata, List.map_replicate,
      weightedMean_replicate _ _ ha 10 (by norm_num)]
  simp only [EMAFilter.filter, hg, getKeys, ClassificationResult.empty]
  rw [foldl_put_ordered (fun key => result.get_class_confidence key) result.class_confidences []
    hres (by simp)]
  have hmap : result.class_confidences.map (fun e => (e.1, result.get_class_confidence e.1)) =
      result.class_confidences := by
    conv_rhs => rw [← List.map_id result.class_confidences]
    apply List.map_congr_left
    intro e he
    obtain ⟨k, w⟩ := e
    simp only [get_class_confidence, find_of_mem_ordered _ hres k w he, id]
  rw [List.nil_append, hmap]

theorem EMAFilter.outputs_omitted (f : EMAFilter K) (omitted : ClassificationResult K)
    (c : String) (homit : omitted.has_key c = false) (n : Nat) :
    (EMAFilter.outputs f (List.replicate n omitted)).map (fun r => r.get_class_confidence c) =
      List.replicate n 0 := by
  have hnot : c ∉ omitted.getKeys := by
    intro hmem
    obtain ⟨w, hw⟩ := find_isSome_of_mem_getKeys omitted.class_confidences c hmem
    simp [has_key, hw] at homit
  induction n generalizing f with
  | zero => simp [EMAFilter.outputs]
  | succ n ih =>
    rw [List.replicate_succ, EMAFilter.outputs, List.map_cons, ih, List.replicate_succ]
    congr 1
    simp only [EMAFilter.filter, get_class_confidence, find_foldl_put, if_neg hnot,
      ClassificationResult.empty, find]

/-- The first call of a fresh `EMAFilter` returns each confidence of the frame unchanged. -/
theorem EMAFilter.ema_filter_first (first : ClassificationResult K) (c : String)
    (hmem : c ∈ first.getKeys) :
    (EMAFilter.filter EMAFilter.new first).2.get_class_confidence c =
      first.get_class_confidence c := by
  have hfind := find_foldl_put (EMAFilter.smooth_key (1 / 5) (push 10 first []))
    first.getKeys ClassificationResult.empty c
  rw [if_pos hmem] at hfind
  have hval : EMAFilter.smooth_key (1 / 5 : K) (push 10 first []) c =
      first.get_class_confidence c := by
    rw [EMAFilter.smooth_key_eq]
    have hpush : push 10 first ([] : List (ClassificationResult K)) = List.replicate 1 first := rfl
    rw [hpush, List.map_replicate, weightedMean_replicate _ _ (by norm_num) 1 (by norm_num)]
  show get_class_confidence _ c = _
  unfold get_class_confidence
  simp only [EMAFilter.filter, EMAFilter.new]
  rw [hfind, hval]
  rfl

end ConvergenceLemmas

section DetectionLemmas

variable {K : Type} [LinearOrderedField K]

open PoseDetectionInterpreter

theorem PoseDetectionInterpreter.iou_comm (a b : BoundingBox K) : iou a b = iou b a := by
  simp only [iou, max_comm a.xmin, max_comm a.ymin, min_comm a.xmax, min_comm a.ymax,
    add_comm ((a.xmax - a.xmin) * (a.ymax - a.ymin))]

theorem PoseDetectionInterpreter.iou_nonneg (a b : BoundingBox K) : 0 ≤ iou a b := by
  unfold iou
  simp only
  split_ifs with h
  · exact h
  · exact le_refl 0

theorem PoseDetectionInterpreter.iou_eq_zero (a b : BoundingBox K)
    (h : min a.xmax b.xmax ≤ max a.xmin b.xmin ∨ min a.ymax b.ymax ≤ max a.ymin b.ymin) :
    iou a b = 0 := by
  have hinter : max 0 (min a.xmax b.xmax - max a.xmin b.xmin) *
      max 0 (min a.ymax b.ymax - max a.ymin b.ymin) = 0 := by
    rcases h with h | h
    · rw [max_eq_left (sub_nonpos.mpr h), zero_mul]
    · rw [max_eq_left (sub_nonpos.mpr h), mul_zero]
  unfold iou
  simp only [hinter, zero_div, ge_iff_le, le_refl, if_true]

theorem PoseDetectionInterpreter.mem_suppress (nms_threshold : K) (first : PoseDetection K)
    (poses : List (PoseDetection K)) (d : PoseDetection K) :
    d ∈ suppress nms_threshold first poses ↔
      d ∈ poses ∧ ¬ iou first.bbox d.bbox > nms_threshold := by
  induction poses with
  | nil => simp [suppress]
  | cons pose rest ih =>
    unfold suppress
    split_ifs with h
    · rw [ih, List.mem_cons]
      constructor
      · rintro ⟨h1, h2⟩
        exact ⟨Or.inr h1, h2⟩
      · rintro ⟨h1 | h1, h2⟩
        · rw [h1] at h2
          exact absurd h h2
        · exact ⟨h1, h2⟩
    · rw [List.mem_cons, ih, List.mem_cons]
      constructor
      · rintro (h1 | ⟨h1, h2⟩)
        · rw [h1]
          exact ⟨Or.inl rfl, h⟩
        · exact ⟨Or.inr h1, h2⟩
      · rintro ⟨h1 | h1, h2⟩
        · exact Or.inl h1
        · exact Or.inr ⟨h1, h2⟩

theorem PoseDetectionInterpreter.suppress_sublist (nms_threshold : K) (first : PoseDetection K)
    (poses : List (PoseDetection K)) : (suppress nms_threshold first poses).Sublist poses := by
  induction poses with
  | nil => exact List.Sublist.refl _
  | cons pose rest ih =>
    unfold suppress
    split_ifs with h
    · exact List.Sublist.cons _ ih
    · exact List.Sublist.cons₂ _ ih

theorem PoseDetectionInterpreter.nmsLoop_subset (nms_threshold : K) (fuel : Nat)
    (poses : List (PoseDetection K)) (d : PoseDetection K)
    (h : d ∈ nmsLoop nms_threshold fuel poses) : d ∈ poses := by
  induction fuel generalizing poses with
  | zero => simp [nmsLoop] at h
  | succ fuel ih =>
    cases poses with
    | nil => simp [nmsLoop] at h
    | cons first rest =>
      simp only [nmsLoop, List.mem_cons] at h
      rcases h with h | h
      · exact h ▸ List.mem_cons_self _ _
      · exact List.mem_cons_of_mem _ ((suppress_sublist nms_threshold first rest).subset (ih _ h))

theorem PoseDetectionInterpreter.nmsLoop_pairwise (nms_threshold : K) (fuel : Nat)
    (poses : List (PoseDetection K)) :
    (nmsLoop nms_threshold fuel poses).Pairwise
      (fun a b => iou a.bbox b.bbox ≤ nms_threshold) := by
  induction fuel generalizing poses with
  | zero => simp [nmsLoop]
  | succ fuel ih =>
    cases poses with
    | nil => simp [nmsLoop]
    | cons first rest =>
      simp only [nmsLoop, List.pairwise_cons]
      refine ⟨?_, ih _⟩
      intro d hd
      have := (mem_suppress nms_threshold first rest d).mp (nmsLoop_subset _ _ _ _ hd)
      exact not_lt.mp this.2

/-- With fuel for every entry, an entry of the sorted vector is either kept or erased by a
kept entry that stands before it. -/
theorem PoseDetectionInterpreter.nmsLoop_covers (nms_threshold : K) (fuel : Nat)
    (poses : List (PoseDetection K)) (hfuel : poses.length ≤ fuel)
    (hsorted : poses.Pairwise (fun a b => b.score ≤ a.score)) (d : PoseDetection K)
    (hd : d ∈ poses) :
    d ∈ nmsLoop nms_threshold fuel poses ∨
      ∃ o ∈ nmsLoop nms_threshold fuel poses,
        iou o.bbox d.bbox > nms_threshold ∧ d.score ≤ o.score := by
  induction fuel generalizing poses with
  | zero =>
    cases poses with
    | nil => simp at hd
    | cons first rest => simp at hfuel
  | succ fuel ih =>
    cases poses with
    | nil => simp at hd
    | cons first rest =>
      simp only [nmsLoop]
      rw [List.pairwise_cons] at hsorted
      rcases List.mem_cons.mp hd with h | h
      · exact Or.inl (h ▸ List.mem_cons_self _ _)
      · by_cases hiou : iou first.bbox d.bbox > nms_threshold
        · exact Or.inr ⟨first, List.mem_cons_self _ _, hiou, hsorted.1 d h⟩
        · have hmem : d ∈ suppress nms_threshold first rest :=
            (mem_suppress nms_threshold first rest d).mpr ⟨h, hiou⟩
          have hlen : (suppress nms_threshold first rest).length ≤ fuel := by
            have := (suppress_sublist nms_threshold first rest).length_le
            simp only [List.length_cons] at hfuel
            omega
          rcases ih _ hlen (hsorted.2.sublist (suppress_sublist nms_threshold first rest)) hmem
            with h' | ⟨o, ho, h1, h2⟩
          · exact Or.inl (List.mem_cons_of_mem _ h')
          · exact Or.inr ⟨o, List.mem_cons_of_mem _ ho, h1, h2⟩

/-- `std::sort` with `comparer` puts two detections of different scores in one order. -/
theorem PoseDetectionInterpreter.sort_two (S : StdSortDesc (PoseDetection K) PoseDetection.score)
    (a b : PoseDetection K) (h : a.score > b.score) (poses : List (PoseDetection K))
    (hposes : poses = [a, b] ∨ poses = [b, a]) : S.sort poses = [a, b] := by
  have hperm : (S.sort poses).Perm [a, b] := by
    rcases hposes with h' | h'
    · rw [h']
      exact S.perm _
    · rw [h']
      exact (S.perm _).trans (List.Perm.swap _ _ _)
  have hsorted := S.sorted poses
  have hlen : (S.sort poses).length = 2 := by
    have := hperm.length_eq
    simpa using this
  match hl : S.sort poses, hlen with
  | [x, y], _ =>
    rw [hl] at hperm hsorted
    have hx : x ∈ [a, b] := hperm.subset (by simp)
    simp only [List.mem_cons, List.mem_singleton, List.not_mem_nil, or_false] at hx
    rcases hx with hx | hx
    · rw [hx] at hperm
      have hy := List.perm_singleton.mp ((List.perm_cons _).mp hperm)
      simp only [List.cons.injEq, and_true] at hy
      rw [hx, hy]
    · rw [hx] at hperm hsorted
      have ha : a ∈ [b, y] := hperm.symm.subset (by simp)
      simp only [List.mem_cons, List.mem_singleton, List.not_mem_nil, or_false] at ha
      have hay : a = y := by
        rcases ha with h' | h'
        · rw [h'] at h
          exact absurd h (lt_irrefl _)
        · exact h'
      rw [← hay] at hsorted
      have := (List.pairwise_cons.mp hsorted).1 a (by simp)
      exact absurd h (not_lt.mpr this)

theorem PoseDetectionInterpreter.read_of_lt (array : List K) (index : Nat)
    (h : index < array.length) : read array index = .ok (array.getD index 0) := by
  unfold read
  rw [List.getD_eq_getElem?_getD, List.getElem?_eq_getElem h]
  rfl

theorem PoseDetectionInterpreter.nmsLoop_two (nms_threshold : K) (a b : PoseDetection K) :
    nmsLoop nms_threshold 2 [a, b] =
      if iou a.bbox b.bbox > nms_threshold then [a] else [a, b] := by
  split_ifs with h
  · simp [nmsLoop, suppress, h]
  · simp [nmsLoop, suppress, h]

end DetectionLemmas

section PlainLemmas

variable {K : Type}

theorem Landmark.byName_left_hip (undef : Landmark K → String → Keypoint K) (lm : Landmark K) :
    lm.byName undef "left_hip" = lm.left_hip := rfl

theorem Landmark.byName_right_hip (undef : Landmark K → String → Keypoint K) (lm : Landmark K) :
    lm.byName undef "right_hip" = lm.right_hip := rfl

theorem Landmark.byName_left_shoulder (undef : Landmark K → String → Keypoint K)
    (lm : Landmark K) : lm.byName undef "left_shoulder" = lm.left_shoulder := rfl

theorem Landmark.byName_right_shoulder (undef : Landmark K → String → Keypoint K)
    (lm : Landmark K) : lm.byName undef "right_shoulder" = lm.right_shoulder := rfl

theorem ClassificationResult.not_mem_getKeys (r : ClassificationResult K) (c : String)
    (h : find r.class_confidences c = none) : c ∉ r.getKeys := by
  intro hc
  obtain ⟨v, hv⟩ := find_isSome_of_mem_getKeys r.class_confidences c hc
  rw [h] at hv
  exact Option.noConfusion hv

end PlainLemmas

section NameLemmas

variable {K : Type} [LinearOrderedField K]

theorem Landmark.byName_names (undef : Landmark K → String → Keypoint K) (lm : Landmark K)
    (i : Nat) (hi : i < 33) : lm.byName undef (Landmark.names.getD i "") = lm.get i := by
  interval_cases i <;> rfl

theorem Landmark.set_eq_forEach (lm : Landmark K) (kp : Keypoint K) (i : Nat) (hi : i < 33) :
    lm.set i kp = lm.forEach (fun j p => if j = i then kp else p) := by
  rw [Landmark.forEach_eq]
  interval_cases i <;> rfl

theorem Landmark.get_set (lm : Landmark K) (kp : Keypoint K) (i j : Nat) (hi : i < 33)
    (hj : j < 33) : (lm.set i kp).get j = if j = i then kp else lm.get j := by
  rw [Landmark.set_eq_forEach lm kp i hi, Landmark.get_forEach _ _ j hj]

theorem Keypoint.add_mulScalar_half (p q : Keypoint K) :
    (p.add q).mulScalar (1 / 2) = Keypoint.midpoint p q := by
  simp only [Keypoint.add, Keypoint.mulScalar, Keypoint.midpoint, mul_one_div]

end NameLemmas

section PoseSizeLemmas

variable {K : Type} [LinearOrderedField K]

/-- The loop of `get_pose_size` computes a running maximum. -/
theorem FullBodyPoseEmbedder.fold_eq_max (d : Nat → K) (l : List Nat) (init : K) :
    l.foldl (fun max_distance i => if d i > max_distance then d i else max_distance) init =
      (l.map d).foldl max init := by
  induction l generalizing init with
  | nil => rfl
  | cons a rest ih =>
    rw [List.foldl_cons, ih, List.map_cons, List.foldl_cons]
    congr 1
    by_cases h : d a > init
    · rw [if_pos h, max_eq_right (le_of_lt h)]
    · rw [if_neg h, max_eq_left (not_lt.mp h)]

theorem FullBodyPoseEmbedder.init_le_foldl_max (l : List K) (init : K) :
    init ≤ l.foldl max init := by
  induction l generalizing init with
  | nil => exact le_refl _
  | cons a rest ih =>
    rw [List.foldl_cons]
    exact le_trans (le_max_left _ _) (ih _)

theorem FullBodyPoseEmbedder.mem_le_foldl_max (l : List K) (init x : K) (hx : x ∈ l) :
    x ≤ l.foldl max init := by
  induction l generalizing init with
  | nil => simp at hx
  | cons a rest ih =>
    rw [List.foldl_cons]
    rcases List.mem_cons.mp hx with h | h
    · subst h
      exact le_trans (le_max_right _ _) (init_le_foldl_max _ _)
    · exact ih _ h

theorem FullBodyPoseEmbedder.foldl_max_attained (l : List K) (init : K) :
    l.foldl max init = init ∨ l.foldl max init ∈ l := by
  induction l generalizing init with
  | nil => exact Or.inl rfl
  | cons a rest ih =>
    rw [List.foldl_cons]
    rcases ih (max init a) with h | h
    · rw [h]
      rcases max_choice init a with h2 | h2
      · exact Or.inl h2
      · exact Or.inr (by rw [h2]; exact List.mem_cons_self _ _)
    · exact Or.inr (List.mem_cons_of_mem _ h)

end PoseSizeLemmas

section WriteLemmas

variable {K : Type} [LinearOrderedField K]

open ClassificationResult

theorem ClassificationResult.find_write (r : ClassificationResult K) (w : Write K) (c : String)
    (h : w.class_name ≠ c) :
    find (r.write w).class_confidences c = find r.class_confidences c := by
  cases w with
  | put class_name confidence =>
    simp only [write, put_class_confidence, find_assign]
    exact if_neg h
  | increment class_name =>
    simp only [write, increment_class_confidence, find_assign]
    exact if_neg h

theorem ClassificationResult.find_foldl_write (ws : List (Write K)) (r : ClassificationResult K)
    (c : String) (h : ∀ w ∈ ws, w.class_name ≠ c) :
    find (ws.foldl write r).class_confidences c = find r.class_confidences c := by
  induction ws generalizing r with
  | nil => rfl
  | cons w rest ih =>
    rw [List.foldl_cons, ih _ (fun w' hw' => h w' (List.mem_cons_of_mem _ hw')),
      find_write r w c (h w (List.mem_cons_self _ _))]

theorem ClassificationResult.find_iterate_increment (c c' : String) (hc : c' ≠ c) (k : Nat)
    (r : ClassificationResult K) :
    find ((fun s => increment_class_confidence s c)^[k] r).class_confidences c' =
      find r.class_confidences c' := by
  induction k generalizing r with
  | zero => rfl
  | succ n ih =>
    rw [Function.iterate_succ_apply, ih]
    simp only [increment_class_confidence, find_assign]
    rw [if_neg (fun h => hc h.symm)]

theorem ClassificationResult.get_iterate_increment (c : String) (k : Nat)
    (r : ClassificationResult K) :
    ((fun s => increment_class_confidence s c)^[k] r).get_class_confidence c =
      r.get_class_confidence c + (k : K) := by
  induction k generalizing r with
  | zero => simp
  | succ n ih =>
    rw [Function.iterate_succ_apply, ih, get_increment, if_pos rfl]
    push_cast
    ring

end WriteLemmas

section LandmarkDecodeLemmas

variable {K : Type} [LinearOrderedField K]

open PoseLandmarkInterpreter

theorem PoseLandmarkInterpreter.decode_point_ok (I : PoseLandmarkInterpreter K) (i : Nat)
    (h : i * I.num_keypoints + 2 < I.raw_landmarks.length) :
    decode_point I i =
      .ok { I with pose_landmark :=
              I.pose_landmark.set i (decoded I.raw_landmarks I.num_keypoints I.scale i) } := by
  unfold decode_point
  rw [PoseDetectionInterpreter.read_of_lt _ _ (by omega : i * I.num_keypoints + 0 < _),
    PoseDetectionInterpreter.read_of_lt _ _ (by omega : i * I.num_keypoints + 1 < _),
    PoseDetectionInterpreter.read_of_lt _ _ h]
  rfl

theorem PoseLandmarkInterpreter.decode_points (is : List Nat) (I : PoseLandmarkInterpreter K)
    (h : ∀ i ∈ is, i * I.num_keypoints + 2 < I.raw_landmarks.length) :
    is.foldlM decode_point I =
      .ok { I with pose_landmark :=
              (is.foldl
                (fun lm i => lm.set i (decoded I.raw_landmarks I.num_keypoints I.scale i))
                I.pose_landmark) } := by
  induction is generalizing I with
  | nil => rfl
  | cons a rest ih =>
    rw [List.foldlM_cons, decode_point_ok I a (h a (List.mem_cons_self _ _))]
    exact (ih { I with pose_landmark :=
                  I.pose_landmark.set a (decoded I.raw_landmarks I.num_keypoints I.scale a) }
      (fun i hi => h i (List.mem_cons_of_mem _ hi))).trans rfl

theorem PoseLandmarkInterpreter.getD_map_range (raw : Nat → K) (n i : Nat) (h : i < n) :
    ((List.range n).map raw).getD i 0 = raw i := by
  rw [List.getD_eq_getElem?_getD, List.getElem?_map, List.getElem?_range h]
  rfl

theorem PoseLandmarkInterpreter.pointer_of_lt (tensor : List K) (behind : Nat → K) (j : Nat)
    (h : j < tensor.length) : pointer tensor behind j = tensor.getD j 0 := by
  unfold pointer
  rw [List.getD_eq_getElem?_getD, List.getElem?_eq_getElem h]
  rfl

theorem PoseLandmarkInterpreter.decoded_map_range (raw : Nat → K) (n stride : Nat)
    (scale : K) (i : Nat) (h : i * stride + 2 < n) :
    decoded ((List.range n).map raw) stride scale i =
      ⟨raw (i * stride) / scale, raw (i * stride + 1) / scale,
        raw (i * stride + 2) / scale⟩ := by
  unfold decoded
  rw [getD_map_range _ n _ (by omega : i * stride < n),
    getD_map_range _ n _ (by omega : i * stride + 1 < n), getD_map_range _ n _ h]

theorem PoseLandmarkInterpreter.decode_landmark_ok (I : PoseLandmarkInterpreter K)
    (h : 32 * I.num_keypoints + 2 < I.raw_landmarks.length) :
    decode_landmark I =
      .ok { I with pose_landmark :=
              (I.pose_landmark.forEach
                (fun i _ => decoded I.raw_landmarks I.num_keypoints I.scale i)) } := by
  unfold decode_landmark
  rw [decode_points (List.range 33) I]
  · rfl
  · intro i hi
    have hi32 : i ≤ 32 := Nat.lt_succ_iff.mp (List.mem_range.mp hi)
    have := Nat.mul_le_mul_right I.num_keypoints hi32
    omega

theorem PoseLandmarkInterpreter.decode_predictions_accept (exp : K → K)
    (I : PoseLandmarkInterpreter K) (raw : Nat → K) (score : K)
    (hrec : 32 * I.num_keypoints + 2 < I.num_detections * I.num_keypoints)
    (hgt : 1 / (1 + exp (-score)) > I.score_threshold) :
    decode_predictions exp I (some raw) score =
      .ok ({ I with
              raw_landmarks := (List.range (I.num_detections * I.num_keypoints)).map raw,
              pose_landmark :=
                (I.pose_landmark.forEach
                  (fun i _ => decoded
                    ((List.range (I.num_detections * I.num_keypoints)).map raw)
                    I.num_keypoints I.scale i)) },
        1 / (1 + exp (-score))) := by
  have hcopy : 32 * I.num_keypoints + 2 <
      ((List.range (I.num_detections * I.num_keypoints)).map raw).length := by
    rw [List.length_map, List.length_range]
    exact hrec
  have hdec := decode_landmark_ok
    { I with raw_landmarks := (List.range (I.num_detections * I.num_keypoints)).map raw }
    hcopy
  unfold decode_predictions
  simp only []
  rw [if_pos hgt, hdec]

theorem PoseLandmarkInterpreter.decode_predictions_reject (exp : K → K)
    (I : PoseLandmarkInterpreter K) (raw : Nat → K) (score : K)
    (hgt : ¬ 1 / (1 + exp (-score)) > I.score_threshold) :
    decode_predictions exp I (some raw) score =
      .ok ({ I with
              raw_landmarks := (List.range (I.num_detections * I.num_keypoints)).map raw },
        1 / (1 + exp (-score))) := by
  unfold decode_predictions
  simp only []
  rw [if_neg hgt]

end LandmarkDecodeLemmas

section LoadPlainLemmas

variable {K : Type}

open PoseClassifier

theorem PoseClassifier.stofAt_refused (stof : String → Option K) (row : List String)
    (h : RowRefused stof row) :
    ∃ n, 2 ≤ n ∧ n < 101 ∧ ∃ fault, stofAt stof row n = .error fault := by
  rcases h with h | ⟨n, f, h2, h101, hf, hs⟩
  · refine ⟨100, by decide, by decide, .out_of_range, ?_⟩
    unfold stofAt fieldAt
    rw [List.getElem?_eq_none (by omega)]
  · refine ⟨n, h2, h101, .invalid_argument, ?_⟩
    unfold stofAt fieldAt
    rw [hf]
    simp only [hs]

theorem PoseClassifier.read_keypoint_refused (stof : String → Option K) (row : List String)
    (h : RowRefused stof row) :
    ∃ j, j < 33 ∧ ∃ fault, read_keypoint stof row j = .error fault := by
  obtain ⟨n, h2, h101, fault, hn⟩ := stofAt_refused stof row h
  refine ⟨(n - 2) / 3, by omega, ?_⟩
  have hk : (n - 2) % 3 = 0 ∨ (n - 2) % 3 = 1 ∨ (n - 2) % 3 = 2 := by omega
  unfold read_keypoint
  rcases hk with hk | hk | hk
  · have e : 2 + ((n - 2) / 3 * 3 + 0) = n := by omega
    rw [e, hn]
    exact ⟨_, rfl⟩
  · have e : 2 + ((n - 2) / 3 * 3 + 1) = n := by omega
    rw [e, hn]
    cases stofAt stof row (2 + ((n - 2) / 3 * 3 + 0)) with
    | error f0 => exact ⟨_, rfl⟩
    | ok x => exact ⟨_, rfl⟩
  · have e : 2 + ((n - 2) / 3 * 3 + 2) = n := by omega
    rw [e, hn]
    cases stofAt stof row (2 + ((n - 2) / 3 * 3 + 0)) with
    | error f0 => exact ⟨_, rfl⟩
    | ok x =>
      cases stofAt stof row (2 + ((n - 2) / 3 * 3 + 1)) with
      | error f1 => exact ⟨_, rfl⟩
      | ok y => exact ⟨_, rfl⟩

theorem PoseClassifier.foldlM_refused (stof : String → Option K) (row : List String)
    (js : List Nat) (j : Nat) (hj : j ∈ js) (fault : LoadFault)
    (h : read_keypoint stof row j = .error fault) (landmark : Landmark K) :
    ∃ fault',
      js.foldlM (read_point stof row) landmark = .error fault' := by
  induction js generalizing landmark with
  | nil => simp at hj
  | cons a rest ih =>
    rw [List.foldlM_cons]
    unfold read_point
    cases ha : read_keypoint stof row a with
    | error fa => exact ⟨fa, rfl⟩
    | ok kp =>
      rcases List.mem_cons.mp hj with hja | hja
      · rw [hja, ha] at h
        exact Except.noConfusion h
      · exact ih hja (landmark.set a kp)

theorem PoseClassifier.read_row_refused (stof : String → Option K) (row : List String)
    (h : RowRefused stof row) (landmark : Landmark K) :
    ∃ fault, read_row stof row landmark = .error fault := by
  obtain ⟨j, hj, fault, hf⟩ := read_keypoint_refused stof row h
  exact foldlM_refused stof row (List.range 33) j (List.mem_range.mpr hj) fault hf landmark

end LoadPlainLemmas

section LoadLemmas

variable {K : Type} [LinearOrderedField K]

open PoseClassifier

theorem PoseClassifier.fieldAt_of_lt (row : List String) (n : Nat) (h : n < row.length) :
    fieldAt row n = .ok (row.getD n "") := by
  unfold fieldAt
  rw [List.getD_eq_getElem?_getD, List.getElem?_eq_getElem h]
  rfl

theorem PoseClassifier.stofAt_taken (stof : String → Option K) (row : List String)
    (h : RowTaken stof row) (n : Nat) (h2 : 2 ≤ n) (h101 : n < 101) :
    stofAt stof row n = .ok ((stof (row.getD n "")).getD 0) := by
  have hlt : n < row.length := lt_of_lt_of_le h101 h.1
  obtain ⟨v, hv⟩ := h.2 n (row.getD n "") h2 h101
    (by rw [List.getD_eq_getElem?_getD, List.getElem?_eq_getElem hlt]; rfl)
  unfold stofAt
  rw [fieldAt_of_lt row n hlt]
  simp only [hv]
  rfl

theorem PoseClassifier.read_keypoint_taken (stof : String → Option K) (row : List String)
    (h : RowTaken stof row) (j : Nat) (hj : j < 33) :
    read_keypoint stof row j = .ok (row_keypoint stof row j) := by
  unfold read_keypoint
  rw [stofAt_taken stof row h _ (by omega) (by omega),
    stofAt_taken stof row h _ (by omega) (by omega),
    stofAt_taken stof row h _ (by omega) (by omega)]
  rfl

theorem PoseClassifier.foldlM_taken (stof : String → Option K) (row : List String)
    (h : RowTaken stof row) (js : List Nat) (hjs : ∀ j ∈ js, j < 33) (landmark : Landmark K) :
    js.foldlM (read_point stof row) landmark =
    .ok (js.foldl (fun lm j => lm.set j (row_keypoint stof row j)) landmark) := by
  induction js generalizing landmark with
  | nil => rfl
  | cons a rest ih =>
    rw [List.foldlM_cons]
    unfold read_point
    rw [read_keypoint_taken stof row h a (hjs a (List.mem_cons_self _ _))]
    exact (ih (fun j hj => hjs j (List.mem_cons_of_mem _ hj))
      (landmark.set a (row_keypoint stof row a))).trans rfl

theorem PoseClassifier.read_row_taken (stof : String → Option K) (row : List String)
    (h : RowTaken stof row) (landmark : Landmark K) :
    read_row stof row landmark =
      .ok ((Landmark.zero : Landmark K).forEach (fun j _ => row_keypoint stof row j)) := by
  unfold read_row
  rw [foldlM_taken stof row h (List.range 33) (fun j hj => List.mem_range.mp hj) landmark]
  have h1 : (List.range 33).foldl (fun lm j => lm.set j (row_keypoint stof row j)) landmark =
      landmark.forEach (fun j _ => row_keypoint stof row j) := rfl
  rw [h1, Landmark.forEach_eq, Landmark.forEach_eq]

theorem PoseClassifier.generate_taken (R : Runtime K) (stof : String → Option K)
    (rows : List (List String)) (h : ∀ row ∈ rows, RowTaken stof row) (landmark : Landmark K)
    (pose_samples : List (PoseSample K)) :
    generate R stof rows landmark pose_samples =
      .ok (pose_samples ++ rows.map (row_sample R stof)) := by
  induction rows generalizing landmark pose_samples with
  | nil => simp [generate]
  | cons row rest ih =>
    have hrow := h row (List.mem_cons_self _ _)
    unfold generate
    rw [read_row_taken stof row hrow landmark,
      fieldAt_of_lt row 0 (lt_of_lt_of_le (by decide) hrow.1),
      fieldAt_of_lt row 1 (lt_of_lt_of_le (by decide) hrow.1)]
    simp only []
    rw [ih (fun r hr => h r (List.mem_cons_of_mem _ hr)), List.map_cons, List.append_assoc]
    rfl

theorem PoseClassifier.generate_refused (R : Runtime K) (stof : String → Option K)
    (rows : List (List String)) (h : ∃ row ∈ rows, RowRefused stof row) (landmark : Landmark K)
    (pose_samples : List (PoseSample K)) :
    ∃ fault, generate R stof rows landmark pose_samples = .error fault := by
  induction rows generalizing landmark pose_samples with
  | nil =>
    obtain ⟨row, hrow, _⟩ := h
    simp at hrow
  | cons row rest ih =>
    unfold generate
    cases hr : read_row stof row landmark with
    | error fault => exact ⟨fault, rfl⟩
    | ok lm =>
      simp only []
      cases h0 : fieldAt row 0 with
      | error f0 => exact ⟨f0, rfl⟩
      | ok name =>
        cases h1 : fieldAt row 1 with
        | error f1 => exact ⟨f1, rfl⟩
        | ok class_name =>
          simp only []
          obtain ⟨bad, hbad, hrefused⟩ := h
          rcases List.mem_cons.mp hbad with hb | hb
          · subst hb
            obtain ⟨fault, hfault⟩ := read_row_refused stof bad hrefused landmark
            rw [hfault] at hr
            exact Except.noConfusion hr
          · exact ih ⟨bad, hb, hrefused⟩ _ _

theorem PoseClassifier.getD_take_string (row : List String) (n : Nat) (h : n < 101) :
    (row.take 101).getD n "" = row.getD n "" := by
  rw [List.getD_eq_getElem?_getD, List.getD_eq_getElem?_getD, List.getElem?_take_of_lt h]

theorem PoseClassifier.row_keypoint_take (stof : String → Option K) (row : List String)
    (j : Nat) (hj : j < 33) :
    row_keypoint stof (row.take 101) j = row_keypoint stof row j := by
  unfold row_keypoint
  rw [getD_take_string row _ (by omega : 2 + (j * 3 + 0) < 101),
    getD_take_string row _ (by omega : 2 + (j * 3 + 1) < 101),
    getD_take_string row _ (by omega : 2 + (j * 3 + 2) < 101)]

theorem PoseClassifier.row_sample_take (R : Runtime K) (stof : String → Option K)
    (row : List String) : row_sample R stof (row.take 101) = row_sample R stof row := by
  unfold row_sample
  have hl : (Landmark.zero : Landmark K).forEach (fun j _ => row_keypoint stof (row.take 101) j) =
      (Landmark.zero : Landmark K).forEach (fun j _ => row_keypoint stof row j) := by
    apply Landmark.eq_of_get
    intro i hi
    rw [Landmark.get_forEach _ _ i hi, Landmark.get_forEach _ _ i hi,
      row_keypoint_take stof row i hi]
  rw [getD_take_string row 0 (by decide), getD_take_string row 1 (by decide), hl]

theorem PoseClassifier.classify_pose_empty_bank (R : Runtime K)
    (S : StdSortDesc (PoseSample K × K) Prod.snd) (landmark : Landmark K) :
    classify_pose R S [] landmark = some ClassificationResult.empty := by
  obtain ⟨survivors, hperm, hc⟩ := classify_pose_small R S [] landmark (by simp)
    (by intro s hs; simp at hs)
  have hnil : survivors = [] := by
    have := hperm.length_eq
    simp at this
    exact this
  rw [hc, hnil]
  rfl

set_option maxRecDepth 1000000 in
/-- A file with a well-formed row followed by a row of 3 fields is refused. -/
theorem PoseClassifier.load_pose_samples_short_row :
    (read_content (some shortRowFile)).map List.length = [101, 3] ∧
    (load_pose_samples demoRuntime demoStof (some shortRowFile)).toOption = none := by
  with_unfolding_all decide

end LoadLemmas

section MapEqLemmas

theorem PoseClassifier.eq_of_map_eq {α β : Type} (f : α → β) (l₁ l₂ : List α)
    (hinj : ∀ x ∈ l₁, ∀ y ∈ l₂, f x = f y → x = y) (h : l₁.map f = l₂.map f) : l₁ = l₂ := by
  induction l₁ generalizing l₂ with
  | nil =>
    cases l₂ with
    | nil => rfl
    | cons b u => simp at h
  | cons a t ih =>
    cases l₂ with
    | nil => simp at h
    | cons b u =>
      simp only [List.map_cons, List.cons.injEq] at h
      have hab := hinj a (List.mem_cons_self _ _) b (List.mem_cons_self _ _) h.1
      rw [hab, ih u (fun x hx y hy =>
        hinj x (List.mem_cons_of_mem _ hx) y (List.mem_cons_of_mem _ hy)) h.2]

end MapEqLemmas

section SortLemmas

variable {K : Type} [LinearOrder K]

/-- Two descending arrangements of the same entries agree when no two keys are equal. -/
theorem PoseClassifier.sorted_perm_unique {α : Type} (key : α → K) (l l₁ l₂ : List α)
    (hp₁ : l₁.Perm l) (hp₂ : l₂.Perm l)
    (hs₁ : l₁.Pairwise (fun a b => key b ≤ key a))
    (hs₂ : l₂.Pairwise (fun a b => key b ≤ key a))
    (hn : (l.map key).Nodup) : l₁ = l₂ := by
  haveI : IsAntisymm K (fun x y => y ≤ x) := ⟨fun _ _ h1 h2 => le_antisymm h2 h1⟩
  have hk : l₁.map key = l₂.map key := by
    apply List.eq_of_perm_of_sorted (r := fun x y => y ≤ x) ((hp₁.trans hp₂.symm).map key)
    · exact List.pairwise_map.mpr hs₁
    · exact List.pairwise_map.mpr hs₂
  apply PoseClassifier.eq_of_map_eq key l₁ l₂ _ hk
  intro x hx y hy hxy
  exact List.inj_on_of_nodup_map hn (hp₁.subset hx) (hp₂.subset hy) hxy

end SortLemmas

section SuppressionLemmas

variable {K : Type} [LinearOrderedField K]

open PoseDetectionInterpreter

theorem PoseDetectionInterpreter.nmsLoop_sublist (nms_threshold : K) (fuel : Nat)
    (poses : List (PoseDetection K)) : (nmsLoop nms_threshold fuel poses).Sublist poses := by
  induction fuel generalizing poses with
  | zero => exact List.nil_sublist _
  | succ fuel ih =>
    cases poses with
    | nil => exact List.Sublist.refl _
    | cons first rest =>
      simp only [nmsLoop]
      exact List.Sublist.cons₂ _ ((ih _).trans (suppress_sublist nms_threshold first rest))

theorem PoseDetectionInterpreter.nms_sublist (S : StdSortDesc (PoseDetection K) PoseDetection.score)
    (poses : List (PoseDetection K)) (nms_threshold : K) :
    (nms S poses nms_threshold).Sublist (S.sort poses) :=
  nmsLoop_sublist nms_threshold _ _

theorem PoseDetectionInterpreter.nms_sorted (S : StdSortDesc (PoseDetection K) PoseDetection.score)
    (poses : List (PoseDetection K)) (nms_threshold : K) :
    (nms S poses nms_threshold).Pairwise (fun a b => b.score ≤ a.score) :=
  (S.sorted poses).sublist (nms_sublist S poses nms_threshold)

theorem PoseDetectionInterpreter.nms_head (S : StdSortDesc (PoseDetection K) PoseDetection.score)
    (poses : List (PoseDetection K)) (nms_threshold : K) (hne : poses ≠ []) :
    ∃ first, (nms S poses nms_threshold).head? = some first ∧
      ∀ d ∈ poses, d.score ≤ first.score := by
  have hsorted := S.sorted poses
  have hperm := S.perm poses
  unfold nms
  cases hs : S.sort poses with
  | nil =>
    rw [hs] at hperm
    exact absurd (List.Perm.nil_eq hperm).symm hne
  | cons first rest =>
    rw [hs] at hsorted hperm
    refine ⟨first, rfl, fun d hd => ?_⟩
    rcases List.mem_cons.mp (hperm.symm.subset hd) with h | h
    · rw [h]
    · exact (List.pairwise_cons.mp hsorted).1 d h

theorem PoseDetectionInterpreter.suppress_eq_self (nms_threshold : K) (first : PoseDetection K)
    (poses : List (PoseDetection K))
    (h : ∀ d ∈ poses, iou first.bbox d.bbox ≤ nms_threshold) :
    suppress nms_threshold first poses = poses := by
  induction poses with
  | nil => rfl
  | cons pose rest ih =>
    unfold suppress
    rw [if_neg (not_lt.mpr (h pose (List.mem_cons_self _ _))),
      ih (fun d hd => h d (List.mem_cons_of_mem _ hd))]

theorem PoseDetectionInterpreter.nmsLoop_eq_self (nms_threshold : K)
    (poses : List (PoseDetection K)) (fuel : Nat) (hfuel : poses.length ≤ fuel)
    (h : poses.Pairwise (fun a b => iou a.bbox b.bbox ≤ nms_threshold)) :
    nmsLoop nms_threshold fuel poses = poses := by
  induction poses generalizing fuel with
  | nil => cases fuel <;> rfl
  | cons first rest ih =>
    cases fuel with
    | zero => simp at hfuel
    | succ fuel =>
      rw [List.pairwise_cons] at h
      simp only [nmsLoop]
      rw [suppress_eq_self nms_threshold first rest h.1,
        ih fuel (by simpa using hfuel) h.2]

theorem PoseDetectionInterpreter.nms_nms (S S' : StdSortDesc (PoseDetection K) PoseDetection.score)
    (poses : List (PoseDetection K)) (nms_threshold : K)
    (h : (poses.map PoseDetection.score).Nodup) :
    nms S' (nms S poses nms_threshold) nms_threshold = nms S poses nms_threshold := by
  have hsub : ((nms S poses nms_threshold).map PoseDetection.score).Sublist
      ((S.sort poses).map PoseDetection.score) := (nms_sublist S poses nms_threshold).map _
  have hnodup : ((nms S poses nms_threshold).map PoseDetection.score).Nodup :=
    (((S.perm poses).map PoseDetection.score).nodup_iff.mpr h).sublist hsub
  have hsort : S'.sort (nms S poses nms_threshold) = nms S poses nms_threshold :=
    PoseClassifier.sorted_perm_unique PoseDetection.score (nms S poses nms_threshold) _ _
      (S'.perm _) (List.Perm.refl _) (S'.sorted _) (nms_sorted S poses nms_threshold) hnodup
  have hpair : (nms S poses nms_threshold).Pairwise
      (fun a b => iou a.bbox b.bbox ≤ nms_threshold) := nmsLoop_pairwise _ _ _
  show nmsLoop nms_threshold (S'.sort (nms S poses nms_threshold)).length
    (S'.sort (nms S poses nms_threshold)) = _
  rw [hsort]
  exact nmsLoop_eq_self nms_threshold _ _ (le_refl _) hpair

theorem PoseDetectionInterpreter.iou_le_one (a b : BoundingBox K) (ha : a.WellFormed)
    (hb : b.WellFormed) : iou a b ≤ 1 := by
  obtain ⟨hax, hay⟩ := ha
  obtain ⟨hbx, hby⟩ := hb
  have hw0 : 0 ≤ max 0 (min a.xmax b.xmax - max a.xmin b.xmin) := le_max_left _ _
  have hh0 : 0 ≤ max 0 (min a.ymax b.ymax - max a.ymin b.ymin) := le_max_left _ _
  have hwa : max 0 (min a.xmax b.xmax - max a.xmin b.xmin) ≤ a.xmax - a.xmin :=
    max_le (sub_nonneg.mpr hax) (sub_le_sub (min_le_left _ _) (le_max_left _ _))
  have hha : max 0 (min a.ymax b.ymax - max a.ymin b.ymin) ≤ a.ymax - a.ymin :=
    max_le (sub_nonneg.mpr hay) (sub_le_sub (min_le_left _ _) (le_max_left _ _))
  have hwb : max 0 (min a.xmax b.xmax - max a.xmin b.xmin) ≤ b.xmax - b.xmin :=
    max_le (sub_nonneg.mpr hbx) (sub_le_sub (min_le_right _ _) (le_max_right _ _))
  have hhb : max 0 (min a.ymax b.ymax - max a.ymin b.ymin) ≤ b.ymax - b.ymin :=
    max_le (sub_nonneg.mpr hby) (sub_le_sub (min_le_right _ _) (le_max_right _ _))
  have hinter0 : 0 ≤ max 0 (min a.xmax b.xmax - max a.xmin b.xmin) *
      max 0 (min a.ymax b.ymax - max a.ymin b.ymin) := mul_nonneg hw0 hh0
  have hinterB : max 0 (min a.xmax b.xmax - max a.xmin b.xmin) *
      max 0 (min a.ymax b.ymax - max a.ymin b.ymin) ≤
        (b.xmax - b.xmin) * (b.ymax - b.ymin) :=
    mul_le_mul hwb hhb hh0 (sub_nonneg.mpr hbx)
  have hinterA : max 0 (min a.xmax b.xmax - max a.xmin b.xmin) *
      max 0 (min a.ymax b.ymax - max a.ymin b.ymin) ≤
        (a.xmax - a.xmin) * (a.ymax - a.ymin) :=
    mul_le_mul hwa hha hh0 (sub_nonneg.mpr hax)
  unfold iou
  simp only []
  split_ifs with h
  · by_cases hU : (a.xmax - a.xmin) * (a.ymax - a.ymin) + (b.xmax - b.xmin) * (b.ymax - b.ymin) -
        max 0 (min a.xmax b.xmax - max a.xmin b.xmin) *
          max 0 (min a.ymax b.ymax - max a.ymin b.ymin) = 0
    · rw [hU, div_zero]
      exact zero_le_one
    · have hUpos : 0 < (a.xmax - a.xmin) * (a.ymax - a.ymin) +
          (b.xmax - b.xmin) * (b.ymax - b.ymin) -
            max 0 (min a.xmax b.xmax - max a.xmin b.xmin) *
              max 0 (min a.ymax b.ymax - max a.ymin b.ymin) :=
        lt_of_le_of_ne (by linarith) (Ne.symm hU)
      rw [div_le_one hUpos]
      linarith
  · exact zero_le_one

theorem PoseDetectionInterpreter.iou_self (a : BoundingBox K) (ha : a.WellFormed)
    (hpos : 0 < a.area) : iou a a = 1 := by
  obtain ⟨hax, hay⟩ := ha
  unfold BoundingBox.area at hpos
  unfold iou
  simp only [max_self, min_self, max_eq_right (sub_nonneg.mpr hax),
    max_eq_right (sub_nonneg.mpr hay), add_sub_cancel_right]
  rw [div_self (ne_of_gt hpos), if_pos zero_le_one]

end SuppressionLemmas

section BoundLemmas

variable {K : Type} [LinearOrderedField K]

open Filter ClassificationResult

theorem Filter.weightSum_nonneg (a : K) (ha : 0 ≤ a) (n : Nat) : 0 ≤ weightSum a n := by
  induction n with
  | zero => simp [weightSum]
  | succ m ih =>
    rw [weightSum_succ]
    exact add_nonneg zero_le_one (mul_nonneg ha ih)

theorem Filter.weightedSum_bounds (a : K) (ha : 0 ≤ a) (xs : List K) (lo hi : K)
    (h : ∀ x ∈ xs, lo ≤ x ∧ x ≤ hi) :
    lo * weightSum a xs.length ≤ weightedSum a xs ∧
      weightedSum a xs ≤ hi * weightSum a xs.length := by
  induction xs with
  | nil => simp [weightSum, weightedSum]
  | cons x rest ih =>
    obtain ⟨h1, h2⟩ := ih (fun y hy => h y (List.mem_cons_of_mem _ hy))
    obtain ⟨hx1, hx2⟩ := h x (List.mem_cons_self _ _)
    rw [weightedSum_cons, List.length_cons, weightSum_succ]
    constructor
    · have := mul_le_mul_of_nonneg_left h1 ha
      linarith
    · have := mul_le_mul_of_nonneg_left h2 ha
      linarith

theorem Filter.weightedMean_bounds (a : K) (ha : 0 ≤ a) (xs : List K) (hne : xs ≠ [])
    (lo hi : K) (h : ∀ x ∈ xs, lo ≤ x ∧ x ≤ hi) :
    lo ≤ weightedMean a xs ∧ weightedMean a xs ≤ hi := by
  have hpos : 0 < weightSum a xs.length :=
    weightSum_pos a ha xs.length (List.length_pos.mpr hne)
  obtain ⟨h1, h2⟩ := weightedSum_bounds a ha xs lo hi h
  rw [weightedMean_eq]
  exact ⟨(le_div_iff₀ hpos).mpr h1, (div_le_iff₀ hpos).mpr h2⟩

theorem Filter.push_ne_nil {α : Type} (window_size : Nat) (x : α) (v : List α)
    (hw : 0 < window_size) : push window_size x v ≠ [] := by
  intro h
  have := head_push window_size x v hw
  rw [h] at this
  exact Option.noConfusion this

theorem Filter.filter_bbox_first (box : BoundingBox K) :
    ((Filter.new : Filter K).filter_bbox box).2 = box := by
  have ha : (0 : K) ≤ 1 - (Filter.new : Filter K).alpha := by
    show (0 : K) ≤ 1 - 1 / 10
    norm_num
  have hfield : ∀ (π : BoundingBox K → K),
      (∀ t d x, π (BoundingBox.addAssign t (BoundingBox.mulScalar d x)) = π t + π d * x) →
      (∀ b x, π (BoundingBox.addAssignScalar b x) = π b + x) → π BoundingBox.zero = 0 →
      (∀ t b, π (BoundingBox.div t b) = π t / π b) →
      π ((Filter.new : Filter K).filter_bbox box).2 = π box := by
    intro π h1 h2 h3 h4
    rw [filter_bbox_field Filter.new box π h1 h2 h3 h4]
    have hd : ((Filter.new : Filter K).filter_bbox box).1.data = List.replicate 1 box := rfl
    rw [hd, List.map_replicate, weightedMean_replicate _ _ ha 1 (by norm_num)]
  have hxmin := hfield BoundingBox.xmin (fun _ _ _ => rfl) (fun _ _ => rfl) rfl (fun _ _ => rfl)
  have hymin := hfield BoundingBox.ymin (fun _ _ _ => rfl) (fun _ _ => rfl) rfl (fun _ _ => rfl)
  have hxmax := hfield BoundingBox.xmax (fun _ _ _ => rfl) (fun _ _ => rfl) rfl (fun _ _ => rfl)
  have hymax := hfield BoundingBox.ymax (fun _ _ _ => rfl) (fun _ _ => rfl) rfl (fun _ _ => rfl)
  generalize ((Filter.new : Filter K).filter_bbox box).2 = out at hxmin hymin hxmax hymax
  cases out
  cases box
  simp only at hxmin hymin hxmax hymax
  rw [hxmin, hymin, hxmax, hymax]

theorem Filter.filter_landmark_first (landmark : Landmark K) :
    ((Filter.new : Filter K).filter_landmark landmark).2 = landmark := by
  have ha : (0 : K) ≤ 1 - (Filter.new : Filter K).alpha_landmarks := by
    show (0 : K) ≤ 1 - 2 / 5
    norm_num
  apply Landmark.eq_of_get
  intro i hi
  have hfield : ∀ (ρ : Keypoint K → K),
      (∀ t d, ρ (Keypoint.add t d) = ρ t + ρ d) → (∀ d x, ρ (Keypoint.mulScalar d x) = ρ d * x) →
      (∀ b x, ρ (Keypoint.addScalar b x) = ρ b + x) → ρ Keypoint.zero = 0 →
      (∀ t b, ρ (Keypoint.div t b) = ρ t / ρ b) →
      ρ (((Filter.new : Filter K).filter_landmark landmark).2.get i) = ρ (landmark.get i) := by
    intro ρ h1 h2 h3 h4 h5
    rw [filter_landmark_field Filter.new landmark i hi ρ h1 h2 h3 h4 h5]
    have hd : ((Filter.new : Filter K).filter_landmark landmark).1.data_landmark =
        List.replicate 1 landmark := rfl
    rw [hd, List.map_replicate, weightedMean_replicate _ _ ha 1 (by norm_num)]
  exact Keypoint.eq_of_fields _ _
    (hfield Keypoint.x (fun _ _ => rfl) (fun _ _ => rfl) (fun _ _ => rfl) rfl (fun _ _ => rfl))
    (hfield Keypoint.y (fun _ _ => rfl) (fun _ _ => rfl) (fun _ _ => rfl) rfl (fun _ _ => rfl))
    (hfield Keypoint.z (fun _ _ => rfl) (fun _ _ => rfl) (fun _ _ => rfl) rfl (fun _ _ => rfl))

theorem EMAFilter.filter_eq_map (f : EMAFilter K) (detection : ClassificationResult K)
    (hres : Ordered detection.class_confidences) :
    (EMAFilter.filter f detection).2 =
      ⟨detection.class_confidences.map (fun e =>
        (e.1, EMAFilter.smooth_key f.alpha (push f.window_size detection f.data) e.1))⟩ := by
  simp only [EMAFilter.filter, getKeys, ClassificationResult.empty]
  rw [foldl_put_ordered
    (fun key => EMAFilter.smooth_key f.alpha (push f.window_size detection f.data) key)
    detection.class_confidences [] hres (by simp), List.nil_append]

theorem EMAFilter.filter_first (result : ClassificationResult K)
    (hres : Ordered result.class_confidences) :
    (EMAFilter.filter (EMAFilter.new : EMAFilter K) result).2 = result := by
  rw [EMAFilter.filter_eq_map _ _ hres]
  have hmap : result.class_confidences.map (fun e =>
      (e.1, EMAFilter.smooth_key (EMAFilter.new : EMAFilter K).alpha
        (push (EMAFilter.new : EMAFilter K).window_size result
          (EMAFilter.new : EMAFilter K).data) e.1)) = result.class_confidences := by
    conv_rhs => rw [← List.map_id result.class_confidences]
    apply List.map_congr_left
    intro e he
    obtain ⟨k, w⟩ := e
    have hpush : push (EMAFilter.new : EMAFilter K).window_size result
        (EMAFilter.new : EMAFilter K).data = List.replicate 1 result := rfl
    have ha : (0 : K) ≤ 1 - (EMAFilter.new : EMAFilter K).alpha := by
      show (0 : K) ≤ 1 - 1 / 5
      norm_num
    rw [EMAFilter.smooth_key_eq, hpush, List.map_replicate,
      weightedMean_replicate _ _ ha 1 (by norm_num)]
    simp only [get_class_confidence, find_of_mem_ordered _ hres k w he, id]
  rw [hmap]

theorem EMAFilter.find_filter (f : EMAFilter K) (detection : ClassificationResult K)
    (k : String) :
    find (EMAFilter.filter f detection).2.class_confidences k =
      if k ∈ detection.getKeys then
        some (EMAFilter.smooth_key f.alpha (push f.window_size detection f.data) k)
      else none :=
  find_foldl_put (EMAFilter.smooth_key f.alpha (push f.window_size detection f.data))
    detection.getKeys ClassificationResult.empty k

theorem EMAFilter.mem_getKeys_filter (f : EMAFilter K) (detection : ClassificationResult K)
    (k : String) : k ∈ (EMAFilter.filter f detection).2.getKeys ↔ k ∈ detection.getKeys := by
  have hfind := EMAFilter.find_filter f detection k
  constructor
  · intro hk
    obtain ⟨v, hv⟩ := find_isSome_of_mem_getKeys _ k hk
    by_contra hn
    rw [if_neg hn, hv] at hfind
    exact Option.noConfusion hfind
  · intro hk
    rw [if_pos hk] at hfind
    exact mem_getKeys_of_find _ k _ hfind

end BoundLemmas

section StageOneLemmas

variable {K : Type} [LinearOrderedField K]

open PoseClassifier

theorem PoseClassifier.getMaxAbs_sub_scale (e s : Keypoint K) :
    getMaxAbs ((e.sub s).mul scale) = featureDistance e s := by
  have h5 : |(1 / 5 : K)| = 1 / 5 := abs_of_pos (by norm_num)
  simp only [getMaxAbs, featureDistance, Keypoint.sub, Keypoint.mul, scale, mul_one, abs_mul, h5]
  rw [mul_comm |e.z - s.z|]

theorem PoseClassifier.featureDistance_nonneg (v s : Keypoint K) : 0 ≤ featureDistance v s :=
  le_trans (abs_nonneg _) (le_trans (le_max_left _ _) (le_max_left _ _))

theorem PoseClassifier.featureDistance_self (v : Keypoint K) : featureDistance v v = 0 := by
  simp [featureDistance]

theorem PoseClassifier.maxLoop_zip (es fs ss : List (Keypoint K)) (a b : K)
    (hf : es.length = fs.length) (hs : es.length ≤ ss.length) :
    maxLoop es fs ss (a, b) =
      some ((List.zipWith featureDistance es ss).foldl max a,
        (List.zipWith featureDistance fs ss).foldl max b) := by
  induction es generalizing fs ss a b with
  | nil =>
    cases fs with
    | nil => simp [maxLoop]
    | cons f fs => simp at hf
  | cons e es ih =>
    cases fs with
    | nil => simp at hf
    | cons f fs =>
      cases ss with
      | nil => simp at hs
      | cons s ss =>
        simp only [List.length_cons, Nat.add_right_cancel_iff] at hf
        simp only [List.length_cons, Nat.add_le_add_iff_right] at hs
        simp only [maxLoop, getMaxAbs_sub_scale, List.zipWith_cons_cons, List.foldl_cons]
        exact ih fs ss _ _ hf hs

theorem PoseClassifier.foldl_max_zero (l : List K) (hne : l ≠ []) (h0 : ∀ x ∈ l, 0 ≤ x) :
    l.foldl max 0 ∈ l ∧ ∀ x ∈ l, x ≤ l.foldl max 0 := by
  have hle : ∀ x ∈ l, x ≤ l.foldl max 0 :=
    fun x hx => FullBodyPoseEmbedder.mem_le_foldl_max l 0 x hx
  refine ⟨?_, hle⟩
  rcases FullBodyPoseEmbedder.foldl_max_attained l 0 with h | h
  · cases l with
    | nil => exact absurd rfl hne
    | cons x rest =>
      have hx0 : x = 0 := by
        have h1 := hle x (List.mem_cons_self _ _)
        rw [h] at h1
        exact le_antisymm h1 (h0 x (List.mem_cons_self _ _))
      rw [h, ← hx0]
      exact List.mem_cons_self _ _
  · exact h

theorem PoseClassifier.zipWith_featureDistance_nonneg (v s : List (Keypoint K)) :
    ∀ x ∈ List.zipWith featureDistance v s, 0 ≤ x := by
  intro x hx
  obtain ⟨i, hi, rfl⟩ := List.getElem_of_mem hx
  rw [List.getElem_zipWith]
  exact featureDistance_nonneg _ _

theorem PoseClassifier.zipWith_featureDistance_self (v : List (Keypoint K)) :
    ∀ x ∈ List.zipWith featureDistance v v, x = 0 := by
  intro x hx
  obtain ⟨i, hi, rfl⟩ := List.getElem_of_mem hx
  rw [List.getElem_zipWith]
  exact featureDistance_self _

theorem PoseClassifier.maxDistance_eq (es fs : List (Keypoint K)) (sample : PoseSample K)
    (hes : es.length = 23) (hfs : fs.length = 23) (hs : 23 ≤ sample.embedding.length) :
    ∃ De Df, maxDistance es fs sample = some (sample, min De Df) ∧
      IsMaxFeature es sample.embedding De ∧ IsMaxFeature fs sample.embedding Df ∧
      0 ≤ min De Df ∧ (es = sample.embedding → min De Df = 0) := by
  have hzl : ∀ vs : List (Keypoint K), vs.length = 23 →
      List.zipWith featureDistance vs sample.embedding ≠ [] := by
    intro vs hvs hnil
    have := congrArg List.length hnil
    rw [List.length_zipWith, hvs, List.length_nil, min_eq_left hs] at this
    exact absurd this (by decide)
  have hDe := foldl_max_zero _ (hzl es hes) (zipWith_featureDistance_nonneg es sample.embedding)
  have hDf := foldl_max_zero _ (hzl fs hfs) (zipWith_featureDistance_nonneg fs sample.embedding)
  have hDe0 := zipWith_featureDistance_nonneg es sample.embedding _ hDe.1
  have hDf0 := zipWith_featureDistance_nonneg fs sample.embedding _ hDf.1
  refine ⟨_, _, ?_, hDe, hDf, le_min hDe0 hDf0, fun heq => ?_⟩
  · unfold maxDistance
    rw [maxLoop_zip es fs sample.embedding 0 0 (hes.trans hfs.symm) (by rw [hes]; exact hs)]
    rfl
  · have hzero : (List.zipWith featureDistance es sample.embedding).foldl max 0 = 0 := by
      have hmem := hDe.1
      rw [← heq] at hmem ⊢
      exact zipWith_featureDistance_self es _ hmem
    rw [hzero]
    exact min_eq_left hDf0

end StageOneLemmas

section SimilarityLemmas

variable {K : Type} [LinearOrderedField K]

open FullBodyPoseEmbedder

theorem FullBodyPoseEmbedder.get_pose_size_eq (R : Runtime K) (E : FullBodyPoseEmbedder K)
    (landmark : Landmark K) :
    get_pose_size R E landmark =
      ((List.range 33).map (fun i => (landmark.get i).dist2D R.sqrt
          (Keypoint.midpoint landmark.left_hip landmark.right_hip))).foldl max
        ((Keypoint.midpoint landmark.left_hip landmark.right_hip).dist2D R.sqrt
          (Keypoint.midpoint landmark.left_shoulder landmark.right_shoulder) *
            E.torso_size_multiplier) := by
  unfold get_pose_size
  simp only []
  rw [Landmark.byName_left_hip, Landmark.byName_right_hip, Landmark.byName_left_shoulder,
    Landmark.byName_right_shoulder, Keypoint.add_mulScalar_half, Keypoint.add_mulScalar_half,
    fold_eq_max (fun i => (landmark.get i).dist2D R.sqrt
      (Keypoint.midpoint landmark.left_hip landmark.right_hip))]

theorem FullBodyPoseEmbedder.normalize_get (R : Runtime K) (E : FullBodyPoseEmbedder K)
    (landmark : Landmark K) (i : Nat) (hi : i < 33) :
    (normalize_pose_landmarks R E landmark).get i =
      ((((landmark.get i).sub (Keypoint.midpoint landmark.left_hip landmark.right_hip)).divScalar
        (get_pose_size R E landmark)).mulScalar 100) := by
  unfold normalize_pose_landmarks
  simp only []
  rw [Landmark.get_forEach _ _ i hi, Landmark.byName_left_hip, Landmark.byName_right_hip,
    Keypoint.add_mulScalar_half]

theorem Landmark.similar_get (k : K) (t : Keypoint K) (lm : Landmark K) (i : Nat)
    (hi : i < 33) : (Landmark.similar k t lm).get i = ((lm.get i).mulScalar k).add t :=
  Landmark.get_forEach lm _ i hi

theorem Keypoint.midpoint_similar (k : K) (t a b : Keypoint K) :
    Keypoint.midpoint ((a.mulScalar k).add t) ((b.mulScalar k).add t) =
      ((Keypoint.midpoint a b).mulScalar k).add t := by
  apply Keypoint.eq_of_fields <;>
    (simp only [Keypoint.midpoint, Keypoint.mulScalar, Keypoint.add]; ring)

theorem Keypoint.dist2D_similar (sqrt : K → K) (k : K)
    (hsqrt : ∀ x, sqrt (k ^ 2 * x) = k * sqrt x) (t a b : Keypoint K) :
    Keypoint.dist2D sqrt ((a.mulScalar k).add t) ((b.mulScalar k).add t) =
      k * Keypoint.dist2D sqrt a b := by
  simp only [Keypoint.dist2D, Keypoint.mulScalar, Keypoint.add]
  rw [← hsqrt]
  congr 1
  ring

theorem FullBodyPoseEmbedder.foldl_max_mul (k : K) (hk : 0 ≤ k) (l : List K) (init : K) :
    (l.map (fun x => k * x)).foldl max (k * init) = k * l.foldl max init := by
  induction l generalizing init with
  | nil => rfl
  | cons a rest ih =>
    rw [List.map_cons, List.foldl_cons, List.foldl_cons, ← mul_max_of_nonneg _ _ hk, ih]

theorem FullBodyPoseEmbedder.get_pose_size_similar (R : Runtime K) (E : FullBodyPoseEmbedder K)
    (landmark : Landmark K) (k : K) (t : Keypoint K) (hk : 0 < k)
    (hsqrt : ∀ x, R.sqrt (k ^ 2 * x) = k * R.sqrt x) :
    get_pose_size R E (Landmark.similar k t landmark) = k * get_pose_size R E landmark := by
  have hlh : (Landmark.similar k t landmark).left_hip = (landmark.left_hip.mulScalar k).add t :=
    Landmark.similar_get k t landmark 23 (by decide)
  have hrh : (Landmark.similar k t landmark).right_hip =
      (landmark.right_hip.mulScalar k).add t := Landmark.similar_get k t landmark 24 (by decide)
  have hls : (Landmark.similar k t landmark).left_shoulder =
      (landmark.left_shoulder.mulScalar k).add t :=
    Landmark.similar_get k t landmark 11 (by decide)
  have hrs : (Landmark.similar k t landmark).right_shoulder =
      (landmark.right_shoulder.mulScalar k).add t :=
    Landmark.similar_get k t landmark 12 (by decide)
  rw [get_pose_size_eq, get_pose_size_eq, hlh, hrh, hls, hrs, Keypoint.midpoint_similar,
    Keypoint.midpoint_similar, Keypoint.dist2D_similar R.sqrt k hsqrt, mul_assoc,
    ← foldl_max_mul k (le_of_lt hk), List.map_map]
  congr 1
  apply List.map_congr_left
  intro i hi
  rw [Function.comp_apply, Landmark.similar_get k t landmark i (List.mem_range.mp hi),
    Keypoint.dist2D_similar R.sqrt k hsqrt]

theorem FullBodyPoseEmbedder.normalize_similar (R : Runtime K) (E : FullBodyPoseEmbedder K)
    (landmark : Landmark K) (k : K) (t : Keypoint K) (hk : 0 < k)
    (hsqrt : ∀ x, R.sqrt (k ^ 2 * x) = k * R.sqrt x) :
    normalize_pose_landmarks R E (Landmark.similar k t landmark) =
      normalize_pose_landmarks R E landmark := by
  have hlh : (Landmark.similar k t landmark).left_hip = (landmark.left_hip.mulScalar k).add t :=
    Landmark.similar_get k t landmark 23 (by decide)
  have hrh : (Landmark.similar k t landmark).right_hip =
      (landmark.right_hip.mulScalar k).add t := Landmark.similar_get k t landmark 24 (by decide)
  have hk0 : k ≠ 0 := ne_of_gt hk
  apply Landmark.eq_of_get
  intro i hi
  rw [normalize_get R E _ i hi, normalize_get R E _ i hi, get_pose_size_similar R E landmark k t
    hk hsqrt, hlh, hrh, Keypoint.midpoint_similar, Landmark.similar_get k t landmark i hi]
  apply Keypoint.eq_of_fields <;>
    (simp only [Keypoint.mulScalar, Keypoint.add, Keypoint.sub, Keypoint.divScalar]
     congr 1
     rw [← mul_div_mul_left _ (get_pose_size R E landmark) hk0]
     congr 1
     ring)

end SimilarityLemmas

section EmbeddingEntryLemmas

variable {K : Type} [LinearOrderedField K]

open FullBodyPoseEmbedder

theorem FullBodyPoseEmbedder.embedding_one_joint (R : Runtime K) (lm : Landmark K) :
    (get_pose_distance_embedding R lm).take 9 =
      [(Keypoint.midpoint lm.left_shoulder lm.right_shoulder).sub
          (Keypoint.midpoint lm.left_hip lm.right_hip),
        Keypoint.midpoint lm.left_shoulder lm.left_elbow,
        Keypoint.midpoint lm.right_shoulder lm.right_elbow,
        Keypoint.midpoint lm.left_elbow lm.left_wrist,
        Keypoint.midpoint lm.right_elbow lm.right_wrist,
        Keypoint.midpoint lm.left_hip lm.left_knee,
        Keypoint.midpoint lm.right_hip lm.right_knee,
        Keypoint.midpoint lm.left_knee lm.left_ankle,
        Keypoint.midpoint lm.right_knee lm.right_ankle] := by
  simp only [← Keypoint.add_mulScalar_half]
  rfl

theorem FullBodyPoseEmbedder.embedding_unlisted (R : Runtime K) (lm : Landmark K) :
    (get_pose_distance_embedding R lm).getD 9 Keypoint.zero =
        ((R.undef lm "left_shoulders").add lm.left_wrist).mulScalar (1 / 2) ∧
    (get_pose_distance_embedding R lm).getD 10 Keypoint.zero =
        ((R.undef lm "right_shoulders").add lm.right_wrist).mulScalar (1 / 2) ∧
    (get_pose_distance_embedding R lm).getD 15 Keypoint.zero =
        ((R.undef lm "left_shoulders").add lm.left_ankle).mulScalar (1 / 2) ∧
    (get_pose_distance_embedding R lm).getD 16 Keypoint.zero =
        ((R.undef lm "right_shoulders").add lm.right_ankle).mulScalar (1 / 2) :=
  ⟨rfl, rfl, rfl, rfl⟩

theorem FullBodyPoseEmbedder.embedding_entry_zero (R : Runtime K) (lm : Landmark K) :
    (get_pose_distance_embedding R lm).getD 0 Keypoint.zero =
      (Keypoint.midpoint lm.left_shoulder lm.right_shoulder).sub
        (Keypoint.midpoint lm.left_hip lm.right_hip) := by
  simp only [← Keypoint.add_mulScalar_half]
  rfl

end EmbeddingEntryLemmas

section RealLemmas

open FullBodyPoseEmbedder

theorem FullBodyPoseEmbedder.sqrt_scaled (x : ℝ) : Real.sqrt (2 ^ 2 * x) = 2 * Real.sqrt x := by
  rw [Real.sqrt_mul (by norm_num), Real.sqrt_sq (by norm_num)]

theorem FullBodyPoseEmbedder.two_d_bound (u v s B : ℝ) (hs : 0 < s)
    (h : Real.sqrt (u ^ 2 + v ^ 2) ≤ B * s) :
    Real.sqrt ((u / s * 100 - 0) ^ 2 + (v / s * 100 - 0) ^ 2) ≤ 100 * B := by
  have hB : 0 ≤ B := by
    have h0 : 0 ≤ B * s := le_trans (Real.sqrt_nonneg _) h
    by_contra hneg
    have : B * s < 0 := mul_neg_of_neg_of_pos (not_le.mp hneg) hs
    linarith
  obtain ⟨_, h2⟩ := Real.sqrt_le_iff.mp h
  rw [Real.sqrt_le_iff]
  refine ⟨by positivity, ?_⟩
  have h3 : (u / s * 100 - 0) ^ 2 + (v / s * 100 - 0) ^ 2 = (u ^ 2 + v ^ 2) * (100 / s) ^ 2 := by
    field_simp
    ring
  have h4 : (100 * B) ^ 2 = (B * s) ^ 2 * (100 / s) ^ 2 := by
    field_simp
    ring
  rw [h3, h4]
  exact mul_le_mul_of_nonneg_right h2 (sq_nonneg _)

theorem FullBodyPoseEmbedder.pose_size_nonneg (R : Runtime ℝ) (hsqrt : R.sqrt = Real.sqrt)
    (E : FullBodyPoseEmbedder ℝ) (landmark : Landmark ℝ) : 0 ≤ get_pose_size R E landmark := by
  rw [get_pose_size_eq]
  refine le_trans ?_ (mem_le_foldl_max _ _
    ((landmark.get 0).dist2D R.sqrt (Keypoint.midpoint landmark.left_hip landmark.right_hip))
    (List.mem_map_of_mem _ (List.mem_range.mpr (by decide : 0 < 33))))
  unfold Keypoint.dist2D
  rw [hsqrt]
  exact Real.sqrt_nonneg _

theorem FullBodyPoseEmbedder.pose_size_standing (R : Runtime ℝ) (hsqrt : R.sqrt = Real.sqrt) :
    get_pose_size R FullBodyPoseEmbedder.new (standingIn ℝ) ≠ 0 := by
  have h := init_le_foldl_max
    ((List.range 33).map (fun i => ((standingIn ℝ).get i).dist2D R.sqrt
      (Keypoint.midpoint (standingIn ℝ).left_hip (standingIn ℝ).right_hip)))
    ((Keypoint.midpoint (standingIn ℝ).left_hip (standingIn ℝ).right_hip).dist2D R.sqrt
      (Keypoint.midpoint (standingIn ℝ).left_shoulder (standingIn ℝ).right_shoulder) *
        (FullBodyPoseEmbedder.new : FullBodyPoseEmbedder ℝ).torso_size_multiplier)
  rw [← get_pose_size_eq] at h
  have hpos : 0 < (Keypoint.midpoint (standingIn ℝ).left_hip (standingIn ℝ).right_hip).dist2D
      R.sqrt (Keypoint.midpoint (standingIn ℝ).left_shoulder (standingIn ℝ).right_shoulder) *
        (FullBodyPoseEmbedder.new : FullBodyPoseEmbedder ℝ).torso_size_multiplier := by
    apply mul_pos
    · simp only [Keypoint.dist2D, Keypoint.midpoint, standingIn, hsqrt]
      apply Real.sqrt_pos.mpr
      norm_num
    · show (0 : ℝ) < 5 / 2
      norm_num
  exact ne_of_gt (lt_of_lt_of_le hpos h)

theorem FullBodyPoseEmbedder.normalized_bounds (R : Runtime ℝ) (hsqrt : R.sqrt = Real.sqrt)
    (landmark : Landmark ℝ)
    (hs : get_pose_size R FullBodyPoseEmbedder.new landmark ≠ 0) :
    (∀ i, i < 33 →
      Keypoint.d2 Real.sqrt ((normalize_pose_landmarks R .new landmark).get i) Keypoint.zero ≤
        100) ∧
    Keypoint.d2 Real.sqrt ((get_embedding R .new landmark).getD 0 Keypoint.zero)
      Keypoint.zero ≤ 40 := by
  have hpos : 0 < get_pose_size R FullBodyPoseEmbedder.new landmark :=
    lt_of_le_of_ne (pose_size_nonneg R hsqrt _ landmark) (Ne.symm hs)
  have hsize := get_pose_size_eq R FullBodyPoseEmbedder.new landmark
  constructor
  · intro i hi
    have hd : (landmark.get i).dist2D R.sqrt
        (Keypoint.midpoint landmark.left_hip landmark.right_hip) ≤
          get_pose_size R FullBodyPoseEmbedder.new landmark := by
      rw [hsize]
      exact mem_le_foldl_max _ _ _
        (List.mem_map_of_mem (fun i => (landmark.get i).dist2D R.sqrt
          (Keypoint.midpoint landmark.left_hip landmark.right_hip)) (List.mem_range.mpr hi))
    rw [normalize_get R _ landmark i hi]
    have h2 := two_d_bound
      ((landmark.get i).x - (Keypoint.midpoint landmark.left_hip landmark.right_hip).x)
      ((landmark.get i).y - (Keypoint.midpoint landmark.left_hip landmark.right_hip).y)
      (get_pose_size R FullBodyPoseEmbedder.new landmark) 1 hpos
      (by
        rw [one_mul]
        unfold Keypoint.dist2D at hd
        rw [hsqrt] at hd
        exact hd)
    rw [mul_one] at h2
    exact h2
  · have ht : (Keypoint.midpoint landmark.left_hip landmark.right_hip).dist2D R.sqrt
        (Keypoint.midpoint landmark.left_shoulder landmark.right_shoulder) * (5 / 2) ≤
          get_pose_size R FullBodyPoseEmbedder.new landmark := by
      rw [hsize]
      exact init_le_foldl_max _ _
    have h2 := two_d_bound
      ((Keypoint.midpoint landmark.left_shoulder landmark.right_shoulder).x -
        (Keypoint.midpoint landmark.left_hip landmark.right_hip).x)
      ((Keypoint.midpoint landmark.left_shoulder landmark.right_shoulder).y -
        (Keypoint.midpoint landmark.left_hip landmark.right_hip).y)
      (get_pose_size R FullBodyPoseEmbedder.new landmark) (2 / 5) hpos
      (by
        unfold Keypoint.dist2D at ht
        rw [hsqrt] at ht
        have hflip : ((Keypoint.midpoint landmark.left_shoulder landmark.right_shoulder).x -
              (Keypoint.midpoint landmark.left_hip landmark.right_hip).x) ^ 2 +
            ((Keypoint.midpoint landmark.left_shoulder landmark.right_shoulder).y -
              (Keypoint.midpoint landmark.left_hip landmark.right_hip).y) ^ 2 =
            ((Keypoint.midpoint landmark.left_hip landmark.right_hip).x -
              (Keypoint.midpoint landmark.left_shoulder landmark.right_shoulder).x) ^ 2 +
            ((Keypoint.midpoint landmark.left_hip landmark.right_hip).y -
              (Keypoint.midpoint landmark.left_shoulder landmark.right_shoulder).y) ^ 2 := by
          ring
        rw [hflip]
        linarith)
    have h40 : (100 : ℝ) * (2 / 5) = 40 := by norm_num
    rw [h40] at h2
    unfold get_embedding
    rw [embedding_entry_zero]
    have hx : ∀ j, j < 33 → ((normalize_pose_landmarks R .new landmark).get j) =
        ((((landmark.get j).sub (Keypoint.midpoint landmark.left_hip landmark.right_hip)).divScalar
          (get_pose_size R FullBodyPoseEmbedder.new landmark)).mulScalar 100) :=
      fun j hj => normalize_get R _ landmark j hj
    have h11 : (normalize_pose_landmarks R .new landmark).left_shoulder = _ := hx 11 (by decide)
    have h12 : (normalize_pose_landmarks R .new landmark).right_shoulder = _ := hx 12 (by decide)
    have h23 : (normalize_pose_landmarks R .new landmark).left_hip = _ := hx 23 (by decide)
    have h24 : (normalize_pose_landmarks R .new landmark).right_hip = _ := hx 24 (by decide)
    rw [h11, h12, h23, h24]
    have hne := ne_of_gt hpos
    refine le_of_eq_of_le ?_ h2
    unfold Keypoint.d2
    congr 1
    simp only [Keypoint.midpoint, Keypoint.sub, Keypoint.divScalar, Keypoint.mulScalar,
      Keypoint.zero, Landmark.get]
    field_simp
    ring

end RealLemmas

section RoundingLemmas

variable {K : Type} [LinearOrderedField K]

theorem Rounded.Filter.filter_bbox_exact (f : Filter K) (detection : BoundingBox K) :
    Rounded.Filter.filter_bbox Rounding.exact f detection =
      SmartFitness.Filter.filter_bbox f detection := rfl

theorem Rounded.Keypoint.dist2D_exact (sqrt : K → K) (a kp : Keypoint K) :
    Rounded.Keypoint.dist2D Rounding.exact sqrt a kp =
      SmartFitness.Keypoint.dist2D sqrt a kp := rfl

theorem Rounded.FullBodyPoseEmbedder.get_pose_size_exact (R : Runtime K)
    (E : SmartFitness.FullBodyPoseEmbedder K) (landmark : Landmark K) :
    Rounded.FullBodyPoseEmbedder.get_pose_size Rounding.exact R E landmark =
      SmartFitness.FullBodyPoseEmbedder.get_pose_size R E landmark := rfl

theorem Rounded.FullBodyPoseEmbedder.normalize_pose_landmarks_exact (R : Runtime K)
    (E : SmartFitness.FullBodyPoseEmbedder K) (landmark : Landmark K) :
    Rounded.FullBodyPoseEmbedder.normalize_pose_landmarks Rounding.exact R E landmark =
      SmartFitness.FullBodyPoseEmbedder.normalize_pose_landmarks R E landmark := rfl

theorem Rounded.FullBodyPoseEmbedder.get_embedding_exact (R : Runtime K)
    (E : SmartFitness.FullBodyPoseEmbedder K) (landmark : Landmark K) :
    Rounded.FullBodyPoseEmbedder.get_embedding Rounding.exact R E landmark =
      SmartFitness.FullBodyPoseEmbedder.get_embedding R E landmark := rfl

end RoundingLemmas

/-! ## Theorems -/

section MainTheorems

variable {K : Type} [LinearOrderedField K]

open PoseClassifier FullBodyPoseEmbedder

/-- C1 (mirror invariance): for every sample bank and every landmark, `classify_pose`
returns the same result (same keys, same vote counts, or the same failure) on the
landmark and on its copy with the x coordinate of each of the 33 points negated. -/
theorem classify_pose_mirror (R : Runtime K) (S : StdSortDesc (PoseSample K × K) Prod.snd)
    (pose_samples : List (PoseSample K)) (landmark : Landmark K) :
    classify_pose R S pose_samples (landmark.forEach (fun _ p => ⟨-p.x, p.y, p.z⟩)) =
      classify_pose R S pose_samples landmark := by
  have hflip : landmark.forEach (fun _ p => (⟨-p.x, p.y, p.z⟩ : Keypoint K)) =
      flipped_landmarks landmark := by
    simp [flipped_landmarks, flip_x]
  have hlen : (get_embedding R .new landmark).length =
      (get_embedding R .new (flipped_landmarks landmark)).length := by
    rw [length_get_embedding, length_get_embedding]
  rw [hflip]
  simp only [classify_pose, flipped_flipped, maxDistance_swap _ _ hlen, meanDistance_swap _ _ hlen]

/-- C2 (no truncation on a small bank): for a bank of at most 10 well-formed samples and
every landmark, `classify_pose` returns a result, and for each class `c` the returned
vote count is the number of bank samples labelled `c`. -/
theorem classify_pose_small_bank (R : Runtime K) (S : StdSortDesc (PoseSample K × K) Prod.snd)
    (pose_samples : List (PoseSample K)) (landmark : Landmark K)
    (hsize : pose_samples.length ≤ 10) (hok : BankOk pose_samples) :
    ∃ r, classify_pose R S pose_samples landmark = some r ∧
      ∀ c : String, r.get_class_confidence c =
        (((pose_samples.map PoseSample.class_name).count c : ℕ) : K) := by
  obtain ⟨l, hperm, hc⟩ := classify_pose_small R S pose_samples landmark hsize hok
  refine ⟨vote l, hc, fun c => ?_⟩
  rw [vote_get]
  have h : (l.map (fun e => e.1.class_name)).Perm (pose_samples.map PoseSample.class_name) := by
    have := hperm.map PoseSample.class_name
    simpa [List.map_map, Function.comp_def] using this
  rw [h.count_eq]

/-- C4 (total votes): for a bank of `n` well-formed samples and every landmark,
`classify_pose` returns a result whose confidences are natural numbers with sum
`min n 10`, hence at most `top_n_by_mean_distance = 10`. -/
theorem classify_pose_total_votes (R : Runtime K) (S : StdSortDesc (PoseSample K × K) Prod.snd)
    (pose_samples : List (PoseSample K)) (landmark : Landmark K) (hok : BankOk pose_samples) :
    ∃ r, classify_pose R S pose_samples landmark = some r ∧
      (∀ e ∈ r.class_confidences, ∃ n : ℕ, e.2 = (n : K)) ∧
      (r.class_confidences.map Prod.snd).sum = ((min pose_samples.length 10 : ℕ) : K) ∧
      (r.class_confidences.map Prod.snd).sum ≤ ((top_n_by_mean_distance : ℕ) : K) := by
  obtain ⟨l1, l2, hl1, hl2, hc⟩ := classify_pose_eq R S pose_samples landmark hok
  have hlen : (removeMax top_n_by_mean_distance (S.sort l2)).length =
      min pose_samples.length 10 := by
    rw [length_removeMax, (S.perm l2).length_eq, ← List.length_map l2 Prod.fst, hl2,
      List.length_map, length_removeMax, (S.perm l1).length_eq, ← List.length_map l1 Prod.fst,
      hl1, top_n_by_mean_distance, top_n_by_max_distance]
    omega
  refine ⟨_, hc, vote_counts _, ?_, ?_⟩
  · rw [vote_sum, hlen]
  · rw [vote_sum, hlen, top_n_by_mean_distance]
    exact_mod_cast Nat.min_le_right _ _

/-- C5 (the closest are kept): at either truncation stage of `classify_pose` (limit 30 on
the sorted max distances, limit 10 on the sorted mean distances), when the stage holds
more entries than its limit, exactly the limit survive, the erased and the surviving
entries together are the entries of the stage, and every survivor's distance is at
most every erased entry's distance. -/
theorem classify_pose_keeps_closest (S : StdSortDesc (PoseSample K × K) Prod.snd)
    (maxDistances meanDistances : List (PoseSample K × K)) :
    (maxDistances.length > 30 → ClosestKept S top_n_by_max_distance maxDistances 30) ∧
    (meanDistances.length > 10 → ClosestKept S top_n_by_mean_distance meanDistances 10) :=
  ⟨fun h => closestKept S _ _ h, fun h => closestKept S _ _ h⟩

/-- C10 (weighted mean of the window): for a `Filter` in any state, `filter` on a
`BoundingBox` (alpha 0.1) and on a `Landmark` (alpha 0.4) returns, independently for each
coordinate, `(Σ (1-alpha)^i * x_i) / (Σ (1-alpha)^i)` over the retained history, whose entry 0
is the sample passed in this call; the retained history is the first 10 entries of the
new sample followed by the old history (when that held at most 10). -/
theorem filter_weighted_mean (data : List (BoundingBox K)) (data_landmark : List (Landmark K))
    (detection : BoundingBox K) (landmark : Landmark K) :
    (((Filter.withHistory data data_landmark).filter_bbox detection).1.data.head? =
        some detection ∧
      (data.length ≤ 10 →
        ((Filter.withHistory data data_landmark).filter_bbox detection).1.data =
          (detection :: data).take 10) ∧
      ∀ π ∈ [BoundingBox.xmin, BoundingBox.ymin, BoundingBox.xmax, BoundingBox.ymax],
        π ((Filter.withHistory data data_landmark).filter_bbox detection).2 =
          Filter.weightedMean (1 - 1 / 10)
            (((Filter.withHistory data data_landmark).filter_bbox
              detection).1.data.map π)) ∧
    (((Filter.withHistory data data_landmark).filter_landmark
        landmark).1.data_landmark.head? = some landmark ∧
      (data_landmark.length ≤ 10 →
        ((Filter.withHistory data data_landmark).filter_landmark
          landmark).1.data_landmark = (landmark :: data_landmark).take 10) ∧
      ∀ i < 33, ∀ ρ ∈ [Keypoint.x, Keypoint.y, Keypoint.z],
        ρ (((Filter.withHistory data data_landmark).filter_landmark
            landmark).2.get i) =
          Filter.weightedMean (1 - 2 / 5)
            (((Filter.withHistory data data_landmark).filter_landmark
              landmark).1.data_landmark.map (fun l => ρ (l.get i)))) := by
  refine ⟨⟨?_, ?_, ?_⟩, ⟨?_, ?_, ?_⟩⟩
  · exact Filter.head_push 10 detection data (by norm_num)
  · intro h
    exact Filter.push_eq_take 10 detection data h
  · intro π hπ
    simp only [List.mem_cons, List.mem_singleton, List.not_mem_nil, or_false] at hπ
    rcases hπ with rfl | rfl | rfl | rfl <;>
      exact Filter.filter_bbox_field _ detection _ (fun _ _ _ => rfl) (fun _ _ => rfl) rfl
        (fun _ _ => rfl)
  · exact Filter.head_push 10 landmark data_landmark (by norm_num)
  · intro h
    exact Filter.push_eq_take 10 landmark data_landmark h
  · intro i hi ρ hρ
    simp only [List.mem_cons, List.mem_singleton, List.not_mem_nil, or_false] at hρ
    rcases hρ with rfl | rfl | rfl <;>
      exact Filter.filter_landmark_field _ landmark i hi _ (fun _ _ => rfl) (fun _ _ => rfl)
        (fun _ _ => rfl) rfl (fun _ _ => rfl)

/-- Witness of C10: a filter holding one earlier box and one earlier landmark; the history
after the call, and the x coordinate of the left shoulder (point 11). -/
theorem filter_weighted_mean_witness :
    ([earlierBox].length ≤ 10 ∧
      ((Filter.withHistory [earlierBox] [standing]).filter_bbox currentBox).1.data =
        [currentBox, earlierBox]) ∧
    ([standing].length ≤ 10 ∧
      ((Filter.withHistory [earlierBox] [standing]).filter_landmark squatting).1.data_landmark =
        [squatting, standing]) ∧
    (11 < 33 ∧
      (((Filter.withHistory [earlierBox] [standing]).filter_landmark squatting).2.get 11).x =
        Filter.weightedMean (1 - 2 / 5)
          (((Filter.withHistory [earlierBox] [standing]).filter_landmark
            squatting).1.data_landmark.map (fun l => (l.get 11).x))) :=
  ⟨⟨by decide,
      (filter_weighted_mean [earlierBox] [standing] currentBox squatting).1.2.1 (by decide)⟩,
    ⟨by decide,
      (filter_weighted_mean [earlierBox] [standing] currentBox squatting).2.2.1 (by decide)⟩,
    ⟨by decide,
      (filter_weighted_mean [earlierBox] [standing] currentBox squatting).2.2.2 11 (by decide)
        Keypoint.x (by simp)⟩⟩

set_option maxRecDepth 100000 in
/-- Witness of C2: the two-sample bank on the landmark `squatting`. -/
theorem classify_pose_small_bank_witness :
    twoSampleBank.length ≤ 10 ∧ BankOk twoSampleBank ∧
    ∃ r, classify_pose demoRuntime (insertionSortDesc Prod.snd) twoSampleBank squatting = some r ∧
      ∀ c : String, r.get_class_confidence c =
        (((twoSampleBank.map PoseSample.class_name).count c : ℕ) : ℚ) :=
  ⟨by decide, by unfold BankOk; decide,
    classify_pose_small_bank demoRuntime (insertionSortDesc Prod.snd) twoSampleBank squatting
      (by decide) (by unfold BankOk; decide)⟩

set_option maxRecDepth 100000 in
/-- Witness of C4: the two-sample bank on the landmark `standing`. -/
theorem classify_pose_total_votes_witness :
    BankOk twoSampleBank ∧
    ∃ r, classify_pose demoRuntime (insertionSortDesc Prod.snd) twoSampleBank standing = some r ∧
      (∀ e ∈ r.class_confidences, ∃ n : ℕ, e.2 = (n : ℚ)) ∧
      (r.class_confidences.map Prod.snd).sum = ((min twoSampleBank.length 10 : ℕ) : ℚ) ∧
      (r.class_confidences.map Prod.snd).sum ≤ ((top_n_by_mean_distance : ℕ) : ℚ) :=
  ⟨by unfold BankOk; decide,
    classify_pose_total_votes demoRuntime (insertionSortDesc Prod.snd) twoSampleBank standing
      (by unfold BankOk; decide)⟩

/-- Witness of C5: 31 entries at the first stage, 11 at the second. -/
theorem classify_pose_keeps_closest_witness :
    ((manyDistances 31).length > 30 ∧
      ClosestKept (insertionSortDesc Prod.snd) top_n_by_max_distance (manyDistances 31) 30) ∧
    ((manyDistances 11).length > 10 ∧
      ClosestKept (insertionSortDesc Prod.snd) top_n_by_mean_distance (manyDistances 11) 10) :=
  have h31 : (manyDistances 31).length > 30 := by
    rw [manyDistances, List.length_map, List.length_range]
    decide
  have h11 : (manyDistances 11).length > 10 := by
    rw [manyDistances, List.length_map, List.length_range]
    decide
  ⟨⟨h31, (classify_pose_keeps_closest (insertionSortDesc Prod.snd) (manyDistances 31)
      (manyDistances 11)).1 h31⟩,
    ⟨h11, (classify_pose_keeps_closest (insertionSortDesc Prod.snd) (manyDistances 31)
      (manyDistances 11)).2 h11⟩⟩

/-- C3, amended (two samples, both vote): for a bank of exactly two samples, one of class
"down" whose embedding is the embedding of the classified landmark and one of class "up"
with a well-formed embedding, in either order, `classify_pose` returns the result with
exactly the two entries "down" with confidence 1 and "up" with confidence 1. -/
theorem classify_pose_down_up (R : Runtime K) (S : StdSortDesc (PoseSample K × K) Prod.snd)
    (down up : PoseSample K) (pose_samples : List (PoseSample K)) (landmark : Landmark K)
    (hbank : pose_samples = [down, up] ∨ pose_samples = [up, down])
    (hdown : down.class_name = "down") (hup : up.class_name = "up")
    (hE1 : down.embedding = get_embedding R .new landmark)
    (hE2 : 23 ≤ up.embedding.length) :
    classify_pose R S pose_samples landmark = some ⟨[("down", 1), ("up", 1)]⟩ :=
  classify_pose_two R S down up pose_samples landmark hbank hdown hup
    (by rw [hE1, length_get_embedding]) hE2

set_option maxRecDepth 100000 in
/-- Witness of the amended C3: the two-sample bank on the landmark `squatting`. -/
theorem classify_pose_down_up_witness :
    classify_pose demoRuntime (insertionSortDesc Prod.snd) twoSampleBank squatting =
      some ⟨[("down", 1), ("up", 1)]⟩ :=
  classify_pose_down_up demoRuntime (insertionSortDesc Prod.snd)
    (PoseSample.new demoRuntime "squat_1" "down" squatting)
    (PoseSample.new demoRuntime "squat_2" "up" standing) twoSampleBank squatting
    (Or.inl rfl) rfl rfl rfl (by decide)

set_option maxRecDepth 100000 in
/-- Counterexample to C3 as stated: a bank of one "down" sample with embedding `E1` and one
"up" sample with embedding `E2 ≠ E1`, classified on the landmark whose embedding is `E1`:
the result has an entry for "up"; it is not the result whose only entry is "down". -/
theorem classify_pose_down_only_counterexample :
    twoSampleBank.map PoseSample.class_name = ["down", "up"] ∧
    twoSampleBank.map PoseSample.embedding =
      [get_embedding demoRuntime .new squatting, get_embedding demoRuntime .new standing] ∧
    get_embedding demoRuntime .new standing ≠ get_embedding demoRuntime .new squatting ∧
    classify_pose demoRuntime (insertionSortDesc Prod.snd) twoSampleBank squatting =
      some ⟨[("down", 1), ("up", 1)]⟩ ∧
    classify_pose demoRuntime (insertionSortDesc Prod.snd) twoSampleBank squatting ≠
      some ⟨[("down", 1)]⟩ := by
  with_unfolding_all decide

/-- C6 (failing inputs): `get_max_confidence_class` converts each confidence to `int`
before comparing. On the result whose only class has confidence 1/2 it returns the empty
string; on confidences 3/2 and 9/5 it returns the class of the smaller one. -/
theorem get_max_confidence_class_truncates :
    ClassificationResult.get_max_confidence_class
        (⟨[("squats_down", 1 / 2)]⟩ : ClassificationResult ℚ) = "" ∧
    ClassificationResult.get_max_confidence_class
        (⟨[("squats_down", 3 / 2), ("squats_up", 9 / 5)]⟩ : ClassificationResult ℚ) =
      "squats_down" := by
  with_unfolding_all decide

/-- C7, amended (hysteresis machine after the modulo-12 reduction): a fresh counter is
`NOT_ENTERED` with count 0; the confidence read is the tracked class's value, 0 when the
class is absent; every `count` call is one step of the specification's two-state machine
taken from the current state with the stored count first reduced modulo 12, and returns
the resulting count; whenever the stored count is in 0..11 that is a step from the
current state itself; the name and thresholds never change; from a fresh counter,
confidence `enter + 1` gives `ENTERED` with count 0 and then `exit - 1` gives
`NOT_ENTERED` with count 1. -/
theorem count_refines_hysteresis (class_name : String) (enter_threshold exit_threshold : ℤ)
    (c : RepetitionCounter) (result : ClassificationResult K) :
    Hysteresis.ofCounter (RepetitionCounter.new class_name enter_threshold exit_threshold) =
      (PoseState.NOT_ENTERED, 0) ∧
    RepetitionCounter.pose_confidence c result =
      (match ClassificationResult.find result.class_confidences c.class_name with
       | none => 0
       | some v => v) ∧
    Hysteresis.ofCounter (RepetitionCounter.count c result).1 =
      Hysteresis.step c.enter_threshold c.exit_threshold
        ((Hysteresis.ofCounter c).1, c.n_repeats.tmod 12)
        (RepetitionCounter.pose_confidence c result) ∧
    (RepetitionCounter.count c result).2 = (RepetitionCounter.count c result).1.n_repeats ∧
    (0 ≤ c.n_repeats → c.n_repeats < 12 →
      Hysteresis.ofCounter (RepetitionCounter.count c result).1 =
        Hysteresis.step c.enter_threshold c.exit_threshold (Hysteresis.ofCounter c)
          (RepetitionCounter.pose_confidence c result)) ∧
    ((RepetitionCounter.count c result).1.class_name = c.class_name ∧
      (RepetitionCounter.count c result).1.enter_threshold = c.enter_threshold ∧
      (RepetitionCounter.count c result).1.exit_threshold = c.exit_threshold) ∧
    (∀ first second : ClassificationResult K,
      first.get_class_confidence class_name = (enter_threshold : K) + 1 →
      second.get_class_confidence class_name = (exit_threshold : K) - 1 →
      Hysteresis.ofCounter (RepetitionCounter.count
          (RepetitionCounter.new class_name enter_threshold exit_threshold) first).1 =
        (PoseState.ENTERED, 0) ∧
      Hysteresis.ofCounter (RepetitionCounter.count (RepetitionCounter.count
          (RepetitionCounter.new class_name enter_threshold exit_threshold) first).1 second).1 =
        (PoseState.NOT_ENTERED, 1)) := by
  refine ⟨rfl, ?_, RepetitionCounter.count_refines c result,
    (RepetitionCounter.count_fields c result).2.2.2, ?_, ?_, ?_⟩
  · rw [RepetitionCounter.pose_confidence_eq]
    rfl
  · intro h0 h12
    rw [RepetitionCounter.count_refines, RepetitionCounter.tmod_of_lt _ h0 h12]
    rfl
  · obtain ⟨h1, h2, h3, _⟩ := RepetitionCounter.count_fields c result
    exact ⟨h1, h2, h3⟩
  · intro first second h1 h2
    have e1 : RepetitionCounter.pose_confidence
        (RepetitionCounter.new class_name enter_threshold exit_threshold) first =
        (enter_threshold : K) + 1 := by
      rw [RepetitionCounter.pose_confidence_eq]
      exact h1
    have hstep1 := RepetitionCounter.count_refines
      (RepetitionCounter.new class_name enter_threshold exit_threshold) first
    rw [e1] at hstep1
    have hfirst : Hysteresis.ofCounter (RepetitionCounter.count
        (RepetitionCounter.new class_name enter_threshold exit_threshold) first).1 =
        (PoseState.ENTERED, 0) := by
      rw [hstep1]
      simp [Hysteresis.step, Hysteresis.ofCounter, RepetitionCounter.new, Int.tmod]
    refine ⟨hfirst, ?_⟩
    obtain ⟨f1, f2, f3, _⟩ := RepetitionCounter.count_fields
      (RepetitionCounter.new class_name enter_threshold exit_threshold) first
    have e2 : RepetitionCounter.pose_confidence (RepetitionCounter.count
        (RepetitionCounter.new class_name enter_threshold exit_threshold) first).1 second =
        (exit_threshold : K) - 1 := by
      rw [RepetitionCounter.pose_confidence_eq, f1]
      exact h2
    have hn : (RepetitionCounter.count
        (RepetitionCounter.new class_name enter_threshold exit_threshold) first).1.n_repeats =
        0 := by
      have := congrArg Prod.snd hfirst
      simpa [Hysteresis.ofCounter] using this
    have hs : (Hysteresis.ofCounter (RepetitionCounter.count
        (RepetitionCounter.new class_name enter_threshold exit_threshold) first).1).1 =
        PoseState.ENTERED := congrArg Prod.fst hfirst
    rw [RepetitionCounter.count_refines, e2, hn, hs, f3]
    simp [Hysteresis.step, RepetitionCounter.new, Int.tmod]

/-- Witness of the amended C7: the squat counter after twelve repetitions, and the frames
`inPose` (confidence 8 = enter + 2) and `outOfPose`. -/
theorem count_refines_hysteresis_witness :
    Hysteresis.ofCounter (RepetitionCounter.count squatCounter inPose).1 =
      Hysteresis.step squatCounter.enter_threshold squatCounter.exit_threshold
        (Hysteresis.ofCounter squatCounter) (RepetitionCounter.pose_confidence squatCounter inPose) :=
  (count_refines_hysteresis "squats_down" 6 4 squatCounter inPose).2.2.2.2.1
    (by decide) (by decide)

set_option maxRecDepth 100000 in
/-- Counterexample to C7 as stated: after twelve repetitions the counter is `NOT_ENTERED`
with count 12; the next call, made in `NOT_ENTERED`, changes the count to 0, where the
two-state machine of the specification keeps 12. -/
theorem count_changes_counter_counterexample :
    Hysteresis.ofCounter (RepetitionCounter.countAll squatCounter twelveSquats) =
      (PoseState.NOT_ENTERED, 12) ∧
    Hysteresis.ofCounter (RepetitionCounter.count
        (RepetitionCounter.countAll squatCounter twelveSquats) outOfPose).1 =
      (PoseState.NOT_ENTERED, 0) ∧
    Hysteresis.step 6 4 (Hysteresis.ofCounter (RepetitionCounter.countAll squatCounter twelveSquats))
        (RepetitionCounter.pose_confidence
          (RepetitionCounter.countAll squatCounter twelveSquats) outOfPose) =
      (PoseState.NOT_ENTERED, 12) := by
  with_unfolding_all decide

/-- C8 (never entered, never counted): from a fresh counter, for every finite sequence of
results in which the tracked class's confidence never exceeds `enter_threshold`, every
call returns 0 and after every call the counter is `NOT_ENTERED` with count 0. -/
theorem count_never_entered (class_name : String) (enter_threshold exit_threshold : ℤ)
    (results : List (ClassificationResult K))
    (h : ∀ r ∈ results, r.get_class_confidence class_name ≤ (enter_threshold : K)) :
    (∀ v ∈ RepetitionCounter.returns
        (RepetitionCounter.new class_name enter_threshold exit_threshold) results, v = 0) ∧
    ∀ k : ℕ, Hysteresis.ofCounter (RepetitionCounter.countAll
        (RepetitionCounter.new class_name enter_threshold exit_threshold) (results.take k)) =
      (PoseState.NOT_ENTERED, 0) := by
  refine ⟨(RepetitionCounter.idle_run _ results rfl rfl h).2, fun k => ?_⟩
  rw [(RepetitionCounter.idle_run (RepetitionCounter.new class_name enter_threshold exit_threshold)
    (results.take k) rfl rfl (fun r hr => h r (List.mem_of_mem_take hr))).1]
  rfl

set_option maxRecDepth 100000 in
/-- Witness of C8: three frames out of the pose on the squat counter. -/
theorem count_never_entered_witness :
    (∀ r ∈ [outOfPose, outOfPose, outOfPose],
      r.get_class_confidence "squats_down" ≤ ((6 : ℤ) : ℚ)) ∧
    (∀ v ∈ RepetitionCounter.returns (RepetitionCounter.new "squats_down" 6 4)
        [outOfPose, outOfPose, outOfPose], v = 0) ∧
    ∀ k : ℕ, Hysteresis.ofCounter (RepetitionCounter.countAll
        (RepetitionCounter.new "squats_down" 6 4) ([outOfPose, outOfPose, outOfPose].take k)) =
      (PoseState.NOT_ENTERED, 0) :=
  ⟨by with_unfolding_all decide,
    count_never_entered "squats_down" 6 4 [outOfPose, outOfPose, outOfPose]
      (by with_unfolding_all decide)⟩

/-- C9, amended (returned value and completed repetitions): from a fresh counter, after
any earlier calls, the value a call returns lies in 0..12; it is the number `N` of
repetitions completed so far (this call's included) reduced modulo 12 when the call
completes no repetition, and `((N - 1) mod 12) + 1` (so 12, not 0, when `N` is a multiple
of 12) when the call itself completes one. -/
theorem count_returns_completed (class_name : String) (enter_threshold exit_threshold : ℤ)
    (results : List (ClassificationResult K)) (result : ClassificationResult K) :
    0 ≤ (RepetitionCounter.count (RepetitionCounter.countAll
        (RepetitionCounter.new class_name enter_threshold exit_threshold) results) result).2 ∧
    (RepetitionCounter.count (RepetitionCounter.countAll
        (RepetitionCounter.new class_name enter_threshold exit_threshold) results) result).2 ≤ 12 ∧
    (RepetitionCounter.count (RepetitionCounter.countAll
        (RepetitionCounter.new class_name enter_threshold exit_threshold) results) result).2 =
      if RepetitionCounter.completes (RepetitionCounter.countAll
          (RepetitionCounter.new class_name enter_threshold exit_threshold) results) result
      then (((RepetitionCounter.completed
          (RepetitionCounter.new class_name enter_threshold exit_threshold)
          (results ++ [result]) - 1) % 12 + 1 : ℕ) : ℤ)
      else ((RepetitionCounter.completed
          (RepetitionCounter.new class_name enter_threshold exit_threshold)
          (results ++ [result]) % 12 : ℕ) : ℤ) := by
  obtain ⟨h0, h12, hmod, hent⟩ :=
    RepetitionCounter.n_repeats_invariant class_name enter_threshold exit_threshold results
  rw [RepetitionCounter.completed_append]
  set c := RepetitionCounter.countAll
    (RepetitionCounter.new class_name enter_threshold exit_threshold) results with hc
  set N := RepetitionCounter.completed
    (RepetitionCounter.new class_name enter_threshold exit_threshold) results with hN
  have htmod : c.n_repeats.tmod 12 = c.n_repeats % 12 := Int.tmod_eq_emod h0 (by norm_num)
  by_cases hcomp : RepetitionCounter.completes c result = true
  · obtain ⟨he, hlt⟩ := (RepetitionCounter.completes_iff c result).mp hcomp
    simp only [hcomp, if_true, RepetitionCounter.count, he, Bool.not_true, Bool.false_eq_true,
      if_false, hlt, htmod, Nat.add_sub_cancel]
    refine ⟨by omega, by omega, ?_⟩
    push_cast
    omega
  · have hcomp' : RepetitionCounter.completes c result = false := by simpa using hcomp
    simp only [hcomp', Bool.false_eq_true, if_false, add_zero]
    unfold RepetitionCounter.count
    cases he : c.pose_entered
    · simp only [Bool.not_false, if_true, htmod]
      refine ⟨by omega, by omega, ?_⟩
      push_cast
      omega
    · have hge : ¬ RepetitionCounter.pose_confidence c result < (c.exit_threshold : K) := by
        intro hlt
        exact hcomp ((RepetitionCounter.completes_iff c result).mpr ⟨he, hlt⟩)
      simp only [Bool.not_true, Bool.false_eq_true, if_false, hge, htmod]
      refine ⟨by omega, by omega, ?_⟩
      push_cast
      omega

set_option maxRecDepth 100000 in
/-- Counterexample to C9 as stated: on twelve repetitions the last call returns 12, which
is neither in 0..11 nor the number of completed repetitions (12) reduced modulo 12. -/
theorem count_returns_twelve_counterexample :
    RepetitionCounter.completed squatCounter twelveSquats = 12 ∧
    (RepetitionCounter.returns squatCounter twelveSquats).getLast? = some 12 ∧
    (RepetitionCounter.returns squatCounter twelveSquats).getLast? ≠
      some (((RepetitionCounter.completed squatCounter twelveSquats % 12 : ℕ) : ℤ)) := by
  with_unfolding_all decide

/-- C11 (smoothed confidence of a key of the sample): for every class key `k` of the
sample passed to `EMAFilter::filter`, the returned result has the key `k` and its
confidence is `(Σ 0.8^i * c_i) / (Σ 0.8^i)` over all entries `i` of the retained history
(entry 0 is the sample just passed), where `c_i` is entry `i`'s confidence for `k`, which
is 0 for an entry that lacks `k`; such an entry still counts in the denominator. -/
theorem ema_filter_weighted_mean (history : List (ClassificationResult K))
    (detection : ClassificationResult K) (k : String) (hk : k ∈ detection.getKeys) :
    ((EMAFilter.withHistory history).filter detection).2.has_key k = true ∧
    ((EMAFilter.withHistory history).filter detection).2.get_class_confidence k =
      Filter.weightedMean (4 / 5)
        (((EMAFilter.withHistory history).filter detection).1.data.map
          (fun entry => entry.get_class_confidence k)) ∧
    ((EMAFilter.withHistory history).filter detection).1.data.head? = some detection ∧
    ∀ entry : ClassificationResult K, entry.has_key k = false →
      entry.get_class_confidence k = 0 := by
  have hfind := ClassificationResult.find_foldl_put
    (EMAFilter.smooth_key (1 / 5) (Filter.push 10 detection history)) detection.getKeys
    ClassificationResult.empty k
  rw [if_pos hk] at hfind
  have h45 : (1 : K) - 1 / 5 = 4 / 5 := by norm_num
  refine ⟨?_, ?_, Filter.head_push 10 detection history (by norm_num), ?_⟩
  · show ClassificationResult.has_key _ k = true
    unfold ClassificationResult.has_key
    simp only [EMAFilter.filter, EMAFilter.withHistory, EMAFilter.new]
    rw [hfind]
  · show ClassificationResult.get_class_confidence _ k = _
    unfold ClassificationResult.get_class_confidence
    simp only [EMAFilter.filter, EMAFilter.withHistory, EMAFilter.new]
    rw [hfind]
    simp only [EMAFilter.smooth_key_eq, h45]
    rfl
  · intro entry hentry
    unfold ClassificationResult.has_key at hentry
    unfold ClassificationResult.get_class_confidence
    cases hf : ClassificationResult.find entry.class_confidences k with
    | none => rfl
    | some w => simp [hf] at hentry

/-- Witness of C11: the key "squats_down" of the frame `inPose`, passed to a filter that
holds the frame `outOfPose`. -/
theorem ema_filter_weighted_mean_witness :
    "squats_down" ∈ inPose.getKeys ∧
    ((EMAFilter.withHistory [outOfPose]).filter inPose).2.get_class_confidence "squats_down" =
      Filter.weightedMean (4 / 5)
        (((EMAFilter.withHistory [outOfPose]).filter inPose).1.data.map
          (fun entry => entry.get_class_confidence "squats_down")) :=
  ⟨by decide, (ema_filter_weighted_mean [outOfPose] inPose "squats_down" (by decide)).2.1⟩

/-- C12 (a constant input is returned unchanged): for each of the three filters and any
prior history (of at most `window_size = 10` entries), when the same value has been
passed in `n ≥ 10` consecutive calls, the `n`-th of them returns exactly that value; for a
`ClassificationResult` (an ordered map) the same keys with the same confidences. -/
theorem filter_constant_input (data : List (BoundingBox K)) (data_landmark : List (Landmark K))
    (history : List (ClassificationResult K)) (box : BoundingBox K) (landmark : Landmark K)
    (result : ClassificationResult K) (n : ℕ) (hn : 10 ≤ n)
    (hdata : data.length ≤ 10) (hlandmark : data_landmark.length ≤ 10)
    (hhistory : history.length ≤ 10)
    (hresult : ClassificationResult.Ordered result.class_confidences) :
    ((Filter.callAll (Filter.withHistory data data_landmark)
        (List.replicate (n - 1) (Sum.inl box))).filter_bbox box).2 = box ∧
    ((Filter.callAll (Filter.withHistory data data_landmark)
        (List.replicate (n - 1) (Sum.inr landmark))).filter_landmark landmark).2 = landmark ∧
    ((EMAFilter.filterAll (EMAFilter.withHistory history)
        (List.replicate (n - 1) result)).filter result).2 = result := by
  refine ⟨?_, ?_, ?_⟩
  · obtain ⟨h1, h2, _, h4, _⟩ := Filter.callAll_state (Filter.withHistory data data_landmark)
      (List.replicate (n - 1) (Sum.inl box : BoundingBox K ⊕ Landmark K))
    apply Filter.filter_bbox_constant
    · rw [h1, h4]
      have hmap : (List.replicate (n - 1) (Sum.inl box : BoundingBox K ⊕ Landmark K)).filterMap
          Sum.getLeft? = List.replicate (n - 1) box := by
        induction (n - 1) with
        | zero => rfl
        | succ m ih => simp [List.replicate_succ, ih]
      rw [hmap]
      exact Filter.push_replicate 10 box data (n - 1) hdata (by omega)
    · rw [h2]
      rfl
  · obtain ⟨h1, _, h3, _, h5⟩ := Filter.callAll_state (Filter.withHistory data data_landmark)
      (List.replicate (n - 1) (Sum.inr landmark : BoundingBox K ⊕ Landmark K))
    apply Filter.filter_landmark_constant
    · rw [h1, h5]
      have hmap : (List.replicate (n - 1) (Sum.inr landmark : BoundingBox K ⊕ Landmark K)).filterMap
          Sum.getRight? = List.replicate (n - 1) landmark := by
        induction (n - 1) with
        | zero => rfl
        | succ m ih => simp [List.replicate_succ, ih]
      rw [hmap]
      exact Filter.push_replicate 10 landmark data_landmark (n - 1) hlandmark (by omega)
    · rw [h3]
      rfl
  · obtain ⟨h1, h2, h3⟩ := EMAFilter.filterAll_state (EMAFilter.withHistory history)
      (List.replicate (n - 1) result)
    apply EMAFilter.filter_constant _ _ _ _ hresult
    · rw [h1, h3]
      exact Filter.push_replicate 10 result history (n - 1) hhistory (by omega)
    · rw [h2]
      rfl

set_option maxRecDepth 100000 in
/-- Witness of C12: ten calls with the same box, landmark and result on filters that hold
one other entry each. -/
theorem filter_constant_input_witness :
    ((Filter.callAll (Filter.withHistory [earlierBox] [standing])
        (List.replicate (10 - 1) (Sum.inl currentBox))).filter_bbox currentBox).2 = currentBox ∧
    ((Filter.callAll (Filter.withHistory [earlierBox] [standing])
        (List.replicate (10 - 1) (Sum.inr squatting))).filter_landmark squatting).2 = squatting ∧
    ((EMAFilter.filterAll (EMAFilter.withHistory [outOfPose])
        (List.replicate (10 - 1) inPose)).filter inPose).2 = inPose :=
  filter_constant_input [earlierBox] [standing] [outOfPose] currentBox squatting inPose 10
    (by decide) (by decide) (by decide) (by decide)
    (by unfold ClassificationResult.Ordered; with_unfolding_all decide)

/-- C13 (decay of an omitted class): starting from an empty `EMAFilter`, after one frame
that contains class `c` with confidence `v > 0` followed by `n` frames that omit `c`, the
confidences of `c` read from the successive outputs (`get_class_confidence`, 0 if absent)
are `v, 0, 0, ..., 0`: the output of a frame that omits `c` has no entry for `c`. The
sequence is non-increasing and is 0 from the first omitting frame on. -/
theorem ema_filter_decay (first omitted : ClassificationResult K) (c : String) (v : K) (n : ℕ)
    (hkey : first.has_key c = true) (hfirst : first.get_class_confidence c = v) (hv : 0 < v)
    (homit : omitted.has_key c = false) :
    (EMAFilter.outputs EMAFilter.new (first :: List.replicate n omitted)).map
        (fun r => r.get_class_confidence c) = v :: List.replicate n 0 ∧
    ((EMAFilter.outputs EMAFilter.new (first :: List.replicate n omitted)).map
        (fun r => r.get_class_confidence c)).Pairwise (fun earlier later => later ≤ earlier) ∧
    ∀ m : ℕ, 1 ≤ m → m ≤ n →
      ((EMAFilter.outputs EMAFilter.new (first :: List.replicate n omitted)).map
        (fun r => r.get_class_confidence c)).getD m 0 = 0 := by
  have hseq : (EMAFilter.outputs EMAFilter.new (first :: List.replicate n omitted)).map
      (fun r => r.get_class_confidence c) = v :: List.replicate n 0 := by
    rw [EMAFilter.outputs, List.map_cons, EMAFilter.outputs_omitted _ omitted c homit n]
    congr 1
    have hmem : c ∈ first.getKeys := by
      unfold ClassificationResult.has_key at hkey
      cases hf : ClassificationResult.find first.class_confidences c with
      | none => simp [hf] at hkey
      | some w => exact ClassificationResult.mem_getKeys_of_find first c w hf
    have h := EMAFilter.ema_filter_first first c hmem
    rw [h, hfirst]
  refine ⟨hseq, ?_, ?_⟩
  · rw [hseq, List.pairwise_cons]
    refine ⟨?_, ?_⟩
    · intro a ha
      rw [List.eq_of_mem_replicate ha]
      exact le_of_lt hv
    · rw [List.pairwise_replicate]
      exact Or.inr (le_refl 0)
  · intro m hm1 hmn
    rw [hseq]
    obtain ⟨j, rfl⟩ : ∃ j, m = j + 1 := ⟨m - 1, by omega⟩
    rw [List.getD_cons_succ, List.getD_eq_getElem?_getD, List.getElem?_replicate]
    split <;> rfl

set_option maxRecDepth 100000 in
/-- Witness of C13: the frame `inPose` (confidence 8 for "squats_down") followed by three
frames that omit "squats_down". -/
theorem ema_filter_decay_witness :
    (EMAFilter.outputs EMAFilter.new (inPose :: List.replicate 3 inPoseOmitted)).map
        (fun r => r.get_class_confidence "squats_down") = 8 :: List.replicate 3 0 :=
  (ema_filter_decay inPose inPoseOmitted "squats_down" 8 3 (by decide)
    (by with_unfolding_all decide) (by norm_num) (by decide)).1

/-- C14 (the retained history): after any sequence of calls on a fresh filter, the
history of each kind of input (boxes and landmarks of a `Filter`, results of an
`EMAFilter`) is the inputs of that kind in reverse order of arrival, cut to the first 10:
the last `min(n, 10)` inputs, newest first, stored as passed; its length is `min(n, 10)`,
never more than 10; a call made on a full history stores the new input in front and drops
the last (oldest) entry. -/
theorem filter_history (calls : List (BoundingBox K ⊕ Landmark K))
    (frames : List (ClassificationResult K)) :
    ((Filter.callAll Filter.new calls).data = ((calls.filterMap Sum.getLeft?).reverse).take 10 ∧
      (Filter.callAll Filter.new calls).data.length =
        min (calls.filterMap Sum.getLeft?).length 10 ∧
      ∀ box : BoundingBox K, (Filter.callAll Filter.new calls).data.length = 10 →
        ((Filter.callAll Filter.new calls).filter_bbox box).1.data =
          box :: (Filter.callAll Filter.new calls).data.dropLast) ∧
    ((Filter.callAll Filter.new calls).data_landmark =
        ((calls.filterMap Sum.getRight?).reverse).take 10 ∧
      (Filter.callAll Filter.new calls).data_landmark.length =
        min (calls.filterMap Sum.getRight?).length 10 ∧
      ∀ landmark : Landmark K, (Filter.callAll Filter.new calls).data_landmark.length = 10 →
        ((Filter.callAll Filter.new calls).filter_landmark landmark).1.data_landmark =
          landmark :: (Filter.callAll Filter.new calls).data_landmark.dropLast) ∧
    ((EMAFilter.filterAll EMAFilter.new frames).data = frames.reverse.take 10 ∧
      (EMAFilter.filterAll EMAFilter.new frames).data.length = min frames.length 10 ∧
      ∀ frame : ClassificationResult K, (EMAFilter.filterAll EMAFilter.new frames).data.length = 10 →
        ((EMAFilter.filterAll EMAFilter.new frames).filter frame).1.data =
          frame :: (EMAFilter.filterAll EMAFilter.new frames).data.dropLast) := by
  obtain ⟨h1, _, _, h4, h5⟩ := Filter.callAll_state (Filter.new : Filter K) calls
  obtain ⟨g1, _, g3⟩ := EMAFilter.filterAll_state (EMAFilter.new : EMAFilter K) frames
  have hw : (Filter.new : Filter K).window_size = 10 := rfl
  have gw : (EMAFilter.new : EMAFilter K).window_size = 10 := rfl
  rw [hw] at h1 h4 h5
  rw [gw] at g1 g3
  have hd : (Filter.new : Filter K).data = [] := rfl
  have hl : (Filter.new : Filter K).data_landmark = [] := rfl
  have gd : (EMAFilter.new : EMAFilter K).data = [] := rfl
  rw [hd, Filter.foldl_push 10 _ _ (Nat.zero_le _), List.append_nil] at h4
  rw [hl, Filter.foldl_push 10 _ _ (Nat.zero_le _), List.append_nil] at h5
  rw [gd, Filter.foldl_push 10 _ _ (Nat.zero_le _), List.append_nil] at g3
  refine ⟨⟨h4, ?_, ?_⟩, ⟨h5, ?_, ?_⟩, ⟨g3, ?_, ?_⟩⟩
  · rw [h4, List.length_take, List.length_reverse, Nat.min_comm]
  · intro box hlen
    simp only [Filter.filter_bbox, h1]
    exact Filter.push_full 10 box _ (by norm_num) hlen
  · rw [h5, List.length_take, List.length_reverse, Nat.min_comm]
  · intro landmark hlen
    simp only [Filter.filter_landmark, h1]
    exact Filter.push_full 10 landmark _ (by norm_num) hlen
  · rw [g3, List.length_take, List.length_reverse, Nat.min_comm]
  · intro frame hlen
    simp only [EMAFilter.filter, g1]
    exact Filter.push_full 10 frame _ (by norm_num) hlen

/-- C15 (failing input): the loop of `decode_predictions` compares the raw score passed in
(the parameter `scores`, which hides the member that `decode_scores` has just turned into
sigmoids) with `score_threshold`. For one detection with raw score 3/10 the sigmoid
`1 / (1 + e^(-3/10))` is greater than 1/2, yet no detection is handed to `nms`. -/
theorem decode_predictions_raw_score :
    1 / (1 + Real.exp (-(3 / 10))) > (1 / 2 : ℝ) ∧
    (PoseDetectionInterpreter.candidates Real.exp
        (PoseDetectionInterpreter.new [1 / 2, 1 / 2, 1, 1] 1 12)
        [0, 0, 112, 56, 0, 0, 0, 0, 0, 0, 0, 0] [3 / 10]).toOption.map Prod.snd = some [] := by
  constructor
  · have h1 : Real.exp (-(3 / 10)) < 1 := Real.exp_lt_one_iff.mpr (by norm_num)
    have h0 : 0 < Real.exp (-(3 / 10)) := Real.exp_pos _
    rw [gt_iff_lt, div_lt_div_iff₀ (by norm_num) (by linarith)]
    linarith
  · have hthr : ¬ ((2 : ℝ)⁻¹ < 3 / 10) := by norm_num
    simp [PoseDetectionInterpreter.candidates, PoseDetectionInterpreter.new,
      PoseDetectionInterpreter.decode_scores, PoseDetectionInterpreter.collect,
      PoseDetectionInterpreter.read, List.range, List.range.loop, bind, Except.bind, hthr,
      Except.toOption]

/-- C16, amended (decoded box): for every index `i < num_detections` whose record and
anchor are inside the arrays (`num_keypoints ≥ 4`, at least `4 i + 2` anchor floats),
`decode_bbox(i)` returns the box centred on
`(anchor[4i] + raw[i*K+0]/scale, anchor[4i+1] + raw[i*K+1]/scale)` whose full width and
height are `raw[i*K+2]/scale` and `raw[i*K+3]/scale`: each side lies half of that from the
centre, with `scale = 224` and `K = num_keypoints`. -/
theorem decode_bbox_value (I : PoseDetectionInterpreter K) (i : ℕ)
    (hi : i < I.num_detections)
    (hraw : I.raw_bbox.length = I.num_detections * I.num_keypoints)
    (hkeypoints : 4 ≤ I.num_keypoints) (hanchors : i * 4 + 1 < I.anchors.length)
    (hscale : I.scale = 224) :
    PoseDetectionInterpreter.decode_bbox I i = .ok
      ⟨(I.anchors.getD (i * 4 + 0) 0 + I.raw_bbox.getD (i * I.num_keypoints + 0) 0 / 224) -
          (I.raw_bbox.getD (i * I.num_keypoints + 2) 0 / 224) / 2,
        (I.anchors.getD (i * 4 + 1) 0 + I.raw_bbox.getD (i * I.num_keypoints + 1) 0 / 224) -
          (I.raw_bbox.getD (i * I.num_keypoints + 3) 0 / 224) / 2,
        (I.anchors.getD (i * 4 + 0) 0 + I.raw_bbox.getD (i * I.num_keypoints + 0) 0 / 224) +
          (I.raw_bbox.getD (i * I.num_keypoints + 2) 0 / 224) / 2,
        (I.anchors.getD (i * 4 + 1) 0 + I.raw_bbox.getD (i * I.num_keypoints + 1) 0 / 224) +
          (I.raw_bbox.getD (i * I.num_keypoints + 3) 0 / 224) / 2⟩ := by
  have hrec : i * I.num_keypoints + I.num_keypoints ≤ I.num_detections * I.num_keypoints := by
    have : (i + 1) * I.num_keypoints ≤ I.num_detections * I.num_keypoints :=
      Nat.mul_le_mul_right _ hi
    rw [Nat.add_mul, Nat.one_mul] at this
    exact this
  have hnot : ¬ i > I.num_detections := by omega
  unfold PoseDetectionInterpreter.decode_bbox
  rw [if_neg hnot, PoseDetectionInterpreter.read_of_lt I.anchors (i * 4 + 0) (by omega),
    PoseDetectionInterpreter.read_of_lt I.anchors (i * 4 + 1) hanchors,
    PoseDetectionInterpreter.read_of_lt I.raw_bbox (i * I.num_keypoints + 0) (by omega),
    PoseDetectionInterpreter.read_of_lt I.raw_bbox (i * I.num_keypoints + 1) (by omega),
    PoseDetectionInterpreter.read_of_lt I.raw_bbox (i * I.num_keypoints + 2) (by omega),
    PoseDetectionInterpreter.read_of_lt I.raw_bbox (i * I.num_keypoints + 3) (by omega), hscale]
  rfl

set_option maxRecDepth 100000 in
/-- Witness of the amended C16: the one-detection interpreter, index 0. -/
theorem decode_bbox_value_witness :
    PoseDetectionInterpreter.decode_bbox oneDetection 0 = .ok
      ⟨(oneDetection.anchors.getD (0 * 4 + 0) 0 +
            oneDetection.raw_bbox.getD (0 * oneDetection.num_keypoints + 0) 0 / 224) -
          (oneDetection.raw_bbox.getD (0 * oneDetection.num_keypoints + 2) 0 / 224) / 2,
        (oneDetection.anchors.getD (0 * 4 + 1) 0 +
            oneDetection.raw_bbox.getD (0 * oneDetection.num_keypoints + 1) 0 / 224) -
          (oneDetection.raw_bbox.getD (0 * oneDetection.num_keypoints + 3) 0 / 224) / 2,
        (oneDetection.anchors.getD (0 * 4 + 0) 0 +
            oneDetection.raw_bbox.getD (0 * oneDetection.num_keypoints + 0) 0 / 224) +
          (oneDetection.raw_bbox.getD (0 * oneDetection.num_keypoints + 2) 0 / 224) / 2,
        (oneDetection.anchors.getD (0 * 4 + 1) 0 +
            oneDetection.raw_bbox.getD (0 * oneDetection.num_keypoints + 1) 0 / 224) +
          (oneDetection.raw_bbox.getD (0 * oneDetection.num_keypoints + 3) 0 / 224) / 2⟩ :=
  decode_bbox_value oneDetection 0 (by decide) (by decide) (by decide) (by decide)
    (by with_unfolding_all decide)

set_option maxRecDepth 100000 in
/-- Counterexample to C16 as stated: with anchor `(1/2, 1/2)`, raw centre offset 0 and raw
sizes 112 and 56 (so `raw/scale` is 1/2 and 1/4), `decode_bbox(0)` returns the box
`(1/4, 3/8)-(3/4, 5/8)`, not the box `(0, 1/4)-(1, 3/4)` that lies `raw/scale` from the
centre on each side. -/
theorem decode_bbox_half_extent_counterexample :
    (PoseDetectionInterpreter.decode_bbox oneDetection 0).toOption =
      some ⟨1 / 4, 3 / 8, 3 / 4, 5 / 8⟩ ∧
    (PoseDetectionInterpreter.decode_bbox oneDetection 0).toOption ≠
      some ⟨1 / 2 - 112 / 224, 1 / 2 - 56 / 224, 1 / 2 + 112 / 224, 1 / 2 + 56 / 224⟩ := by
  with_unfolding_all decide

/-- C17 (two detections): for two detections `a`, `b` with `score(a) > score(b)` and every
threshold `t`, `nms` on the two of them, in either input order, returns only `a` when
`iou(a.bbox, b.bbox) > t` and returns `a` and `b` when `iou(a.bbox, b.bbox) ≤ t`. -/
theorem nms_two (S : StdSortDesc (PoseDetection K) PoseDetection.score)
    (a b : PoseDetection K) (t : K) (hscore : a.score > b.score) :
    (PoseDetectionInterpreter.iou a.bbox b.bbox > t →
      PoseDetectionInterpreter.nms S [a, b] t = [a] ∧
      PoseDetectionInterpreter.nms S [b, a] t = [a]) ∧
    (PoseDetectionInterpreter.iou a.bbox b.bbox ≤ t →
      PoseDetectionInterpreter.nms S [a, b] t = [a, b] ∧
      PoseDetectionInterpreter.nms S [b, a] t = [a, b]) := by
  have h1 := PoseDetectionInterpreter.sort_two S a b hscore [a, b] (Or.inl rfl)
  have h2 := PoseDetectionInterpreter.sort_two S a b hscore [b, a] (Or.inr rfl)
  have e1 : PoseDetectionInterpreter.nms S [a, b] t =
      if PoseDetectionInterpreter.iou a.bbox b.bbox > t then [a] else [a, b] := by
    unfold PoseDetectionInterpreter.nms
    rw [h1]
    exact PoseDetectionInterpreter.nmsLoop_two t a b
  have e2 : PoseDetectionInterpreter.nms S [b, a] t =
      if PoseDetectionInterpreter.iou a.bbox b.bbox > t then [a] else [a, b] := by
    unfold PoseDetectionInterpreter.nms
    rw [h2]
    exact PoseDetectionInterpreter.nmsLoop_two t a b
  constructor
  · intro h
    rw [e1, e2, if_pos h]
    exact ⟨rfl, rfl⟩
  · intro h
    rw [e1, e2, if_neg (not_lt.mpr h)]
    exact ⟨rfl, rfl⟩

set_option maxRecDepth 100000 in
/-- Witness of C17: scores 9/10 and 6/10, IoU 1/3, at the thresholds 3/10 and 1/2. -/
theorem nms_two_witness :
    (PoseDetectionInterpreter.nms (insertionSortDesc PoseDetection.score)
        [strongDetection, weakDetection] (3 / 10) = [strongDetection] ∧
      PoseDetectionInterpreter.nms (insertionSortDesc PoseDetection.score)
        [weakDetection, strongDetection] (3 / 10) = [strongDetection]) ∧
    (PoseDetectionInterpreter.nms (insertionSortDesc PoseDetection.score)
        [strongDetection, weakDetection] (1 / 2) = [strongDetection, weakDetection] ∧
      PoseDetectionInterpreter.nms (insertionSortDesc PoseDetection.score)
        [weakDetection, strongDetection] (1 / 2) = [strongDetection, weakDetection]) :=
  ⟨(nms_two (insertionSortDesc PoseDetection.score) strongDetection weakDetection (3 / 10)
      (by with_unfolding_all decide)).1 (by with_unfolding_all decide),
    (nms_two (insertionSortDesc PoseDetection.score) strongDetection weakDetection (1 / 2)
      (by with_unfolding_all decide)).2 (by with_unfolding_all decide)⟩

/-- C18 (what suppression leaves): for every list of detections and every threshold `t`,
any two detections at different places of the output of `nms` have IoU at most `t` with
each other, and every input detection that is missing from the output has IoU greater
than `t` with some output detection whose score is at least its own. -/
theorem nms_suppression (S : StdSortDesc (PoseDetection K) PoseDetection.score)
    (poses : List (PoseDetection K)) (t : K) :
    (PoseDetectionInterpreter.nms S poses t).Pairwise
      (fun a b => PoseDetectionInterpreter.iou a.bbox b.bbox ≤ t ∧
        PoseDetectionInterpreter.iou b.bbox a.bbox ≤ t) ∧
    ∀ d ∈ poses, d ∉ PoseDetectionInterpreter.nms S poses t →
      ∃ o ∈ PoseDetectionInterpreter.nms S poses t,
        PoseDetectionInterpreter.iou o.bbox d.bbox > t ∧ d.score ≤ o.score := by
  constructor
  · apply (PoseDetectionInterpreter.nmsLoop_pairwise t _ _).imp
    intro a b h
    exact ⟨h, by rw [PoseDetectionInterpreter.iou_comm]; exact h⟩
  · intro d hd hmissing
    have hmem : d ∈ S.sort poses := (S.perm poses).symm.subset hd
    rcases PoseDetectionInterpreter.nmsLoop_covers t (S.sort poses).length (S.sort poses)
      (le_refl _) (S.sorted poses) d hmem with h | h
    · exact absurd h hmissing
    · exact h

/-- C19 (IoU is never negative): for every pair of boxes, zero-area and inverted ones
included, `iou` returns a value `≥ 0`, and it returns 0 whenever the two boxes do not
overlap (their common region has no width or no height); an inverted box overlaps
nothing. -/
theorem iou_nonneg_zero (a b : BoundingBox K) :
    0 ≤ PoseDetectionInterpreter.iou a b ∧
    (¬ BoundingBox.Overlap a b → PoseDetectionInterpreter.iou a b = 0) ∧
    ((a.xmax < a.xmin ∨ a.ymax < a.ymin ∨ b.xmax < b.xmin ∨ b.ymax < b.ymin) →
      ¬ BoundingBox.Overlap a b) := by
  refine ⟨PoseDetectionInterpreter.iou_nonneg a b, ?_, ?_⟩
  · intro h
    apply PoseDetectionInterpreter.iou_eq_zero
    unfold BoundingBox.Overlap at h
    by_cases hx : max a.xmin b.xmin < min a.xmax b.xmax
    · exact Or.inr (not_lt.mp (fun hy => h ⟨hx, hy⟩))
    · exact Or.inl (not_lt.mp hx)
  · intro h hov
    obtain ⟨hx, hy⟩ := hov
    rw [max_lt_iff, lt_min_iff, lt_min_iff] at hx hy
    rcases h with h | h | h | h
    · exact absurd hx.1.1 (not_lt.mpr (le_of_lt h))
    · exact absurd hy.1.1 (not_lt.mpr (le_of_lt h))
    · exact absurd hx.2.2 (not_lt.mpr (le_of_lt h))
    · exact absurd hy.2.2 (not_lt.mpr (le_of_lt h))

set_option maxRecDepth 100000 in
/-- Witness of C19: a box and the same box moved off to the right; an inverted box. -/
theorem iou_nonneg_zero_witness :
    PoseDetectionInterpreter.iou (⟨0, 0, 2, 2⟩ : BoundingBox ℚ) ⟨5, 0, 7, 2⟩ = 0 ∧
    ¬ BoundingBox.Overlap (⟨2, 0, 0, 2⟩ : BoundingBox ℚ) ⟨0, 0, 2, 2⟩ :=
  ⟨(iou_nonneg_zero (⟨0, 0, 2, 2⟩ : BoundingBox ℚ) ⟨5, 0, 7, 2⟩).2.1
      (by unfold BoundingBox.Overlap; with_unfolding_all decide),
    (iou_nonneg_zero (⟨2, 0, 0, 2⟩ : BoundingBox ℚ) ⟨0, 0, 2, 2⟩).2.2
      (by with_unfolding_all decide)⟩

/-- C22: for every landmark, `get_embedding` returns a sequence of exactly 23 keypoints,
whatever the embedder instance and the runtime; so any two calls, on any two embedders,
return sequences of the same length. -/
theorem get_embedding_length (R : Runtime K) (E : FullBodyPoseEmbedder K)
    (landmark : Landmark K) :
    (get_embedding R E landmark).length = 23 ∧
    ∀ (R' : Runtime K) (E' : FullBodyPoseEmbedder K) (landmark' : Landmark K),
      (get_embedding R' E' landmark').length = (get_embedding R E landmark).length :=
  ⟨length_get_embedding R E landmark, fun R' E' landmark' =>
    (length_get_embedding R' E' landmark').trans (length_get_embedding R E landmark).symm⟩

/-- C23: for a landmark with non-zero pose size `s`, `normalize_pose_landmarks` replaces
each of the 33 points `p_i` by `((p_i - c) / s) * 100`, where the centre `c` is the midpoint
of the hips of the input landmark and `s` is the pose size of the input landmark. -/
theorem normalize_pose_landmarks_point (R : Runtime K) (E : FullBodyPoseEmbedder K)
    (landmark : Landmark K) (_hs : get_pose_size R E landmark ≠ 0) (i : Nat) (hi : i < 33) :
    (normalize_pose_landmarks R E landmark).get i =
      ((((landmark.get i).sub (Keypoint.midpoint landmark.left_hip landmark.right_hip)).divScalar
        (get_pose_size R E landmark)).mulScalar 100) := by
  unfold normalize_pose_landmarks
  simp only []
  rw [Landmark.get_forEach _ _ i hi, Landmark.byName_left_hip, Landmark.byName_right_hip,
    Keypoint.add_mulScalar_half]

set_option maxRecDepth 100000 in
/-- C23 at the landmark `standing` (pose size 10) and the point 11 (left shoulder). -/
theorem normalize_pose_landmarks_point_witness :
    get_pose_size demoRuntime FullBodyPoseEmbedder.new standing ≠ 0 ∧
    (normalize_pose_landmarks demoRuntime FullBodyPoseEmbedder.new standing).get 11 =
      ((((standing.get 11).sub (Keypoint.midpoint standing.left_hip standing.right_hip)).divScalar
        (get_pose_size demoRuntime FullBodyPoseEmbedder.new standing)).mulScalar 100) :=
  ⟨by with_unfolding_all decide,
   normalize_pose_landmarks_point demoRuntime FullBodyPoseEmbedder.new standing
     (by with_unfolding_all decide) 11 (by decide)⟩

/-- C24: with the default multiplier 2.5, `get_pose_size` returns the maximum of
`2.5 * d2(hip_mid, shoulder_mid)` and the 33 distances `d2(p_i, hip_mid)`: it is the running
maximum over them, it is at least each of them, and it is one of them. -/
theorem get_pose_size_max (R : Runtime K) (landmark : Landmark K) :
    let hip_mid := Keypoint.midpoint landmark.left_hip landmark.right_hip
    let shoulder_mid := Keypoint.midpoint landmark.left_shoulder landmark.right_shoulder
    let torso := 5 / 2 * Keypoint.d2 R.sqrt hip_mid shoulder_mid
    let d := fun i => Keypoint.d2 R.sqrt (landmark.get i) hip_mid
    let s := get_pose_size R FullBodyPoseEmbedder.new landmark
    s = ((List.range 33).map d).foldl max torso ∧
    torso ≤ s ∧ (∀ i, i < 33 → d i ≤ s) ∧ (s = torso ∨ ∃ i, i < 33 ∧ s = d i) := by
  intro hip_mid shoulder_mid torso d s
  have hs : s = ((List.range 33).map d).foldl max torso := by
    show get_pose_size R FullBodyPoseEmbedder.new landmark = _
    unfold get_pose_size
    simp only []
    rw [Landmark.byName_left_hip, Landmark.byName_right_hip, Landmark.byName_left_shoulder,
      Landmark.byName_right_shoulder, Keypoint.add_mulScalar_half, Keypoint.add_mulScalar_half,
      fold_eq_max (fun i => (landmark.get i).dist2D R.sqrt hip_mid)]
    have ht : (Keypoint.midpoint landmark.left_hip landmark.right_hip).dist2D R.sqrt
        (Keypoint.midpoint landmark.left_shoulder landmark.right_shoulder) *
          (FullBodyPoseEmbedder.new : FullBodyPoseEmbedder K).torso_size_multiplier = torso := by
      show _ * (5 / 2 : K) = 5 / 2 * _
      rw [mul_comm]
      rfl
    rw [ht]
    rfl
  refine ⟨hs, ?_, ?_, ?_⟩
  · rw [hs]
    exact init_le_foldl_max _ _
  · intro i hi
    rw [hs]
    exact mem_le_foldl_max _ _ _ (List.mem_map_of_mem d (List.mem_range.mpr hi))
  · rw [hs]
    rcases foldl_max_attained ((List.range 33).map d) torso with h | h
    · exact Or.inl h
    · obtain ⟨i, hi, hd⟩ := List.mem_map.mp h
      exact Or.inr ⟨i, List.mem_range.mp hi, hd.symm⟩

/-- C25: in a result built from the empty one by writes none of which is about the class
`c`, `get_class_confidence c` is 0, `has_key c` is false, and `c` is not among the keys.
Both queries only read the map (`find`, `at`): they return a value and leave the
result as it is. -/
theorem unwritten_class_absent (ws : List (ClassificationResult.Write K)) (c : String)
    (h : ∀ w ∈ ws, w.class_name ≠ c) :
    (ClassificationResult.written ws).get_class_confidence c = 0 ∧
    (ClassificationResult.written ws).has_key c = false ∧
    c ∉ (ClassificationResult.written ws).getKeys := by
  have hf : ClassificationResult.find (ClassificationResult.written ws).class_confidences c =
      none := by
    unfold ClassificationResult.written
    rw [ClassificationResult.find_foldl_write ws _ c h]
    rfl
  refine ⟨?_, ?_, ClassificationResult.not_mem_getKeys _ c hf⟩
  · unfold ClassificationResult.get_class_confidence
    rw [hf]
  · unfold ClassificationResult.has_key
    rw [hf]

/-- C25 after a put of "up" and two increments of "down", asked about "sideways". -/
theorem unwritten_class_absent_witness :
    (∀ w ∈ [ClassificationResult.Write.put "up" (3 : ℚ), .increment "down", .increment "down"],
      w.class_name ≠ "sideways") ∧
    (ClassificationResult.written
      [ClassificationResult.Write.put "up" (3 : ℚ), .increment "down",
        .increment "down"]).get_class_confidence "sideways" = 0 ∧
    (ClassificationResult.written
      [ClassificationResult.Write.put "up" (3 : ℚ), .increment "down",
        .increment "down"]).has_key "sideways" = false ∧
    "sideways" ∉ (ClassificationResult.written
      [ClassificationResult.Write.put "up" (3 : ℚ), .increment "down",
        .increment "down"]).getKeys :=
  ⟨by decide, unwritten_class_absent _ "sideways" (by decide)⟩

/-- C26: `k` calls of `increment_class_confidence c` on an empty result give
`get_class_confidence c = k`; every other class is absent (no key, confidence 0). -/
theorem increment_k_times (c : String) (k : Nat) :
    ((fun r => ClassificationResult.increment_class_confidence r c)^[k]
      (ClassificationResult.empty : ClassificationResult K)).get_class_confidence c = (k : K) ∧
    ∀ c', c' ≠ c →
      ((fun r => ClassificationResult.increment_class_confidence r c)^[k]
        (ClassificationResult.empty : ClassificationResult K)).has_key c' = false ∧
      c' ∉ ((fun r => ClassificationResult.increment_class_confidence r c)^[k]
        (ClassificationResult.empty : ClassificationResult K)).getKeys := by
  constructor
  · rw [ClassificationResult.get_iterate_increment]
    simp [ClassificationResult.get_class_confidence, ClassificationResult.empty,
      ClassificationResult.find]
  · intro c' hc'
    have hf := ClassificationResult.find_iterate_increment c c' hc' k
      (ClassificationResult.empty : ClassificationResult K)
    have hn : ClassificationResult.find
        (ClassificationResult.empty : ClassificationResult K).class_confidences c' = none := rfl
    rw [hn] at hf
    refine ⟨?_, ClassificationResult.not_mem_getKeys _ c' hf⟩
    unfold ClassificationResult.has_key
    rw [hf]

/-- C27: for each of the 33 names in canonical order, lookup by name returns the keypoint
read at that integer position; a write through the integer index is read back at that
position and under that name, and leaves the other 32 points as they were. -/
theorem landmark_name_index (undef : Landmark K → String → Keypoint K) (lm : Landmark K)
    (i : Nat) (hi : i < 33) :
    lm.byName undef (Landmark.names.getD i "") = lm.get i ∧
    ∀ kp : Keypoint K,
      (lm.set i kp).get i = kp ∧
      (lm.set i kp).byName undef (Landmark.names.getD i "") = kp ∧
      ∀ j, j < 33 → j ≠ i → (lm.set i kp).get j = lm.get j := by
  refine ⟨Landmark.byName_names undef lm i hi, fun kp => ?_⟩
  have hself : (lm.set i kp).get i = kp := by
    rw [Landmark.get_set lm kp i i hi hi, if_pos rfl]
  refine ⟨hself, ?_, ?_⟩
  · rw [Landmark.byName_names undef _ i hi, hself]
  · intro j hj hne
    rw [Landmark.get_set lm kp i j hi hj, if_neg hne]

/-- C27 at position 23: the name is "left_hip", and the point read there on the
landmark `standing` is `(3, 0, 0)`. -/
theorem landmark_name_index_witness :
    23 < 33 ∧ Landmark.names.getD 23 "" = "left_hip" ∧
    (standing.byName demoRuntime.undef (Landmark.names.getD 23 "") = standing.get 23 ∧
     ∀ kp : Keypoint ℚ,
      (standing.set 23 kp).get 23 = kp ∧
      (standing.set 23 kp).byName demoRuntime.undef (Landmark.names.getD 23 "") = kp ∧
      ∀ j, j < 33 → j ≠ 23 → (standing.set 23 kp).get j = standing.get j) :=
  ⟨by decide, rfl, landmark_name_index demoRuntime.undef standing 23 (by decide)⟩

/-- C21: on an interpreter with `score_threshold = 0.7` and `scale = 256` whose array holds
the 33 records, `decode_predictions` with a non-null pointer `raw` returns, and leaves the
sigmoid of the presence score in `score`. When that sigmoid is greater than 0.7, point
`i` of the stored landmark becomes `(raw[i*K], raw[i*K+1], raw[i*K+2]) / 256` for every
`i < 33`, `K = num_keypoints`; otherwise `get_pose_landmark` returns the landmark it
returned before the call. -/
theorem decode_predictions_landmark (exp : K → K) (I : PoseLandmarkInterpreter K)
    (raw : Nat → K) (score : K)
    (hthr : I.score_threshold = 7 / 10) (hscale : I.scale = 256)
    (hrec : 32 * I.num_keypoints + 2 < I.num_detections * I.num_keypoints) :
    ∃ J, PoseLandmarkInterpreter.decode_predictions exp I (some raw) score =
        .ok (J, 1 / (1 + exp (-score))) ∧
      (1 / (1 + exp (-score)) > 7 / 10 → ∀ i, i < 33 →
        J.get_pose_landmark.get i =
          ⟨raw (i * I.num_keypoints) / 256, raw (i * I.num_keypoints + 1) / 256,
            raw (i * I.num_keypoints + 2) / 256⟩) ∧
      (¬ 1 / (1 + exp (-score)) > 7 / 10 → J.get_pose_landmark = I.get_pose_landmark) := by
  by_cases hgt : 1 / (1 + exp (-score)) > 7 / 10
  · refine ⟨_, PoseLandmarkInterpreter.decode_predictions_accept exp I raw score hrec
      (by rw [hthr]; exact hgt), fun _ i hi => ?_, fun hn => absurd hgt hn⟩
    have hi32 : i ≤ 32 := Nat.lt_succ_iff.mp hi
    have hmul := Nat.mul_le_mul_right I.num_keypoints hi32
    have hget := Landmark.get_forEach I.pose_landmark
      (fun i _ => PoseLandmarkInterpreter.decoded
        ((List.range (I.num_detections * I.num_keypoints)).map raw)
        I.num_keypoints I.scale i) i hi
    have hcopied := PoseLandmarkInterpreter.decoded_map_range raw
      (I.num_detections * I.num_keypoints) I.num_keypoints I.scale i (by omega)
    have hfin : (⟨raw (i * I.num_keypoints) / I.scale, raw (i * I.num_keypoints + 1) / I.scale,
        raw (i * I.num_keypoints + 2) / I.scale⟩ : Keypoint K) =
        ⟨raw (i * I.num_keypoints) / 256, raw (i * I.num_keypoints + 1) / 256,
          raw (i * I.num_keypoints + 2) / 256⟩ := by
      rw [hscale]
    exact hget.trans (hcopied.trans hfin)
  · exact ⟨_, PoseLandmarkInterpreter.decode_predictions_reject exp I raw score
      (by rw [hthr]; exact hgt), fun h => absurd h hgt, fun _ => rfl⟩

set_option maxRecDepth 100000 in
/-- Witness of C21: the interpreter and the tensor of `main.cc` (an array of 195 records of
5 floats, the pointer to a tensor of 195 floats) over the reals, with the real
exponential, a tensor of ones, zeros behind it and the presence score 2. -/
theorem decode_predictions_landmark_witness :
    (PoseLandmarkInterpreter.new 195 5 : PoseLandmarkInterpreter ℝ).score_threshold = 7 / 10 ∧
    (PoseLandmarkInterpreter.new 195 5 : PoseLandmarkInterpreter ℝ).scale = 256 ∧
    32 * 5 + 2 < 195 * 5 ∧
    ∃ J, PoseLandmarkInterpreter.decode_predictions Real.exp
        (PoseLandmarkInterpreter.new 195 5)
        (some (PoseLandmarkInterpreter.pointer (List.replicate 195 (1 : ℝ)) (fun _ => 0))) 2 =
          .ok (J, 1 / (1 + Real.exp (-2))) ∧
      (1 / (1 + Real.exp (-2)) > 7 / 10 → ∀ i, i < 33 →
        J.get_pose_landmark.get i =
          ⟨PoseLandmarkInterpreter.pointer (List.replicate 195 (1 : ℝ)) (fun _ => 0)
              (i * 5) / 256,
            PoseLandmarkInterpreter.pointer (List.replicate 195 (1 : ℝ)) (fun _ => 0)
              (i * 5 + 1) / 256,
            PoseLandmarkInterpreter.pointer (List.replicate 195 (1 : ℝ)) (fun _ => 0)
              (i * 5 + 2) / 256⟩) ∧
      (¬ 1 / (1 + Real.exp (-2)) > 7 / 10 →
        J.get_pose_landmark =
          (PoseLandmarkInterpreter.new 195 5 : PoseLandmarkInterpreter ℝ).get_pose_landmark) :=
  ⟨rfl, rfl, by decide,
   decode_predictions_landmark Real.exp (PoseLandmarkInterpreter.new 195 5)
     (PoseLandmarkInterpreter.pointer (List.replicate 195 (1 : ℝ)) (fun _ => 0)) 2 rfl rfl
     (by simp [PoseLandmarkInterpreter.new])⟩

/-- C28 (what the code does instead): when the file cannot be opened,
`load_pose_samples` ends normally with an empty sample bank, so the constructor produces
a classifier; that classifier returns the empty result for every landmark. -/
theorem load_pose_samples_unopened (R : Runtime K) (stof : String → Option K) :
    load_pose_samples R stof none = .ok [] ∧
    ∀ (S : StdSortDesc (PoseSample K × K) Prod.snd) (landmark : Landmark K),
      classify_pose R S [] landmark = some ClassificationResult.empty :=
  ⟨rfl, fun S landmark => classify_pose_empty_bank R S landmark⟩

/-- C29 (amended): `load_pose_samples` throws for every file that has a row with fewer than
101 fields or with a coordinate field (fields 2..100) that `stof` does not convert. When
every row has at least 101 fields and `stof` converts its coordinate fields, the load
succeeds with one sample per row, in order; the sample of a row is the one of its first
101 fields, so further fields are ignored. -/
theorem load_pose_samples_rows (R : Runtime K) (stof : String → Option K)
    (file : Option String) :
    ((∃ row ∈ read_content file, RowRefused stof row) →
      ∃ fault, load_pose_samples R stof file = .error fault) ∧
    ((∀ row ∈ read_content file, RowTaken stof row) →
      load_pose_samples R stof file = .ok ((read_content file).map (row_sample R stof))) ∧
    (∀ row, row_sample R stof (row.take 101) = row_sample R stof row) ∧
    (∀ row, RowTaken stof row ∨ RowRefused stof row) := by
  refine ⟨fun h => generate_refused R stof _ h _ _, fun h => ?_,
    fun row => row_sample_take R stof row, fun row => ?_⟩
  · unfold load_pose_samples
    rw [generate_taken R stof _ h]
    rfl
  · by_cases h : RowRefused stof row
    · exact Or.inr h
    · refine Or.inl ⟨?_, fun n f h2 h101 hf => ?_⟩
      · by_contra hlen
        exact h (Or.inl (not_le.mp hlen))
      · cases hs : stof f with
        | some v => exact ⟨v, rfl⟩
        | none => exact absurd (Or.inr ⟨n, f, h2, h101, hf, hs⟩) h

set_option maxRecDepth 1000000 in
/-- C29 (counterexample): a file whose only row has 102 fields is loaded, and so is a file
whose only row has 101 fields with "1920px" as the x of the left hip, which is read as 1920. -/
theorem load_pose_samples_accepts_counterexample :
    (read_content (some longRowFile)).map List.length = [102] ∧
    ((load_pose_samples demoRuntime demoStof (some longRowFile)).toOption.map
      (List.map (fun s => (s.name, s.class_name)))) = some [("squat_1", "down")] ∧
    (read_content (some looseNumberFile)).map List.length = [101] ∧
    ((load_pose_samples demoRuntime demoStof (some looseNumberFile)).toOption.map
      (List.map (fun s => (s.name, s.class_name)))) = some [("squat_1", "down")] ∧
    (read_content (some looseNumberFile)).map
      (fun row => (read_row demoStof row Landmark.zero).toOption.map (fun lm => lm.left_hip)) =
        [some ⟨1920, 0, 0⟩] := by
  with_unfolding_all decide

/-- C30 (amended): each of the two sorts of `classify_pose` is `std::sort`: its output
is a rearrangement of the entries in non-increasing distance order. When no two entries
have the same distance, that output is the same for every sort that meets the contract;
nothing fixes the order of entries with equal distance. -/
theorem sort_determined_without_ties (S₁ S₂ : StdSortDesc (PoseSample K × K) Prod.snd)
    (distances : List (PoseSample K × K)) (h : (distances.map Prod.snd).Nodup) :
    S₁.sort distances = S₂.sort distances ∧
    (S₁.sort distances).Perm distances ∧
    (S₁.sort distances).Pairwise (fun a b => b.2 ≤ a.2) :=
  ⟨sorted_perm_unique Prod.snd distances _ _ (S₁.perm distances) (S₂.perm distances)
    (S₁.sorted distances) (S₂.sorted distances) h, S₁.perm distances, S₁.sorted distances⟩

set_option maxRecDepth 100000 in
/-- C30 (amended) for the two sort instances on three entries at distances 0, 1, 2. -/
theorem sort_determined_without_ties_witness :
    ((manyDistances 3).map Prod.snd).Nodup ∧
    ((insertionSortDesc Prod.snd).sort (manyDistances 3) =
      (rotateSortDesc Prod.snd).sort (manyDistances 3) ∧
     ((insertionSortDesc Prod.snd).sort (manyDistances 3)).Perm (manyDistances 3) ∧
     ((insertionSortDesc Prod.snd).sort (manyDistances 3)).Pairwise (fun a b => b.2 ≤ a.2)) :=
  ⟨by with_unfolding_all decide,
   sort_determined_without_ties (insertionSortDesc Prod.snd) (rotateSortDesc Prod.snd)
     (manyDistances 3) (by with_unfolding_all decide)⟩

set_option maxRecDepth 1000000 in
/-- C30 (counterexample): `rotateSortDesc` meets the contract of `std::sort` and puts two
entries of equal distance in the opposite of their input order. On the bank `tiedBank`,
whose 17 samples are all equally distant, the sample discarded at the truncation boundary
depends on the sort: with the insertion sort the one sample labelled "down" (first in the
bank) is discarded, with `rotateSortDesc` it is kept. -/
theorem classify_pose_ties_counterexample :
    (rotateSortDesc Prod.snd).sort [("first", (1 : ℚ)), ("second", 1)] =
      [("second", 1), ("first", 1)] ∧
    classify_pose demoRuntime (insertionSortDesc Prod.snd) tiedBank standing =
      some ⟨[("up", 10)]⟩ ∧
    classify_pose demoRuntime (rotateSortDesc Prod.snd) tiedBank standing =
      some ⟨[("down", 1), ("up", 9)]⟩ := by
  with_unfolding_all decide

/-- C31: for a bank sample with the 23 stored features, the pair that the max-distance
stage of `classify_pose` pushes for it carries the distance `min(D(e), D(f))`: `D(v)` is
the maximum, over the 23 features, of `max(|dx|, |dy|, 0.2 * |dz|)` for `d = v_j - sample_j`,
`e` is the embedding of the landmark and `f` that of `flipped_landmarks`, the landmark
with every x negated.
The distance is not negative, and it is 0 when `e` is the sample's stored embedding. -/
theorem stage_one_distance (R : Runtime K) (landmark : Landmark K) (sample : PoseSample K)
    (hs : 23 ≤ sample.embedding.length) :
    ∃ De Df,
      maxDistance (get_embedding R .new landmark)
        (get_embedding R .new (flipped_landmarks landmark))
        sample = some (sample, min De Df) ∧
      IsMaxFeature (get_embedding R .new landmark) sample.embedding De ∧
      IsMaxFeature (get_embedding R .new (flipped_landmarks landmark))
        sample.embedding Df ∧
      (List.zipWith featureDistance (get_embedding R .new landmark) sample.embedding).length =
        23 ∧
      0 ≤ min De Df ∧
      (get_embedding R .new landmark = sample.embedding → min De Df = 0) := by
  obtain ⟨De, Df, h1, h2, h3, h4, h5⟩ := maxDistance_eq (get_embedding R .new landmark)
    (get_embedding R .new (flipped_landmarks landmark)) sample
    (length_get_embedding R _ _) (length_get_embedding R _ _) hs
  refine ⟨De, Df, h1, h2, h3, ?_, h4, h5⟩
  rw [List.length_zipWith, length_get_embedding]
  exact min_eq_left hs

set_option maxRecDepth 100000 in
/-- C31 for the landmark `standing` against the bank sample made from `squatting`. -/
theorem stage_one_distance_witness :
    23 ≤ (PoseSample.new demoRuntime "squat_1" "down" squatting).embedding.length ∧
    ∃ De Df,
      maxDistance (get_embedding demoRuntime .new standing)
        (get_embedding demoRuntime .new (flipped_landmarks standing))
        (PoseSample.new demoRuntime "squat_1" "down" squatting) =
          some (PoseSample.new demoRuntime "squat_1" "down" squatting, min De Df) ∧
      IsMaxFeature (get_embedding demoRuntime .new standing)
        (PoseSample.new demoRuntime "squat_1" "down" squatting).embedding De ∧
      IsMaxFeature
        (get_embedding demoRuntime .new (flipped_landmarks standing))
        (PoseSample.new demoRuntime "squat_1" "down" squatting).embedding Df ∧
      (List.zipWith featureDistance (get_embedding demoRuntime .new standing)
        (PoseSample.new demoRuntime "squat_1" "down" squatting).embedding).length = 23 ∧
      0 ≤ min De Df ∧
      (get_embedding demoRuntime .new standing =
          (PoseSample.new demoRuntime "squat_1" "down" squatting).embedding →
        min De Df = 0) :=
  ⟨by decide, stage_one_distance demoRuntime standing
    (PoseSample.new demoRuntime "squat_1" "down" squatting) (by decide)⟩

set_option maxRecDepth 100000 in
/-- C32 (what the code does instead): entry 0 of the embedding is the displacement from the
hip midpoint to the shoulder midpoint of the normalized landmark, but each of the eight
one-joint entries 1..8 is the midpoint `(a + b) * 0.5` of its two points, not their
difference. For the landmark `standing`, entry 1 is `(15, -20, 0)`, while the displacement
from the normalized left shoulder to the normalized left elbow is `(-30, 40, 0)`. -/
theorem embedding_one_joint_midpoints (R : Runtime K) (E : FullBodyPoseEmbedder K)
    (landmark : Landmark K) :
    (get_embedding R E landmark).take 9 =
      [(Keypoint.midpoint (normalize_pose_landmarks R E landmark).left_shoulder
            (normalize_pose_landmarks R E landmark).right_shoulder).sub
          (Keypoint.midpoint (normalize_pose_landmarks R E landmark).left_hip
            (normalize_pose_landmarks R E landmark).right_hip),
        Keypoint.midpoint (normalize_pose_landmarks R E landmark).left_shoulder
          (normalize_pose_landmarks R E landmark).left_elbow,
        Keypoint.midpoint (normalize_pose_landmarks R E landmark).right_shoulder
          (normalize_pose_landmarks R E landmark).right_elbow,
        Keypoint.midpoint (normalize_pose_landmarks R E landmark).left_elbow
          (normalize_pose_landmarks R E landmark).left_wrist,
        Keypoint.midpoint (normalize_pose_landmarks R E landmark).right_elbow
          (normalize_pose_landmarks R E landmark).right_wrist,
        Keypoint.midpoint (normalize_pose_landmarks R E landmark).left_hip
          (normalize_pose_landmarks R E landmark).left_knee,
        Keypoint.midpoint (normalize_pose_landmarks R E landmark).right_hip
          (normalize_pose_landmarks R E landmark).right_knee,
        Keypoint.midpoint (normalize_pose_landmarks R E landmark).left_knee
          (normalize_pose_landmarks R E landmark).left_ankle,
        Keypoint.midpoint (normalize_pose_landmarks R E landmark).right_knee
          (normalize_pose_landmarks R E landmark).right_ankle] ∧
    get_pose_size demoRuntime FullBodyPoseEmbedder.new standing ≠ 0 ∧
    (get_embedding demoRuntime FullBodyPoseEmbedder.new standing).getD 1 Keypoint.zero =
      ⟨15, -20, 0⟩ ∧
    (normalize_pose_landmarks demoRuntime FullBodyPoseEmbedder.new standing).left_elbow.sub
      (normalize_pose_landmarks demoRuntime FullBodyPoseEmbedder.new standing).left_shoulder =
        ⟨-30, 40, 0⟩ :=
  ⟨embedding_one_joint R (normalize_pose_landmarks R E landmark),
    by with_unfolding_all decide, by with_unfolding_all decide, by with_unfolding_all decide⟩

set_option maxRecDepth 100000 in
/-- C33 (what the code does instead): "left_shoulders" and "right_shoulders" are not among
the 33 names, so the lookup by either runs past its last `if`; `get_pose_distance_embedding`
passes them for the entries 9, 10, 15 and 16, which therefore hold whatever is read
there. Two runtimes that differ only in that value give different embeddings of the
landmark `standing`. -/
theorem embedding_reads_unlisted_names (R : Runtime K) (E : FullBodyPoseEmbedder K)
    (landmark : Landmark K) :
    "left_shoulders" ∉ Landmark.names ∧ "right_shoulders" ∉ Landmark.names ∧
    landmark.byName R.undef "left_shoulders" = R.undef landmark "left_shoulders" ∧
    landmark.byName R.undef "right_shoulders" = R.undef landmark "right_shoulders" ∧
    (get_embedding R E landmark).getD 9 Keypoint.zero =
      ((R.undef (normalize_pose_landmarks R E landmark) "left_shoulders").add
        (normalize_pose_landmarks R E landmark).left_wrist).mulScalar (1 / 2) ∧
    (get_embedding R E landmark).getD 10 Keypoint.zero =
      ((R.undef (normalize_pose_landmarks R E landmark) "right_shoulders").add
        (normalize_pose_landmarks R E landmark).right_wrist).mulScalar (1 / 2) ∧
    (get_embedding R E landmark).getD 15 Keypoint.zero =
      ((R.undef (normalize_pose_landmarks R E landmark) "left_shoulders").add
        (normalize_pose_landmarks R E landmark).left_ankle).mulScalar (1 / 2) ∧
    (get_embedding R E landmark).getD 16 Keypoint.zero =
      ((R.undef (normalize_pose_landmarks R E landmark) "right_shoulders").add
        (normalize_pose_landmarks R E landmark).right_ankle).mulScalar (1 / 2) ∧
    get_embedding demoRuntime FullBodyPoseEmbedder.new standing ≠
      get_embedding otherRuntime FullBodyPoseEmbedder.new standing := by
  obtain ⟨h9, h10, h15, h16⟩ := embedding_unlisted R (normalize_pose_landmarks R E landmark)
  exact ⟨by decide, by decide, rfl, rfl, h9, h10, h15, h16, by with_unfolding_all decide⟩

/-- C34: the result returned by `EMAFilter::filter` has exactly the keys of the sample
passed in this call, whatever the history: a key is in the output if and only if it is in
the sample (for a sample with the keys in map order, the two key vectors are equal), and a
class that is not in the sample has no entry in the output and reads as confidence 0. -/
theorem ema_filter_keys (f : EMAFilter K) (detection : ClassificationResult K) :
    (∀ k, k ∈ (f.filter detection).2.getKeys ↔ k ∈ detection.getKeys) ∧
    (ClassificationResult.Ordered detection.class_confidences →
      (f.filter detection).2.getKeys = detection.getKeys) ∧
    (∀ k, k ∉ detection.getKeys →
      (f.filter detection).2.has_key k = false ∧
      (f.filter detection).2.get_class_confidence k = 0) := by
  refine ⟨EMAFilter.mem_getKeys_filter f detection, fun hres => ?_, fun k hk => ?_⟩
  · rw [EMAFilter.filter_eq_map f detection hres]
    simp only [ClassificationResult.getKeys, List.map_map]
    rfl
  · have hfind := EMAFilter.find_filter f detection k
    rw [if_neg hk] at hfind
    constructor
    · unfold ClassificationResult.has_key
      rw [hfind]
    · unfold ClassificationResult.get_class_confidence
      rw [hfind]

/-- C35 (amended): in exact arithmetic, for a `Filter` and an `EMAFilter` in any state, each
smoothed scalar (a box
coordinate, a landmark coordinate, the confidence of a class key of the newest sample, a
missing entry counting as 0) lies between any lower and upper bound of that field over the
retained history, hence between its minimum and maximum; and the first call on a fresh
filter returns its input (for a class result, one whose keys are in map order). -/
theorem filter_within_history (data : List (BoundingBox K)) (data_landmark : List (Landmark K))
    (history : List (ClassificationResult K)) (detection : BoundingBox K)
    (landmark : Landmark K) (result : ClassificationResult K) :
    (∀ π ∈ [BoundingBox.xmin, BoundingBox.ymin, BoundingBox.xmax, BoundingBox.ymax],
      ∀ lo hi : K,
        (∀ b ∈ ((Filter.withHistory data data_landmark).filter_bbox detection).1.data,
          lo ≤ π b ∧ π b ≤ hi) →
        lo ≤ π ((Filter.withHistory data data_landmark).filter_bbox detection).2 ∧
        π ((Filter.withHistory data data_landmark).filter_bbox detection).2 ≤ hi) ∧
    (∀ i < 33, ∀ ρ ∈ [Keypoint.x, Keypoint.y, Keypoint.z], ∀ lo hi : K,
        (∀ l ∈ ((Filter.withHistory data data_landmark).filter_landmark
            landmark).1.data_landmark, lo ≤ ρ (l.get i) ∧ ρ (l.get i) ≤ hi) →
        lo ≤ ρ (((Filter.withHistory data data_landmark).filter_landmark landmark).2.get i) ∧
        ρ (((Filter.withHistory data data_landmark).filter_landmark landmark).2.get i) ≤ hi) ∧
    (∀ k ∈ result.getKeys, ∀ lo hi : K,
        (∀ r ∈ ((EMAFilter.withHistory history).filter result).1.data,
          lo ≤ r.get_class_confidence k ∧ r.get_class_confidence k ≤ hi) →
        lo ≤ ((EMAFilter.withHistory history).filter result).2.get_class_confidence k ∧
        ((EMAFilter.withHistory history).filter result).2.get_class_confidence k ≤ hi) ∧
    ((Filter.new : Filter K).filter_bbox detection).2 = detection ∧
    ((Filter.new : Filter K).filter_landmark landmark).2 = landmark ∧
    (ClassificationResult.Ordered result.class_confidences →
      ((EMAFilter.new : EMAFilter K).filter result).2 = result) := by
  have ha1 : (0 : K) ≤ 1 - 1 / 10 := by norm_num
  have ha2 : (0 : K) ≤ 1 - 2 / 5 := by norm_num
  have ha3 : (0 : K) ≤ 1 - 1 / 5 := by norm_num
  refine ⟨?_, ?_, ?_, Filter.filter_bbox_first detection, Filter.filter_landmark_first landmark,
    EMAFilter.filter_first result⟩
  · intro π hπ lo hi hb
    have hmean : π ((Filter.withHistory data data_landmark).filter_bbox detection).2 =
        Filter.weightedMean (1 - 1 / 10)
          (((Filter.withHistory data data_landmark).filter_bbox detection).1.data.map π) := by
      simp only [List.mem_cons, List.mem_singleton, List.not_mem_nil, or_false] at hπ
      rcases hπ with rfl | rfl | rfl | rfl <;>
        exact Filter.filter_bbox_field _ detection _ (fun _ _ _ => rfl) (fun _ _ => rfl) rfl
          (fun _ _ => rfl)
    rw [hmean]
    apply Filter.weightedMean_bounds _ ha1
    · intro hnil
      exact Filter.push_ne_nil 10 detection data (by norm_num) (List.map_eq_nil_iff.mp hnil)
    · intro x hx
      obtain ⟨b, hbmem, rfl⟩ := List.mem_map.mp hx
      exact hb b hbmem
  · intro i hi ρ hρ lo hi' hl
    have hmean : ρ (((Filter.withHistory data data_landmark).filter_landmark landmark).2.get i) =
        Filter.weightedMean (1 - 2 / 5)
          (((Filter.withHistory data data_landmark).filter_landmark
            landmark).1.data_landmark.map (fun l => ρ (l.get i))) := by
      simp only [List.mem_cons, List.mem_singleton, List.not_mem_nil, or_false] at hρ
      rcases hρ with rfl | rfl | rfl <;>
        exact Filter.filter_landmark_field _ landmark i hi _ (fun _ _ => rfl) (fun _ _ => rfl)
          (fun _ _ => rfl) rfl (fun _ _ => rfl)
    rw [hmean]
    apply Filter.weightedMean_bounds _ ha2
    · intro hnil
      exact Filter.push_ne_nil 10 landmark data_landmark (by norm_num)
        (List.map_eq_nil_iff.mp hnil)
    · intro x hx
      obtain ⟨l, hlmem, rfl⟩ := List.mem_map.mp hx
      exact hl l hlmem
  · intro k hk lo hi hr
    have hfind := EMAFilter.find_filter (EMAFilter.withHistory history) result k
    rw [if_pos hk] at hfind
    have hmean : ((EMAFilter.withHistory history).filter result).2.get_class_confidence k =
        Filter.weightedMean (1 - 1 / 5)
          (((EMAFilter.withHistory history).filter result).1.data.map
            (fun r => r.get_class_confidence k)) := by
      unfold ClassificationResult.get_class_confidence
      rw [hfind]
      exact EMAFilter.smooth_key_eq _ _ _
    rw [hmean]
    apply Filter.weightedMean_bounds _ ha3
    · intro hnil
      exact Filter.push_ne_nil 10 result history (by norm_num) (List.map_eq_nil_iff.mp hnil)
    · intro x hx
      obtain ⟨r, hrmem, rfl⟩ := List.mem_map.mp hx
      exact hr r hrmem

set_option maxRecDepth 100000 in
/-- C35 (counterexample): with every operation rounded as IEEE 754 `float` and `double`
arithmetic rounds it, a fresh `Filter` that is given the box with every coordinate 7 twice
retains the history of the two boxes and returns `xmin = 14680063 / 2097152`
(6.9999995...) from the second call, below the minimum 7 of the history. -/
theorem filter_bbox_rounded_counterexample :
    (Rounded.Filter.filter_bbox ieee
        (Rounded.Filter.filter_bbox ieee (Rounded.Filter.new ieee) sevenBox).1 sevenBox).1.data =
      [sevenBox, sevenBox] ∧
    (Rounded.Filter.filter_bbox ieee
        (Rounded.Filter.filter_bbox ieee (Rounded.Filter.new ieee) sevenBox).1 sevenBox).2.xmin
      < 7 ∧
    (Rounded.Filter.filter_bbox ieee
        (Rounded.Filter.filter_bbox ieee (Rounded.Filter.new ieee) sevenBox).1
          sevenBox).2.xmin.num = 14680063 ∧
    (Rounded.Filter.filter_bbox ieee
        (Rounded.Filter.filter_bbox ieee (Rounded.Filter.new ieee) sevenBox).1
          sevenBox).2.xmin.den = 2097152 := by
  with_unfolding_all decide

/-- C36: for every list of detections and every threshold, the output of `nms` is in
non-increasing score order, every output element is one of the input detections, and for
a non-empty input the first output element has the maximum score of the input. -/
theorem nms_sorted_subset_head (S : StdSortDesc (PoseDetection K) PoseDetection.score)
    (poses : List (PoseDetection K)) (nms_threshold : K) :
    (PoseDetectionInterpreter.nms S poses nms_threshold).Pairwise
      (fun a b => b.score ≤ a.score) ∧
    (∀ d ∈ PoseDetectionInterpreter.nms S poses nms_threshold, d ∈ poses) ∧
    (poses ≠ [] →
      ∃ first, (PoseDetectionInterpreter.nms S poses nms_threshold).head? = some first ∧
        first ∈ poses ∧ ∀ d ∈ poses, d.score ≤ first.score) := by
  have hmem : ∀ d ∈ PoseDetectionInterpreter.nms S poses nms_threshold, d ∈ poses :=
    fun d hd => (S.perm poses).subset
      ((PoseDetectionInterpreter.nms_sublist S poses nms_threshold).subset hd)
  refine ⟨PoseDetectionInterpreter.nms_sorted S poses nms_threshold, hmem, fun hne => ?_⟩
  obtain ⟨first, hhead, hmax⟩ := PoseDetectionInterpreter.nms_head S poses nms_threshold hne
  exact ⟨first, hhead, hmem first (List.mem_of_mem_head? hhead), hmax⟩

/-- C37: `nms` is idempotent on detections with pairwise distinct scores: applying `nms`
with the same threshold to its own output returns that output, whichever conforming sort
either call uses. -/
theorem nms_idempotent (S S' : StdSortDesc (PoseDetection K) PoseDetection.score)
    (poses : List (PoseDetection K)) (nms_threshold : K)
    (h : (poses.map PoseDetection.score).Nodup) :
    PoseDetectionInterpreter.nms S' (PoseDetectionInterpreter.nms S poses nms_threshold)
      nms_threshold = PoseDetectionInterpreter.nms S poses nms_threshold :=
  PoseDetectionInterpreter.nms_nms S S' poses nms_threshold h

set_option maxRecDepth 100000 in
/-- C37 on the two detections of scores 6/10 and 9/10 whose boxes overlap with IoU 1/3,
at the threshold 3/10: the first pass keeps the stronger one only. -/
theorem nms_idempotent_witness :
    ([weakDetection, strongDetection].map PoseDetection.score).Nodup ∧
    PoseDetectionInterpreter.nms (insertionSortDesc PoseDetection.score)
        [weakDetection, strongDetection] (3 / 10) = [strongDetection] ∧
    PoseDetectionInterpreter.nms (rotateSortDesc PoseDetection.score)
      (PoseDetectionInterpreter.nms (insertionSortDesc PoseDetection.score)
        [weakDetection, strongDetection] (3 / 10)) (3 / 10) =
      PoseDetectionInterpreter.nms (insertionSortDesc PoseDetection.score)
        [weakDetection, strongDetection] (3 / 10) :=
  ⟨by with_unfolding_all decide, by with_unfolding_all decide,
   nms_idempotent (insertionSortDesc PoseDetection.score) (rotateSortDesc PoseDetection.score)
     [weakDetection, strongDetection] (3 / 10) (by with_unfolding_all decide)⟩

/-- C38: `iou` is symmetric for all boxes; for well-formed boxes it is at most 1; and the
IoU of a well-formed box of positive area with itself is 1. -/
theorem iou_symmetric_bounded (a b : BoundingBox K) :
    PoseDetectionInterpreter.iou a b = PoseDetectionInterpreter.iou b a ∧
    (a.WellFormed → b.WellFormed → PoseDetectionInterpreter.iou a b ≤ 1) ∧
    (a.WellFormed → 0 < a.area → PoseDetectionInterpreter.iou a a = 1) :=
  ⟨PoseDetectionInterpreter.iou_comm a b, PoseDetectionInterpreter.iou_le_one a b,
    PoseDetectionInterpreter.iou_self a⟩

set_option maxRecDepth 100000 in
/-- C38 on the boxes `(0, 0)-(2, 2)` and `(1, 0)-(3, 2)`: the IoU is 1/3 both ways, and the
IoU of the first with itself is 1. -/
theorem iou_symmetric_bounded_witness :
    strongDetection.bbox.WellFormed ∧ weakDetection.bbox.WellFormed ∧
    0 < strongDetection.bbox.area ∧
    PoseDetectionInterpreter.iou strongDetection.bbox weakDetection.bbox = 1 / 3 ∧
    PoseDetectionInterpreter.iou strongDetection.bbox weakDetection.bbox =
      PoseDetectionInterpreter.iou weakDetection.bbox strongDetection.bbox ∧
    PoseDetectionInterpreter.iou strongDetection.bbox weakDetection.bbox ≤ 1 ∧
    PoseDetectionInterpreter.iou strongDetection.bbox strongDetection.bbox = 1 :=
  have hs : strongDetection.bbox.WellFormed := by
    unfold BoundingBox.WellFormed
    with_unfolding_all decide
  have hw : weakDetection.bbox.WellFormed := by
    unfold BoundingBox.WellFormed
    with_unfolding_all decide
  have hp : 0 < strongDetection.bbox.area := by with_unfolding_all decide
  ⟨hs, hw, hp, by with_unfolding_all decide,
   (iou_symmetric_bounded strongDetection.bbox weakDetection.bbox).1,
   (iou_symmetric_bounded strongDetection.bbox weakDetection.bbox).2.1 hs hw,
   (iou_symmetric_bounded strongDetection.bbox strongDetection.bbox).2.2 hs hp⟩

/-- C39 (amended): in exact arithmetic, for a landmark with non-zero pose size, a scale
`k > 0` and a translation `t`,
`get_embedding` of the landmark whose points are `k * p + t` equals `get_embedding` of the
landmark itself, for a square root that is homogeneous (`sqrt(k^2 * x) = k * sqrt(x)`, as
the real one is), the value read under an unlisted name being a function of the
normalized landmark. -/
theorem get_embedding_similar (R : Runtime K) (E : FullBodyPoseEmbedder K)
    (landmark : Landmark K) (k : K) (t : Keypoint K) (hk : 0 < k)
    (hsqrt : ∀ x, R.sqrt (k ^ 2 * x) = k * R.sqrt x)
    (_hs : get_pose_size R E landmark ≠ 0) :
    get_embedding R E (Landmark.similar k t landmark) = get_embedding R E landmark := by
  unfold get_embedding
  rw [normalize_similar R E landmark k t hk hsqrt]

/-- Witness of the amended C39: over the reals, with the real square root, the landmark
`standingIn ℝ` scaled by 2 and moved by `(1, 2, 3)`. -/
theorem get_embedding_similar_witness :
    (0 : ℝ) < 2 ∧
    (∀ x, (⟨Real.sqrt, fun _ _ => Keypoint.zero⟩ : Runtime ℝ).sqrt (2 ^ 2 * x) =
      2 * (⟨Real.sqrt, fun _ _ => Keypoint.zero⟩ : Runtime ℝ).sqrt x) ∧
    get_pose_size ⟨Real.sqrt, fun _ _ => Keypoint.zero⟩ FullBodyPoseEmbedder.new
      (standingIn ℝ) ≠ 0 ∧
    get_embedding ⟨Real.sqrt, fun _ _ => Keypoint.zero⟩ FullBodyPoseEmbedder.new
        (Landmark.similar 2 ⟨1, 2, 3⟩ (standingIn ℝ)) =
      get_embedding ⟨Real.sqrt, fun _ _ => Keypoint.zero⟩ FullBodyPoseEmbedder.new
        (standingIn ℝ) :=
  ⟨by norm_num, sqrt_scaled, pose_size_standing _ rfl,
   get_embedding_similar ⟨Real.sqrt, fun _ _ => Keypoint.zero⟩ FullBodyPoseEmbedder.new
     (standingIn ℝ) 2 ⟨1, 2, 3⟩ (by norm_num) sqrt_scaled (pose_size_standing _ rfl)⟩

set_option maxRecDepth 100000 in
/-- C39 (counterexample): with every operation rounded as IEEE 754 `float` and `double`
arithmetic rounds it and the IEEE 754 square root, the landmark `kneeAt 1 10` has a
positive pose size, and the `y` of entry 0 of its embedding, `-5216861 / 131072`, is below
the `y` of entry 0 of the embedding of the landmark scaled by 3 and moved by `(1, 2, 3)`,
`-10433721 / 262144`. -/
theorem get_embedding_rounded_counterexample :
    0 < Rounded.FullBodyPoseEmbedder.get_pose_size ieee ieeeRuntime FullBodyPoseEmbedder.new
      (kneeAt 1 10) ∧
    ((Rounded.FullBodyPoseEmbedder.get_embedding ieee ieeeRuntime FullBodyPoseEmbedder.new
      (kneeAt 1 10)).getD 0 Keypoint.zero).y <
    ((Rounded.FullBodyPoseEmbedder.get_embedding ieee ieeeRuntime FullBodyPoseEmbedder.new
      (Landmark.similar 3 ⟨1, 2, 3⟩ (kneeAt 1 10))).getD 0 Keypoint.zero).y ∧
    ((Rounded.FullBodyPoseEmbedder.get_embedding ieee ieeeRuntime FullBodyPoseEmbedder.new
      (kneeAt 1 10)).getD 0 Keypoint.zero).y.num = -5216861 ∧
    ((Rounded.FullBodyPoseEmbedder.get_embedding ieee ieeeRuntime FullBodyPoseEmbedder.new
      (kneeAt 1 10)).getD 0 Keypoint.zero).y.den = 131072 ∧
    ((Rounded.FullBodyPoseEmbedder.get_embedding ieee ieeeRuntime FullBodyPoseEmbedder.new
      (Landmark.similar 3 ⟨1, 2, 3⟩ (kneeAt 1 10))).getD 0 Keypoint.zero).y.num = -10433721 ∧
    ((Rounded.FullBodyPoseEmbedder.get_embedding ieee ieeeRuntime FullBodyPoseEmbedder.new
      (Landmark.similar 3 ⟨1, 2, 3⟩ (kneeAt 1 10))).getD 0 Keypoint.zero).y.den = 262144 := by
  with_unfolding_all decide

/-- C40 (amended): in exact arithmetic, over the reals with the real square root, for a
landmark with non-zero pose size, each of the 33 points of the normalized landmark lies within 2D distance 100 of the
origin, and the 2D length of embedding entry 0 is at most 40. -/
theorem normalized_within_bounds (R : Runtime ℝ) (hsqrt : R.sqrt = Real.sqrt)
    (landmark : Landmark ℝ) (hs : get_pose_size R FullBodyPoseEmbedder.new landmark ≠ 0) :
    (∀ i, i < 33 →
      Keypoint.d2 Real.sqrt ((normalize_pose_landmarks R .new landmark).get i) Keypoint.zero ≤
        100) ∧
    Keypoint.d2 Real.sqrt ((get_embedding R .new landmark).getD 0 Keypoint.zero)
      Keypoint.zero ≤ 40 :=
  normalized_bounds R hsqrt landmark hs

/-- Witness of the amended C40: the landmark `standingIn ℝ`. -/
theorem normalized_within_bounds_witness :
    (⟨Real.sqrt, fun _ _ => Keypoint.zero⟩ : Runtime ℝ).sqrt = Real.sqrt ∧
    get_pose_size ⟨Real.sqrt, fun _ _ => Keypoint.zero⟩ FullBodyPoseEmbedder.new
      (standingIn ℝ) ≠ 0 ∧
    (∀ i, i < 33 →
      Keypoint.d2 Real.sqrt
        ((normalize_pose_landmarks ⟨Real.sqrt, fun _ _ => Keypoint.zero⟩ .new
          (standingIn ℝ)).get i) Keypoint.zero ≤ 100) ∧
    Keypoint.d2 Real.sqrt
      ((get_embedding ⟨Real.sqrt, fun _ _ => Keypoint.zero⟩ .new (standingIn ℝ)).getD 0
        Keypoint.zero) Keypoint.zero ≤ 40 :=
  ⟨rfl, pose_size_standing _ rfl,
   normalized_within_bounds ⟨Real.sqrt, fun _ _ => Keypoint.zero⟩ rfl (standingIn ℝ)
     (pose_size_standing _ rfl)⟩

set_option maxRecDepth 100000 in
/-- C40 (counterexample): with every operation rounded as IEEE 754 `float` and `double`
arithmetic rounds it and the IEEE 754 square root, point 25 of the normalized landmark
`kneeAt 5 12` has `x^2 + y^2 > 100^2`, and entry 0 of the embedding of the landmark
`leaning`, `(9378749 / 524288, -9378749 / 262144)`, has `x^2 + y^2 > 40^2`; both
landmarks have a positive pose size. -/
theorem normalized_rounded_counterexample :
    0 < Rounded.FullBodyPoseEmbedder.get_pose_size ieee ieeeRuntime FullBodyPoseEmbedder.new
      (kneeAt 5 12) ∧
    100 ^ 2 <
      ((Rounded.FullBodyPoseEmbedder.normalize_pose_landmarks ieee ieeeRuntime
          FullBodyPoseEmbedder.new (kneeAt 5 12)).get 25).x ^ 2 +
      ((Rounded.FullBodyPoseEmbedder.normalize_pose_landmarks ieee ieeeRuntime
          FullBodyPoseEmbedder.new (kneeAt 5 12)).get 25).y ^ 2 ∧
    0 < Rounded.FullBodyPoseEmbedder.get_pose_size ieee ieeeRuntime FullBodyPoseEmbedder.new
      leaning ∧
    40 ^ 2 <
      ((Rounded.FullBodyPoseEmbedder.get_embedding ieee ieeeRuntime FullBodyPoseEmbedder.new
          leaning).getD 0 Keypoint.zero).x ^ 2 +
      ((Rounded.FullBodyPoseEmbedder.get_embedding ieee ieeeRuntime FullBodyPoseEmbedder.new
          leaning).getD 0 Keypoint.zero).y ^ 2 ∧
    ((Rounded.FullBodyPoseEmbedder.get_embedding ieee ieeeRuntime FullBodyPoseEmbedder.new
        leaning).getD 0 Keypoint.zero).x.num = 9378749 ∧
    ((Rounded.FullBodyPoseEmbedder.get_embedding ieee ieeeRuntime FullBodyPoseEmbedder.new
        leaning).getD 0 Keypoint.zero).x.den = 524288 ∧
    ((Rounded.FullBodyPoseEmbedder.get_embedding ieee ieeeRuntime FullBodyPoseEmbedder.new
        leaning).getD 0 Keypoint.zero).y.num = -9378749 ∧
    ((Rounded.FullBodyPoseEmbedder.get_embedding ieee ieeeRuntime FullBodyPoseEmbedder.new
        leaning).getD 0 Keypoint.zero).y.den = 262144 := by
  with_unfolding_all decide

end MainTheorems

end SmartFitness
